import Mathlib

/-!
# Filesystem snapshot backend of the backup subsystem

A shallow embedding of `modules/storage-filesystem/snapshot.go` and of the
generated binder `adapters/handlers/rest/operations/backups/backups_restore_parameters.go`.

The operating system is modelled as an explicit world: a filesystem (a map from
cleaned absolute paths to nodes), a counter of context polls, and a log of the
system calls made so far together with the filesystem each call left behind.
Every Go function becomes a function from a world to a result and a new world.
-/

namespace Weaviate

/-! ## Paths (`path/filepath`) -/

/-- A cleaned absolute path, as its list of components; the root is `[]`. -/
abbrev Path := List String

/-- Split a list of characters at every slash; `cur` holds the current component reversed. -/
def splitSlashAux : List Char → List Char → List String
  | cur, [] => [String.mk cur.reverse]
  | cur, c :: cs =>
    if c = '/' then String.mk cur.reverse :: splitSlashAux [] cs
    else splitSlashAux (c :: cur) cs

/-- The components of a raw path string, empty components included. -/
def splitSlash (s : String) : List String := splitSlashAux [] s.data

/-- One step of `filepath.Clean` on a rooted path: `stack` is the cleaned path so far,
innermost component first. Empty components and `.` are dropped, `..` removes the
innermost component and is dropped at the root. -/
def cleanStep (stack : List String) (c : String) : List String :=
  if c = "" ∨ c = "." then stack
  else if c = ".." then stack.tail
  else c :: stack

/-- The function `filepath.Clean` on a rooted path given by its raw components. -/
def cleanAbs (comps : List String) : Path := (comps.foldl cleanStep []).reverse

/-- The function `filepath.Join(base, elems...)` for a rooted `base`: the elements are
joined with slashes and the result is cleaned. -/
def filepathJoin (base : Path) (elems : List String) : Path :=
  cleanAbs (base ++ (elems.map splitSlash).flatten)

/-- The function `path.Dir` on a cleaned rooted path. -/
def pathDir (p : Path) : Path := p.dropLast

/-- String concatenation `p + suffix` on a cleaned rooted path: the suffix is glued to
the last component (to the root slash when there is none). -/
def pathAddSuffix (p : Path) (suffix : String) : Path :=
  match p.getLast? with
  | some c => p.dropLast ++ [c ++ suffix]
  | none => [suffix]

/-- One step of cleaning a path relative to an unknown directory: `none` as soon as a
`..` climbs above the starting directory. -/
def localStep (stack : Option (List String)) (c : String) : Option (List String) :=
  match stack with
  | none => none
  | some st =>
    if c = "" ∨ c = "." then some st
    else if c = ".." then (match st with | [] => none | _ :: rest => some rest)
    else some (c :: st)

/-- The cleaned components of a raw path that never climbs above the directory it is
joined to (what `filepath.IsLocal` accepts, a leading slash being ignored as `Join`
ignores it); `none` for a path that escapes. -/
def localComponents (rel : String) : Option (List String) :=
  ((splitSlash rel).foldl localStep (some [])).map List.reverse

/-! ## Filesystem -/

/-- File content. -/
abbrev Bytes := List Nat

/-- A filesystem node: a regular file with its content, or a directory. -/
inductive Node where
  | file (content : Bytes)
  | dir
  deriving DecidableEq, Repr

/-- The filesystem: what each cleaned absolute path holds. -/
abbrev FS := Path → Option Node

/-- Error numbers the modelled system calls can return. -/
inductive Errno where
  | ENOENT
  | ENOTDIR
  | EISDIR
  | EEXIST
  | EINVAL
  deriving DecidableEq, Repr

/-- Whether a node is a regular file. -/
def isFile : Option Node → Bool
  | some (.file _) => true
  | _ => false

/-- Whether some path on the way from the root to `p` (`p` included) is a regular file. -/
def fileOnPath (fs : FS) (p : Path) : Bool := p.inits.any (fun q => isFile (fs q))

/-- Replace what `p` holds. -/
def FS.set (fs : FS) (p : Path) (n : Option Node) : FS := fun q => if q = p then n else fs q

/-- A filesystem is a tree: the root is a directory and everything that exists lies in
directories. -/
def FS.WF (fs : FS) : Prop :=
  fs [] = some .dir ∧ ∀ p q, fs p ≠ none → q <+: p → q ≠ p → fs q = some .dir

/-- Path resolution as done by `stat(2)` and `open(2)`: the node at `p`, `ENOTDIR` when a
regular file lies on the way, `ENOENT` when nothing is there. -/
def statFS (fs : FS) (p : Path) : Except Errno Node :=
  match fs p with
  | some n => .ok n
  | none => if fileOnPath fs p then .error .ENOTDIR else .error .ENOENT

/-- The function `os.MkdirAll`: fails when a regular file lies on the way, otherwise every
missing directory down to `p` is created. -/
def mkdirAllFS (fs : FS) (p : Path) : Except Errno FS :=
  if fileOnPath fs p then .error .ENOTDIR
  else .ok (fun q => if q <+: p then some .dir else fs q)

/-- Opening `p` with `O_CREATE|O_TRUNC` and writing `content`: the parent must be a
directory and `p` must not be one. -/
def writeFS (fs : FS) (p : Path) (content : Bytes) : Except Errno FS :=
  match fs (pathDir p) with
  | some .dir =>
    (match fs p with
     | some .dir => .error .EISDIR
     | _ => .ok (fs.set p (some (.file content))))
  | some (.file _) => .error .ENOTDIR
  | none => if fileOnPath fs (pathDir p) then .error .ENOTDIR else .error .ENOENT

/-- The function `os.Rename`: Go refuses a directory as the target (`EEXIST`); a regular
file replaces the target, a directory moves with everything below it. -/
def renameFS (fs : FS) (old new : Path) : Except Errno FS :=
  match fs old with
  | none => if fileOnPath fs old then .error .ENOTDIR else .error .ENOENT
  | some n =>
    if fs new = some .dir then .error .EEXIST
    else match fs (pathDir new) with
      | some .dir =>
        if old = new then .ok fs
        else (match n with
          | .file _ => .ok ((fs.set new (some n)).set old none)
          | .dir =>
            if fs new ≠ none then .error .ENOTDIR
            else if old <+: new then .error .EINVAL
            else .ok (fun q =>
              if new <+: q then fs (old ++ q.drop new.length)
              else if old <+: q then none
              else fs q))
      | some (.file _) => .error .ENOTDIR
      | none => if fileOnPath fs (pathDir new) then .error .ENOTDIR else .error .ENOENT

/-- The function `os.Remove` on a regular file. -/
def removeFS (fs : FS) (p : Path) : Except Errno FS :=
  match fs p with
  | some (.file _) => .ok (fs.set p none)
  | some .dir => .error .EISDIR
  | none => if fileOnPath fs p then .error .ENOTDIR else .error .ENOENT

/-! ## Errors -/

/-- Modelled from the spec: the error kinds `notFound`, `internal`, `contextExpired` and
`alreadyExists` of package `entities/backup` (its constructors `NewErrNotFound`,
`NewErrInternal`, `NewErrContextExpired` are not part of the sources at hand), as listed
in the error taxonomy of the specification. The other constructors are the errors of
packages `os` (`sys`), `context` (`ctxDone`), `encoding/json` (`json`) and
`github.com/pkg/errors` (`plain` for `Errorf`, `wrap` for `Wrap` and `Wrapf`). -/
inductive Err where
  | sys (e : Errno)
  | ctxDone
  | json (msg : String)
  | plain (msg : String)
  | wrap (msg : String) (cause : Err)
  | notFound (cause : Err)
  | internal (cause : Err)
  | contextExpired (cause : Err)
  | alreadyExists (cause : Err)
  deriving DecidableEq, Repr

/-- The test `errors.Is(err, os.ErrNotExist)` on the result of a system call. -/
def isNotExist : Errno → Bool
  | .ENOENT => true
  | _ => false

/-- Whether an error is of kind NotFound. -/
def Err.isNotFound : Err → Bool
  | .notFound _ => true
  | _ => false

/-- Whether an error is of kind Internal. -/
def Err.isInternal : Err → Bool
  | .internal _ => true
  | _ => false

/-- Whether an error is of kind AlreadyExists. -/
def Err.isAlreadyExists : Err → Bool
  | .alreadyExists _ => true
  | _ => false

/-- The method `Error()` of an error: its message. -/
def Err.Error : Err → String
  | .sys .ENOENT => "no such file or directory"
  | .sys .ENOTDIR => "not a directory"
  | .sys .EISDIR => "is a directory"
  | .sys .EEXIST => "file exists"
  | .sys .EINVAL => "invalid argument"
  | .ctxDone => "context canceled"
  | .json msg => msg
  | .plain msg => msg
  | .wrap msg cause => msg ++ ": " ++ cause.Error
  | .notFound cause => cause.Error
  | .internal cause => cause.Error
  | .contextExpired cause => cause.Error
  | .alreadyExists cause => cause.Error

/-! ## Snapshot descriptor (`entities/backup`) -/

/-- Modelled from the spec: the file record of a descriptor, `{path: relative string}`;
the Go type `backup.SnapshotFile` is not part of the sources at hand. -/
structure SnapshotFile where
  path : String
  deriving DecidableEq, Repr

/-- Modelled from the spec: the snapshot descriptor with the fields of the
`snapshot.json` schema (`className, id, startedAt, completedAt, status, error, files`);
the Go type `backup.Snapshot` is not part of the sources at hand. Timestamps are
numbers, zero meaning unset. -/
structure Snapshot where
  className : String
  id : String
  startedAt : Nat
  completedAt : Nat
  status : String
  error : String
  files : List SnapshotFile
  deriving DecidableEq, Repr

/-- Modelled from the spec: the lifecycle state STARTED, stored as a lowercase string. -/
def CreateStarted : String := "started"

/-- Modelled from the spec: the lifecycle state TRANSFERRING. -/
def CreateTransferring : String := "transferring"

/-- Modelled from the spec: the lifecycle state SUCCESS. -/
def CreateSuccess : String := "success"

/-- Modelled from the spec: the lifecycle state FAILED. -/
def CreateFailed : String := "failed"

/-- Modelled from the spec: `NewSnapshot(className, id, now)` returns a descriptor with
`status = STARTED`, empty files, zero `completedAt`. -/
def NewSnapshot (className id : String) (now : Nat) : Snapshot :=
  { className := className, id := id, startedAt := now, completedAt := 0,
    status := CreateStarted, error := "", files := [] }

/-- The two functions `json.Marshal` and `json.Unmarshal` at type `backup.Snapshot`. The
encoding is a parameter of the development: the code relies on nothing but these two
functions. -/
structure JSON where
  marshal : Snapshot → Except Err Bytes
  unmarshal : Bytes → Except Err Snapshot

/-! ## The world: filesystem, context polls, system-call log -/

/-- The system calls the backend makes. -/
inductive Syscall where
  | stat (p : Path)
  | open (p : Path)
  | mkdirAll (p : Path)
  | create (p : Path)
  | copy (dst src : Path)
  | readFile (p : Path)
  | writeFile (p : Path) (content : Bytes)
  | rename (old new : Path)
  deriving DecidableEq, Repr

/-- One entry of the log: the call, whether it succeeded, the filesystem it left. -/
structure LogEntry where
  call : Syscall
  ok : Bool
  after : FS

/-- The state of the machine the backend runs on. -/
structure World where
  fs : FS
  polls : Nat
  log : List LogEntry

/-- Append a call to the log and install the filesystem it left. -/
def World.record (w : World) (call : Syscall) (ok : Bool) (fs : FS) : World :=
  { w with fs := fs, log := w.log ++ [{ call := call, ok := ok, after := fs }] }

/-- A cancellation context: it is done from the poll numbered `cancelAt` on, never when
`cancelAt` is `none`. A context that is done stays done. -/
structure Context where
  cancelAt : Option Nat
  deriving DecidableEq, Repr

/-- A context that is never cancelled. -/
def Context.background : Context := { cancelAt := none }

/-- The method `ctx.Err()`: one poll of the context. -/
def ctxErr (ctx : Context) (w : World) : Option Err × World :=
  match ctx.cancelAt with
  | some k =>
    if k ≤ w.polls then (some .ctxDone, { w with polls := w.polls + 1 })
    else (none, { w with polls := w.polls + 1 })
  | none => (none, { w with polls := w.polls + 1 })

/-- The function `os.Stat`. -/
def osStat (w : World) (p : Path) : Except Errno Node × World :=
  match statFS w.fs p with
  | .ok n => (.ok n, w.record (.stat p) true w.fs)
  | .error e => (.error e, w.record (.stat p) false w.fs)

/-- The function `os.Open`; the handle it returns is the path itself. -/
def osOpen (w : World) (p : Path) : Option Errno × World :=
  match statFS w.fs p with
  | .ok _ => (none, w.record (.open p) true w.fs)
  | .error e => (some e, w.record (.open p) false w.fs)

/-- The function `os.MkdirAll`. -/
def osMkdirAll (w : World) (p : Path) : Option Errno × World :=
  match mkdirAllFS w.fs p with
  | .ok fs => (none, w.record (.mkdirAll p) true fs)
  | .error e => (some e, w.record (.mkdirAll p) false w.fs)

/-- The function `os.Create`: the file is created or truncated. -/
def osCreate (w : World) (p : Path) : Option Errno × World :=
  match writeFS w.fs p [] with
  | .ok fs => (none, w.record (.create p) true fs)
  | .error e => (some e, w.record (.create p) false w.fs)

/-- The function `io.Copy(dst, src)` on two open files: what `src` holds at this moment
is written to `dst`; reading a directory fails. -/
def ioCopy (w : World) (dst src : Path) : Option Errno × World :=
  match w.fs src with
  | some (.file content) => (none, w.record (.copy dst src) true (w.fs.set dst (some (.file content))))
  | some .dir => (some .EISDIR, w.record (.copy dst src) false w.fs)
  | none => (some .ENOENT, w.record (.copy dst src) false w.fs)

/-- Reading a whole file: a directory cannot be read. -/
def readFS (fs : FS) (p : Path) : Except Errno Bytes :=
  match statFS fs p with
  | .ok (.file content) => .ok content
  | .ok .dir => .error .EISDIR
  | .error e => .error e

/-- The function `os.ReadFile`. -/
def osReadFile (w : World) (p : Path) : Except Errno Bytes × World :=
  match readFS w.fs p with
  | .ok content => (.ok content, w.record (.readFile p) true w.fs)
  | .error e => (.error e, w.record (.readFile p) false w.fs)

/-- The function `os.WriteFile`. -/
def osWriteFile (w : World) (p : Path) (content : Bytes) : Option Errno × World :=
  match writeFS w.fs p content with
  | .ok fs => (none, w.record (.writeFile p content) true fs)
  | .error e => (some e, w.record (.writeFile p content) false w.fs)

/-- The function `os.Rename`. -/
def osRename (w : World) (old new : Path) : Option Errno × World :=
  match renameFS w.fs old new with
  | .ok fs => (none, w.record (.rename old new) true fs)
  | .error e => (some e, w.record (.rename old new) false w.fs)

/-! ## The filesystem backend (`modules/storage-filesystem/snapshot.go`) -/

/-- The module: its two directories and the JSON encoding of descriptors. -/
structure StorageFileSystemModule where
  dataPath : Path
  snapshotsPath : Path
  json : JSON

/-- Modelled from the spec: snapshot directory = `snapshotsPath / className / id`
(the helper `makeSnapshotDirPath` is not part of the sources at hand). -/
def makeSnapshotDirPath (m : StorageFileSystemModule) (className id : String) : Path :=
  filepathJoin m.snapshotsPath [className, id]

/-- Modelled from the spec: snapshot file for relative `p` =
`snapshotsPath / className / id / p` (the helper `makeSnapshotFilePath` is not part of
the sources at hand). -/
def makeSnapshotFilePath (m : StorageFileSystemModule) (className id relPath : String) : Path :=
  filepathJoin m.snapshotsPath [className, id, relPath]

/-- Modelled from the spec: meta file = `snapshotsPath / className / id / snapshot.json`
(the helper `makeMetaFilePath` is not part of the sources at hand). -/
def makeMetaFilePath (m : StorageFileSystemModule) (className id : String) : Path :=
  filepathJoin m.snapshotsPath [className, id, "snapshot.json"]

/-- The method `createBackupsDir`. -/
def createBackupsDir (w : World) (snapshotsPath : Path) : Option Err × World :=
  match osMkdirAll w snapshotsPath with
  | (some err, w1) => (some (.internal (.wrap "make snapshot dir" (.sys err))), w1)
  | (none, w1) => (none, w1)

/-- The method `createBackupDir`. -/
def createBackupDir (m : StorageFileSystemModule) (w : World) (snapshot : Snapshot) :
    Path × Option Err × World :=
  let snapshotPath := makeSnapshotDirPath m snapshot.className snapshot.id
  (snapshotPath, createBackupsDir w snapshotPath)

/-- The method `copyFile`. -/
def copyFile (w : World) (dstSnapshotPath srcBasePath : Path) (srcRelPath : String) :
    Option Err × World :=
  let srcAbsPath := filepathJoin srcBasePath [srcRelPath]
  let dstAbsPath := filepathJoin dstSnapshotPath [srcRelPath]
  match osOpen w srcAbsPath with
  | (some err, w1) =>
    (some (.internal (.wrap ("open snapshot source file " ++ srcRelPath) (.sys err))), w1)
  | (none, w1) =>
    match osMkdirAll w1 (pathDir dstAbsPath) with
    | (some err, w2) =>
      (some (.internal
        (.wrap ("create snapshot destination dir for file " ++ srcRelPath) (.sys err))), w2)
    | (none, w2) =>
      match osCreate w2 dstAbsPath with
      | (some err, w3) =>
        (some (.internal
          (.wrap ("create snapshot destination file " ++ srcRelPath) (.sys err))), w3)
      | (none, w3) =>
        match ioCopy w3 dstAbsPath srcAbsPath with
        | (some err, w4) =>
          (some (.internal (.wrap ("copy snapshot file " ++ srcRelPath) (.sys err))), w4)
        | (none, w4) => (none, w4)

/-- The method `saveMeta`. The result of `os.Rename` is discarded; the `err` tested after
it is the variable of `json.Marshal`, which is nil at that point. -/
def saveMeta (m : StorageFileSystemModule) (w : World) (snapshot : Snapshot) :
    Option Err × World :=
  match m.json.marshal snapshot with
  | .error err =>
    (some (.internal (.wrap ("create meta file for snapshot " ++ snapshot.id) err)), w)
  | .ok content =>
    let err : Option Err := none
    let metaFile := makeMetaFilePath m snapshot.className snapshot.id
    let metaDir := pathDir metaFile
    match osMkdirAll w metaDir with
    | (some err, w1) =>
      (some (.internal (.wrap ("create meta file for snapshot " ++ snapshot.id) (.sys err))), w1)
    | (none, w1) =>
      let tmpMetaFile := pathAddSuffix metaFile ".tmp"
      match osWriteFile w1 tmpMetaFile content with
      | (some err, w2) =>
        (some (.internal
          (.wrap ("create temporary meta file for snapshot " ++ snapshot.id) (.sys err))), w2)
      | (none, w2) =>
        match osRename w2 tmpMetaFile metaFile, err with
        | (_, w3), some err =>
          (some (.internal
            (.wrap ("rename temporary meta file for snapshot " ++ snapshot.id) err)), w3)
        | (_, w3), none => (none, w3)

/-- The loop of `StoreSnapshot` over `snapshot.Files`. -/
def storeFiles (m : StorageFileSystemModule) (ctx : Context) (snapshot : Snapshot)
    (dstSnapshotPath : Path) : List SnapshotFile → World → Option Err × World
  | [], w => (none, w)
  | file :: rest, w =>
    match ctxErr ctx w with
    | (some err, w1) => (some (.contextExpired (.wrap "store snapshot aborted" err)), w1)
    | (none, w1) =>
      match copyFile w1 dstSnapshotPath m.dataPath file.path with
      | (some err, w2) => (some err, w2)
      | (none, w2) =>
        let destPath := makeSnapshotFilePath m snapshot.className snapshot.id file.path
        match osStat w2 destPath with
        | (.error _, w3) => (some (.plain "Unable to get size of file"), w3)
        | (.ok _, w3) => storeFiles m ctx snapshot dstSnapshotPath rest w3

/-- The method `StoreSnapshot`. -/
def StoreSnapshot (m : StorageFileSystemModule) (ctx : Context) (w : World)
    (snapshot : Snapshot) : Option Err × World :=
  match ctxErr ctx w with
  | (some err, w1) => (some (.contextExpired (.wrap "store snapshot aborted" err)), w1)
  | (none, w1) =>
    match createBackupDir m w1 snapshot with
    | (_, some err, w2) => (some err, w2)
    | (dstSnapshotPath, none, w2) =>
      match storeFiles m ctx snapshot dstSnapshotPath snapshot.files w2 with
      | (some err, w3) => (some err, w3)
      | (none, w3) =>
        match saveMeta m w3 snapshot with
        | (some err, w4) => (some err, w4)
        | (none, w4) => (none, w4)

/-- The method `loadSnapshotMeta`. -/
def loadSnapshotMeta (m : StorageFileSystemModule) (ctx : Context) (w : World)
    (className snapshotID : String) : Except Err Snapshot × World :=
  match ctxErr ctx w with
  | (some err, w1) => (.error (.wrap "load snapshot meta" err), w1)
  | (none, w1) =>
    let metaPath := makeMetaFilePath m className snapshotID
    match osStat w1 metaPath with
    | (.error err, w2) =>
      if isNotExist err then (.error (.notFound (.sys err)), w2)
      else (.error (.internal (.sys err)), w2)
    | (.ok _, w2) =>
      match osReadFile w2 metaPath with
      | (.error err, w3) =>
        (.error (.internal (.wrap "read snapshot meta file" (.sys err))), w3)
      | (.ok metaData, w3) =>
        match m.json.unmarshal metaData with
        | .error err => (.error (.internal (.wrap "unmarshal snapshot meta" err)), w3)
        | .ok snapshot => (.ok snapshot, w3)

/-- The method `GetMeta`. -/
def GetMeta (m : StorageFileSystemModule) (ctx : Context) (w : World)
    (className snapshotID : String) : Except Err Snapshot × World :=
  loadSnapshotMeta m ctx w className snapshotID

/-- The loop of `RestoreSnapshot` over the files of the loaded descriptor. -/
def restoreFiles (m : StorageFileSystemModule) (ctx : Context) (className snapshotID : String) :
    List SnapshotFile → World → Option Err × World
  | [], w => (none, w)
  | file :: rest, w =>
    let destPath := makeSnapshotFilePath m className snapshotID file.path
    match ctxErr ctx w with
    | (some err, w1) =>
      (some (.wrap "restore snapshot aborted, system might be in an invalid state" err), w1)
    | (none, w1) =>
      match copyFile w1 m.dataPath (makeSnapshotDirPath m className snapshotID) file.path with
      | (some err, w2) =>
        (some (.wrap ("restore snapshot aborted, system might be in an invalid state: file "
          ++ file.path) err), w2)
      | (none, w2) =>
        match copyFile w2 m.dataPath (makeSnapshotDirPath m className snapshotID) file.path with
        | (some err, w3) =>
          (some (.wrap ("restore snapshot aborted, system might be in an invalid state: file "
            ++ file.path) err), w3)
        | (none, w3) =>
          match osStat w3 destPath with
          | (.error _, w4) => (some (.plain "Unable to get size of file"), w4)
          | (.ok _, w4) => restoreFiles m ctx className snapshotID rest w4

/-- The method `RestoreSnapshot`. -/
def RestoreSnapshot (m : StorageFileSystemModule) (ctx : Context) (w : World)
    (className snapshotID : String) : Except Err Snapshot × World :=
  match loadSnapshotMeta m ctx w className snapshotID with
  | (.error err, w1) => (.error (.wrap "restore snapshot" err), w1)
  | (.ok snapshot, w1) =>
    match restoreFiles m ctx className snapshotID snapshot.files w1 with
    | (some err, w2) => (.error err, w2)
    | (none, w2) => (.ok snapshot, w2)

/-- The method `InitSnapshot`; `now` is the reading of `time.Now()`. The context is not
looked at. -/
def InitSnapshot (m : StorageFileSystemModule) (_ctx : Context) (w : World)
    (className snapshotID : String) (now : Nat) : Except Err Snapshot × World :=
  let snapshot := { NewSnapshot className snapshotID now with status := CreateStarted }
  match saveMeta m w snapshot with
  | (some err, w1) => (.error (.internal (.wrap "init snapshot meta" err)), w1)
  | (none, w1) => (.ok snapshot, w1)

/-- The method `SetMetaStatus`. -/
def SetMetaStatus (m : StorageFileSystemModule) (ctx : Context) (w : World)
    (className snapshotID status : String) : Option Err × World :=
  match loadSnapshotMeta m ctx w className snapshotID with
  | (.error err, w1) => (some (.internal (.wrap "set meta status" err)), w1)
  | (.ok snapshot, w1) =>
    let snapshot := { snapshot with status := status }
    match saveMeta m w1 snapshot with
    | (some err, w2) => (some (.internal (.wrap "set meta status" err)), w2)
    | (none, w2) => (none, w2)

/-- The method `SetMetaError`. -/
def SetMetaError (m : StorageFileSystemModule) (ctx : Context) (w : World)
    (className snapshotID : String) (snapErr : Err) : Option Err × World :=
  match loadSnapshotMeta m ctx w className snapshotID with
  | (.error err, w1) => (some (.internal (.wrap "set meta error" err)), w1)
  | (.ok snapshot, w1) =>
    let snapshot := { snapshot with status := CreateFailed, error := snapErr.Error }
    match saveMeta m w1 snapshot with
    | (some err, w2) => (some (.internal (.wrap "set meta error" err)), w2)
    | (none, w2) => (none, w2)

/-- Remove the listed files of a descriptor from the data directory, one `os.Remove` per
file; a file that cannot be removed is skipped. -/
def removeListed (m : StorageFileSystemModule) : List SnapshotFile → FS → FS
  | [], fs => fs
  | file :: rest, fs =>
    match removeFS fs (filepathJoin m.dataPath [file.path]) with
    | .ok fs1 => removeListed m rest fs1
    | .error _ => removeListed m rest fs

/-! ## Request binding (`backups_restore_parameters.go`) -/

/-- The bound parameters of the restore operation that come from the route. The request
body and the raw HTTP request are left out. -/
structure BackupsRestoreParams where
  ID : String
  StorageName : String
  deriving DecidableEq, Repr

/-- The function `NewBackupsRestoreParams`. -/
def NewBackupsRestoreParams : BackupsRestoreParams := { ID := "", StorageName := "" }

/-- The method `bindID`: the last raw value, or the empty string, becomes the ID. -/
def bindID (o : BackupsRestoreParams) (rawData : List String) (_hasKey : Bool) :
    Option Err × BackupsRestoreParams :=
  let raw : String := match rawData.getLast? with
    | some r => r
    | none => ""
  (none, { o with ID := raw })

/-- The method `bindStorageName`. -/
def bindStorageName (o : BackupsRestoreParams) (rawData : List String) (_hasKey : Bool) :
    Option Err × BackupsRestoreParams :=
  let raw : String := match rawData.getLast? with
    | some r => r
    | none => ""
  (none, { o with StorageName := raw })

/-- The method `BindRequest`. Consuming and validating the body is outside the sources at
hand: `bodyErrors` is the list of errors that part appended to `res`. The result is the
list handed to `errors.CompositeValidationError`, `none` when it is empty. -/
def BindRequest (o : BackupsRestoreParams) (bodyErrors : List Err)
    (rID : List String) (rhkID : Bool) (rStorageName : List String) (rhkStorageName : Bool) :
    Option (List Err) × BackupsRestoreParams :=
  let res := bodyErrors
  let (err1, o1) := bindID o rID rhkID
  let res := match err1 with
    | some err => res ++ [err]
    | none => res
  let (err2, o2) := bindStorageName o1 rStorageName rhkStorageName
  let res := match err2 with
    | some err => res ++ [err]
    | none => res
  if res.length > 0 then (some res, o2) else (none, o2)

/-- Modelled from the spec: the bytes an identifier may contain, `[a-z0-9_-]`. -/
def idChar (c : Char) : Bool :=
  ('a' ≤ c ∧ c ≤ 'z') ∨ ('0' ≤ c ∧ c ≤ '9') ∨ c = '_' ∨ c = '-'

/-- Modelled from the spec: an identifier matches `^[a-z0-9_-]{1,128}$`. -/
def matchesIDPattern (s : String) : Bool :=
  1 ≤ s.data.length ∧ s.data.length ≤ 128 ∧ s.data.all idChar

/-! ## A concrete encoding and concrete worlds, for examples -/

/-- A string as its length followed by its character codes. -/
def encodeString (s : String) : Bytes := s.data.length :: s.data.map Char.toNat

/-- Read back a string written by `encodeString`, with what follows it. -/
def decodeString : Bytes → Option (String × Bytes)
  | [] => none
  | n :: rest =>
    if rest.length < n then none
    else some (String.mk ((rest.take n).map Char.ofNat), rest.drop n)

/-- Read back `k` file records. -/
def decodeFiles : Nat → Bytes → Option (List SnapshotFile × Bytes)
  | 0, rest => some ([], rest)
  | k + 1, rest =>
    match decodeString rest with
    | none => none
    | some (p, rest1) =>
      match decodeFiles k rest1 with
      | none => none
      | some (files, rest2) => some ({ path := p } :: files, rest2)

/-- A simple encoding of descriptors, field after field. -/
def encodeSnapshot (s : Snapshot) : Bytes :=
  encodeString s.className ++ encodeString s.id ++ [s.startedAt, s.completedAt]
    ++ encodeString s.status ++ encodeString s.error
    ++ s.files.length :: (s.files.map (fun f => encodeString f.path)).flatten

/-- The decoder of `encodeSnapshot`. -/
def decodeSnapshot (b : Bytes) : Option Snapshot :=
  match decodeString b with
  | none => none
  | some (className, b1) =>
    match decodeString b1 with
    | none => none
    | some (id, b2) =>
      match b2 with
      | startedAt :: completedAt :: b3 =>
        (match decodeString b3 with
         | none => none
         | some (status, b4) =>
           match decodeString b4 with
           | none => none
           | some (error, b5) =>
             match b5 with
             | [] => none
             | k :: b6 =>
               match decodeFiles k b6 with
               | some (files, []) =>
                 some { className := className, id := id, startedAt := startedAt,
                        completedAt := completedAt, status := status, error := error,
                        files := files }
               | _ => none)
      | _ => none

/-- The encoding used in the examples. -/
def demoJSON : JSON :=
  { marshal := fun s => .ok (encodeSnapshot s)
    unmarshal := fun b =>
      match decodeSnapshot b with
      | some s => .ok s
      | none => .error (.json "invalid character") }

/-- The module used in the examples: data in `/data`, snapshots in `/snapshots`. -/
def demoModule : StorageFileSystemModule :=
  { dataPath := ["data"], snapshotsPath := ["snapshots"], json := demoJSON }

/-- The filesystem given by a finite table. -/
def FS.ofList (table : List (Path × Node)) : FS := fun p => table.lookup p

/-- A world with the filesystem of a table, no poll made and nothing logged. -/
def World.ofList (table : List (Path × Node)) : World :=
  { fs := FS.ofList table, polls := 0, log := [] }

/-- The data directory of the examples: `a.txt` holding `foo`, the empty file `dir/b.txt`,
and an empty snapshots directory next to it. -/
def demoTable : List (Path × Node) :=
  [([], .dir), (["data"], .dir), (["data", "a.txt"], .file [102, 111, 111]),
   (["data", "dir"], .dir), (["data", "dir", "b.txt"], .file []), (["snapshots"], .dir)]

/-- The descriptor of the examples: class `Books`, snapshot `snapshot-1`, two files. -/
def demoSnapshot : Snapshot :=
  { className := "Books", id := "snapshot-1", startedAt := 7, completedAt := 0,
    status := CreateStarted, error := "",
    files := [{ path := "a.txt" }, { path := "dir/b.txt" }] }

/-- The world of the examples after `demoSnapshot` has been stored. -/
def demoStored : World :=
  (StoreSnapshot demoModule Context.background (World.ofList demoTable) demoSnapshot).2

/-- A data directory in which `snapshot.json` is a directory holding the file `x`. -/
def nestedMetaTable : List (Path × Node) :=
  [([], .dir), (["data"], .dir), (["data", "snapshot.json"], .dir),
   (["data", "snapshot.json", "x"], .file [120]), (["snapshots"], .dir)]

/-- A descriptor listing the file `snapshot.json/x`. -/
def nestedMetaSnapshot : Snapshot :=
  { className := "Books", id := "snapshot-1", startedAt := 7, completedAt := 0,
    status := CreateStarted, error := "", files := [{ path := "snapshot.json/x" }] }

/-- The calls of a log with their outcome. -/
def callsOf (log : List LogEntry) : List (Syscall × Bool) := log.map (fun e => (e.call, e.ok))

/-- A table in which the descriptor `demoSnapshot` is stored and nothing else. -/
def storedTable : List (Path × Node) :=
  [([], .dir), (["data"], .dir), (["snapshots"], .dir), (["snapshots", "Books"], .dir),
   (["snapshots", "Books", "snapshot-1"], .dir),
   (["snapshots", "Books", "snapshot-1", "snapshot.json"], .file (encodeSnapshot demoSnapshot))]

/-- The descriptor `demoSnapshot` after it has failed with the message `disk full`. -/
def failedSnapshot : Snapshot :=
  { demoSnapshot with status := CreateFailed, error := "disk full" }

/-- A table in which the descriptor `failedSnapshot` is stored and nothing else. -/
def failedTable : List (Path × Node) :=
  [([], .dir), (["data"], .dir), (["snapshots"], .dir), (["snapshots", "Books"], .dir),
   (["snapshots", "Books", "snapshot-1"], .dir),
   (["snapshots", "Books", "snapshot-1", "snapshot.json"],
     .file (encodeSnapshot failedSnapshot))]

/-- A data directory holding a file that is itself called `snapshot.json`. -/
def clashTable : List (Path × Node) :=
  [([], .dir), (["data"], .dir), (["data", "snapshot.json"], .file [1, 2, 3]),
   (["snapshots"], .dir)]

/-- A descriptor listing the data file `snapshot.json`. -/
def clashSnapshot : Snapshot :=
  { className := "Books", id := "snapshot-1", startedAt := 7, completedAt := 0,
    status := CreateStarted, error := "", files := [{ path := "snapshot.json" }] }

/-- A filesystem with the file `escape.txt` next to the data directory. -/
def escapeTable : List (Path × Node) :=
  [([], .dir), (["data"], .dir), (["escape.txt"], .file [7]), (["snapshots"], .dir)]

/-- A descriptor listing a path that climbs out of the data directory. -/
def escapeSnapshot : Snapshot :=
  { className := "Books", id := "snapshot-1", startedAt := 7, completedAt := 0,
    status := CreateStarted, error := "", files := [{ path := "../escape.txt" }] }

/-- A descriptor listing an absolute path. -/
def absoluteSnapshot : Snapshot :=
  { className := "Books", id := "snapshot-1", startedAt := 7, completedAt := 0,
    status := CreateStarted, error := "", files := [{ path := "/a.txt" }] }

/-! ## Notions used in the statements -/

/-- A listed path that stays inside after normalization and does not name the meta file
or its temporary sibling. -/
def listable (rel : String) : Prop :=
  localComponents rel ≠ none ∧ localComponents rel ≠ some ["snapshot.json"]
    ∧ localComponents rel ≠ some ["snapshot.json.tmp"]

instance (rel : String) : Decidable (listable rel) := by
  unfold listable
  infer_instance

/-- A component that cleaning keeps. -/
def plainComponent (c : String) : Prop := ¬ (c = "" ∨ c = ".") ∧ c ≠ ".."

/-- The filesystem after a successful `saveMeta` into the snapshot directory `dir`: the
directories down to `dir` exist, `snapshot.json` holds `content`, and the temporary
sibling is gone. -/
def FS.withMeta (fs : FS) (dir : Path) (content : Bytes) : FS := fun q =>
  if q = dir ++ ["snapshot.json.tmp"] then none
  else if q = dir ++ ["snapshot.json"] then some (.file content)
  else if q <+: dir then some .dir
  else fs q

/-- The filesystem after `os.MkdirAll` succeeded on `p`. -/
def FS.mkdirs (fs : FS) (p : Path) : FS := fun q => if q <+: p then some .dir else fs q

/-- Outside `base` the filesystem `fs1` differs from `fs` only by directories that were
missing on the way from the root to `base`. -/
def Confined (base : Path) (fs fs1 : FS) : Prop :=
  ∀ q, ¬ base <+: q → fs1 q = fs q ∨ (fs q = none ∧ fs1 q = some .dir ∧ q <+: base)

/-- The function `errors.Cause` of `github.com/pkg/errors`: the error under the
annotations added by `Wrap` and `Wrapf`. -/
def Err.Cause : Err → Err
  | .wrap _ cause => cause.Cause
  | e => e

/-- The entries a run added to the log: what `after` holds beyond the log `before`. -/
def newEntries (before after : World) : List LogEntry := after.log.drop before.log.length

/-- The calls of `io.Copy` in a log, as pairs of destination and source, in order. -/
def copiesOf : List LogEntry → List (Path × Path)
  | [] => []
  | e :: rest =>
    match e.call with
    | .copy dst src => (dst, src) :: copiesOf rest
    | _ => copiesOf rest

/-- Modelled from the spec: the loop of a restore that copies each listed file once
(`Specified behavior here: copy once`). It is the loop of `RestoreSnapshot` without the
repeated call of `copyFile`. -/
def restoreFilesOnce (m : StorageFileSystemModule) (ctx : Context)
    (className snapshotID : String) : List SnapshotFile → World → Option Err × World
  | [], w => (none, w)
  | file :: rest, w =>
    let destPath := makeSnapshotFilePath m className snapshotID file.path
    match ctxErr ctx w with
    | (some err, w1) =>
      (some (.wrap "restore snapshot aborted, system might be in an invalid state" err), w1)
    | (none, w1) =>
      match copyFile w1 m.dataPath (makeSnapshotDirPath m className snapshotID) file.path with
      | (some err, w2) =>
        (some (.wrap ("restore snapshot aborted, system might be in an invalid state: file "
          ++ file.path) err), w2)
      | (none, w2) =>
        match osStat w2 destPath with
        | (.error _, w3) => (some (.plain "Unable to get size of file"), w3)
        | (.ok _, w3) => restoreFilesOnce m ctx className snapshotID rest w3

/-- Modelled from the spec: the variant of `RestoreSnapshot` that copies each listed file
once. -/
def RestoreSnapshotOnce (m : StorageFileSystemModule) (ctx : Context) (w : World)
    (className snapshotID : String) : Except Err Snapshot × World :=
  match loadSnapshotMeta m ctx w className snapshotID with
  | (.error err, w1) => (.error (.wrap "restore snapshot" err), w1)
  | (.ok snapshot, w1) =>
    match restoreFilesOnce m ctx className snapshotID snapshot.files w1 with
    | (some err, w2) => (.error err, w2)
    | (none, w2) => (.ok snapshot, w2)

/-- What `copyFile` does to the filesystem and which error it returns, without the log. -/
def copyFileFS (fs : FS) (dstSnapshotPath srcBasePath : Path) (srcRelPath : String) :
    Option Err × FS :=
  match statFS fs (filepathJoin srcBasePath [srcRelPath]) with
  | .error err =>
    (some (.internal (.wrap ("open snapshot source file " ++ srcRelPath) (.sys err))), fs)
  | .ok _ =>
    match mkdirAllFS fs (pathDir (filepathJoin dstSnapshotPath [srcRelPath])) with
    | .error err =>
      (some (.internal
        (.wrap ("create snapshot destination dir for file " ++ srcRelPath) (.sys err))), fs)
    | .ok fs1 =>
      match writeFS fs1 (filepathJoin dstSnapshotPath [srcRelPath]) [] with
      | .error err =>
        (some (.internal
          (.wrap ("create snapshot destination file " ++ srcRelPath) (.sys err))), fs1)
      | .ok fs2 =>
        match fs2 (filepathJoin srcBasePath [srcRelPath]) with
        | some (.file content) =>
          (none, fs2.set (filepathJoin dstSnapshotPath [srcRelPath]) (some (.file content)))
        | some .dir =>
          (some (.internal (.wrap ("copy snapshot file " ++ srcRelPath) (.sys .EISDIR))), fs2)
        | none =>
          (some (.internal (.wrap ("copy snapshot file " ++ srcRelPath) (.sys .ENOENT))), fs2)

/-- The world in which the loop of `StoreSnapshot` starts: after the first poll of the
context and the creation of the snapshot directory. -/
def storeStart (m : StorageFileSystemModule) (ctx : Context) (w : World)
    (snapshot : Snapshot) : World :=
  (createBackupDir m (ctxErr ctx w).2 snapshot).2.2

/-- The system calls `StoreSnapshot` makes for one listed file when all of them succeed:
open the source, make the directories of the destination, create the destination,
copy, stat the destination. -/
def storeCalls (m : StorageFileSystemModule) (snapshot : Snapshot) (file : SnapshotFile) :
    List (Syscall × Bool) :=
  [(.open (filepathJoin m.dataPath [file.path]), true),
   (.mkdirAll (pathDir (filepathJoin
      (makeSnapshotDirPath m snapshot.className snapshot.id) [file.path])), true),
   (.create (filepathJoin (makeSnapshotDirPath m snapshot.className snapshot.id)
      [file.path]), true),
   (.copy (filepathJoin (makeSnapshotDirPath m snapshot.className snapshot.id) [file.path])
      (filepathJoin m.dataPath [file.path]), true),
   (.stat (makeSnapshotFilePath m snapshot.className snapshot.id file.path), true)]

/-- A context that is done from the poll numbered `n` on. -/
def Context.doneFrom (n : Nat) : Context := { cancelAt := some n }

/-- A filesystem with `a.txt` in the data directory and another `a.txt` in a directory
`/snapshot-1` next to it. -/
def twinTable : List (Path × Node) :=
  [([], .dir), (["data"], .dir), (["data", "a.txt"], .file [1]),
   (["snapshot-1"], .dir), (["snapshot-1", "a.txt"], .file [2]), (["snapshots"], .dir)]

/-- A descriptor whose second path climbs out of the data directory and is joined to the
destination of the first. -/
def twinSnapshot : Snapshot :=
  { className := "Books", id := "snapshot-1", startedAt := 7, completedAt := 0,
    status := CreateStarted, error := "",
    files := [{ path := "a.txt" }, { path := "../snapshot-1/a.txt" }, { path := "c.txt" }] }

/-- A module whose snapshots directory lies in its data directory. -/
def nestedModule : StorageFileSystemModule :=
  { dataPath := ["data"], snapshotsPath := ["data", "snapshots"], json := demoJSON }

/-- A data directory of `nestedModule` that holds, from an earlier snapshot, a file in the
snapshot directory of `(Books, snapshot-1)`. -/
def nestedTable : List (Path × Node) :=
  [([], .dir), (["data"], .dir), (["data", "a.txt"], .file [1]),
   (["data", "snapshots"], .dir), (["data", "snapshots", "Books"], .dir),
   (["data", "snapshots", "Books", "snapshot-1"], .dir),
   (["data", "snapshots", "Books", "snapshot-1", "a.txt"], .file [2])]

/-- A descriptor whose second source is the destination of its first file. -/
def nestedSnapshot : Snapshot :=
  { className := "Books", id := "snapshot-1", startedAt := 7, completedAt := 0,
    status := CreateStarted, error := "",
    files := [{ path := "a.txt" }, { path := "snapshots/Books/snapshot-1/a.txt" },
      { path := "c.txt" }] }

/-- The check that a table is a tree. -/
def tableWF (table : List (Path × Node)) : Bool :=
  table.lookup [] == some .dir &&
    table.all (fun entry => entry.1.inits.all (fun q =>
      q == entry.1 || table.lookup q == some .dir))

end Weaviate

namespace Weaviate

/-! ## Lemmas on paths -/

theorem cleanStep_keeps_plain (st : List String) (x : String)
    (h : ∀ c ∈ st, plainComponent c) : ∀ c ∈ cleanStep st x, plainComponent c := by
  intro c hc
  unfold cleanStep at hc
  split_ifs at hc with h1 h2
  · exact h c hc
  · exact h c (List.mem_of_mem_tail hc)
  · rcases List.mem_cons.1 hc with rfl | hc
    · exact ⟨h1, h2⟩
    · exact h c hc

theorem foldl_cleanStep_keeps_plain (xs : List String) :
    ∀ st : List String, (∀ c ∈ st, plainComponent c) →
      ∀ c ∈ xs.foldl cleanStep st, plainComponent c := by
  induction xs with
  | nil => intro st h; simpa using h
  | cons x xs ih =>
    intro st h
    simpa using ih (cleanStep st x) (cleanStep_keeps_plain st x h)

theorem foldl_cleanStep_of_plain (ys : List String) :
    ∀ st : List String, (∀ c ∈ ys, plainComponent c) →
      ys.foldl cleanStep st = ys.reverse ++ st := by
  induction ys with
  | nil => intro st _; simp
  | cons y ys ih =>
    intro st h
    have hy : plainComponent y := h y (List.mem_cons_self _ _)
    have hstep : cleanStep st y = y :: st := by
      unfold cleanStep
      rw [if_neg hy.1, if_neg hy.2]
    simp only [List.foldl_cons, hstep, List.reverse_cons, List.append_assoc,
      List.singleton_append]
    exact ih (y :: st) (fun c hc => h c (List.mem_cons_of_mem _ hc))

theorem cleanAbs_plain (xs : List String) : ∀ c ∈ cleanAbs xs, plainComponent c := by
  intro c hc
  unfold cleanAbs at hc
  exact foldl_cleanStep_keeps_plain xs [] (by simp) c (List.mem_reverse.1 hc)

theorem foldl_cleanStep_cleanAbs (xs : List String) :
    (cleanAbs xs).foldl cleanStep [] = xs.foldl cleanStep [] := by
  rw [foldl_cleanStep_of_plain _ _ (cleanAbs_plain xs)]
  simp [cleanAbs]

theorem cleanAbs_cleanAbs_append (xs ys : List String) :
    cleanAbs (cleanAbs xs ++ ys) = cleanAbs (xs ++ ys) := by
  unfold cleanAbs
  rw [List.foldl_append, List.foldl_append]
  congr 2
  exact foldl_cleanStep_cleanAbs xs

theorem cleanAbs_append_plain (xs ys : List String) (h : ∀ c ∈ ys, plainComponent c) :
    cleanAbs (xs ++ ys) = cleanAbs xs ++ ys := by
  unfold cleanAbs
  rw [List.foldl_append, foldl_cleanStep_of_plain ys _ h]
  simp

theorem makeSnapshotFilePath_eq_join (m : StorageFileSystemModule) (className id rel : String) :
    makeSnapshotFilePath m className id rel
      = filepathJoin (makeSnapshotDirPath m className id) [rel] := by
  unfold makeSnapshotFilePath makeSnapshotDirPath filepathJoin
  rw [cleanAbs_cleanAbs_append]
  simp

theorem splitSlash_snapshot_json : splitSlash "snapshot.json" = ["snapshot.json"] := by decide

theorem makeMetaFilePath_eq (m : StorageFileSystemModule) (className id : String) :
    makeMetaFilePath m className id = makeSnapshotDirPath m className id ++ ["snapshot.json"] := by
  have h : makeMetaFilePath m className id
      = cleanAbs (cleanAbs (m.snapshotsPath ++ (splitSlash className ++ splitSlash id))
          ++ ["snapshot.json"]) := by
    unfold makeMetaFilePath filepathJoin
    rw [cleanAbs_cleanAbs_append]
    simp [splitSlash_snapshot_json]
  rw [h, cleanAbs_append_plain _ _ (by
    intro c hc
    simp only [List.mem_singleton] at hc
    subst hc
    exact ⟨by decide, by decide⟩)]
  unfold makeSnapshotDirPath filepathJoin
  have hidem := cleanAbs_cleanAbs_append
    (m.snapshotsPath ++ (splitSlash className ++ splitSlash id)) []
  simp only [List.append_nil] at hidem
  rw [hidem]
  simp

theorem pathDir_meta (m : StorageFileSystemModule) (className id : String) :
    pathDir (makeMetaFilePath m className id) = makeSnapshotDirPath m className id := by
  rw [makeMetaFilePath_eq]
  simp [pathDir]

theorem tmp_meta (m : StorageFileSystemModule) (className id : String) :
    pathAddSuffix (makeMetaFilePath m className id) ".tmp"
      = makeSnapshotDirPath m className id ++ ["snapshot.json.tmp"] := by
  rw [makeMetaFilePath_eq]
  unfold pathAddSuffix
  rw [List.getLast?_concat]
  simp only [List.dropLast_concat]
  rfl

theorem tmp_ne_meta (m : StorageFileSystemModule) (className id : String) :
    pathAddSuffix (makeMetaFilePath m className id) ".tmp" ≠ makeMetaFilePath m className id := by
  rw [tmp_meta, makeMetaFilePath_eq]
  intro h
  have := List.append_cancel_left h
  revert this
  decide

theorem foldl_localStep_none (xs : List String) : xs.foldl localStep none = none := by
  induction xs with
  | nil => rfl
  | cons x xs ih => simpa [localStep] using ih

theorem foldl_localStep_cleanStep (xs : List String) :
    ∀ st st1 : List String, xs.foldl localStep (some st) = some st1 →
      ∀ base : List String, xs.foldl cleanStep (st ++ base) = st1 ++ base := by
  induction xs with
  | nil =>
    intro st st1 h base
    simp only [List.foldl_nil, Option.some.injEq] at h
    simp [h]
  | cons x xs ih =>
    intro st st1 h base
    simp only [List.foldl_cons] at h ⊢
    by_cases h1 : x = "" ∨ x = "."
    · have e1 : localStep (some st) x = some st := by simp [localStep, h1]
      have e2 : cleanStep (st ++ base) x = st ++ base := by simp [cleanStep, h1]
      rw [e1] at h
      rw [e2]
      exact ih st st1 h base
    · by_cases h2 : x = ".."
      · cases st with
        | nil =>
          have e1 : localStep (some []) x = none := by
            unfold localStep
            simp [h2]
          rw [e1, foldl_localStep_none] at h
          exact absurd h (by simp)
        | cons a rest =>
          have e1 : localStep (some (a :: rest)) x = some rest := by
            unfold localStep
            simp [h2]
          have e2 : cleanStep (a :: rest ++ base) x = rest ++ base := by
            unfold cleanStep
            simp [h2]
          rw [e1] at h
          rw [e2]
          exact ih rest st1 h base
      · have e1 : localStep (some st) x = some (x :: st) := by
          unfold localStep
          simp only [if_neg h1, if_neg h2]
        have e2 : cleanStep (st ++ base) x = x :: st ++ base := by
          unfold cleanStep
          simp only [if_neg h1, if_neg h2, List.cons_append]
        rw [e1] at h
        rw [e2]
        exact ih (x :: st) st1 h base

/-- Joining a path that stays inside to a base appends its cleaned components. -/
theorem filepathJoin_local (base : Path) (rel : String) (r : List String)
    (h : localComponents rel = some r) : filepathJoin base [rel] = cleanAbs base ++ r := by
  unfold localComponents at h
  cases hfold : (splitSlash rel).foldl localStep (some []) with
  | none => rw [hfold] at h; simp at h
  | some st =>
    rw [hfold] at h
    simp only [Option.map_some', Option.some.injEq] at h
    have := foldl_localStep_cleanStep (splitSlash rel) [] st hfold
      (base.foldl cleanStep [])
    unfold filepathJoin cleanAbs
    simp only [List.map_cons, List.map_nil, List.flatten_cons, List.flatten_nil,
      List.append_nil, List.foldl_append]
    simp only [List.nil_append] at this
    rw [this, List.reverse_append, h]

/-! ## Lemmas on the filesystem and the system calls -/

@[simp] theorem World.record_fs (w : World) (c : Syscall) (ok : Bool) (fs : FS) :
    (w.record c ok fs).fs = fs := rfl

@[simp] theorem World.record_polls (w : World) (c : Syscall) (ok : Bool) (fs : FS) :
    (w.record c ok fs).polls = w.polls := rfl

@[simp] theorem World.record_log (w : World) (c : Syscall) (ok : Bool) (fs : FS) :
    (w.record c ok fs).log = w.log ++ [{ call := c, ok := ok, after := fs }] := rfl

theorem ctxErr_live (ctx : Context) (w : World) (h : ctx.cancelAt = none) :
    ctxErr ctx w = (none, { w with polls := w.polls + 1 }) := by
  unfold ctxErr
  rw [h]

theorem concat_not_prefix_self (p : Path) (x : String) : ¬ (p ++ [x]) <+: p := by
  intro h
  have := h.length_le
  simp at this

theorem fileOnPath_eq_true (fs : FS) (p : Path) :
    fileOnPath fs p = true ↔ ∃ q, q <+: p ∧ ∃ b, fs q = some (.file b) := by
  unfold fileOnPath
  rw [List.any_eq_true]
  constructor
  · rintro ⟨q, hq, hf⟩
    refine ⟨q, (List.mem_inits q p).1 hq, ?_⟩
    cases hfs : fs q with
    | none => rw [hfs] at hf; simp [isFile] at hf
    | some n =>
      cases n with
      | file b => exact ⟨b, rfl⟩
      | dir => rw [hfs] at hf; simp [isFile] at hf
  · rintro ⟨q, hq, b, hb⟩
    exact ⟨q, (List.mem_inits q p).2 hq, by rw [hb]; rfl⟩

theorem fileOnPath_eq_false (fs : FS) (p : Path) :
    fileOnPath fs p = false ↔ ∀ q, q <+: p → ∀ b, fs q ≠ some (.file b) := by
  rw [← Bool.not_eq_true, fileOnPath_eq_true]
  constructor
  · intro h q hq b hb
    exact h ⟨q, hq, b, hb⟩
  · rintro h ⟨q, hq, b, hb⟩
    exact h q hq b hb

theorem mkdirAllFS_ok (fs fs1 : FS) (p : Path) (h : mkdirAllFS fs p = .ok fs1) :
    fileOnPath fs p = false ∧ fs1 = fun q => if q <+: p then some .dir else fs q := by
  unfold mkdirAllFS at h
  split_ifs at h with hf
  simp only [Except.ok.injEq] at h
  exact ⟨by simpa using hf, h.symm⟩

theorem mkdirAllFS_error (fs : FS) (p : Path) (e : Errno) (h : mkdirAllFS fs p = .error e) :
    fileOnPath fs p = true := by
  unfold mkdirAllFS at h
  split_ifs at h with hf
  exact hf

theorem writeFS_ok (fs fs1 : FS) (p : Path) (content : Bytes)
    (h : writeFS fs p content = .ok fs1) :
    fs (pathDir p) = some .dir ∧ fs p ≠ some .dir ∧ fs1 = fs.set p (some (.file content)) := by
  unfold writeFS at h
  split at h
  · rename_i hd
    split at h
    · exact absurd h (by simp)
    · rename_i hp
      simp only [Except.ok.injEq] at h
      exact ⟨hd, fun hc => hp hc, h.symm⟩
  · exact absurd h (by simp)
  · split_ifs at h

theorem writeFS_of (fs : FS) (p : Path) (content : Bytes)
    (hd : fs (pathDir p) = some .dir) (hp : fs p ≠ some .dir) :
    writeFS fs p content = .ok (fs.set p (some (.file content))) := by
  unfold writeFS
  rw [hd]
  cases hp1 : fs p with
  | none => rfl
  | some n =>
    cases n with
    | file c => rfl
    | dir => exact absurd hp1 hp

theorem renameFS_file (fs : FS) (old new : Path) (b : Bytes)
    (hold : fs old = some (.file b)) (hne : old ≠ new)
    (hd : fs (pathDir new) = some .dir) :
    renameFS fs old new
      = if fs new = some .dir then .error .EEXIST
        else .ok ((fs.set new (some (.file b))).set old none) := by
  unfold renameFS
  rw [hold]
  by_cases h1 : fs new = some .dir
  · simp only [if_pos h1]
  · simp only [if_neg h1, hd, if_neg hne]

@[simp] theorem FS.set_same (fs : FS) (p : Path) (n : Option Node) : fs.set p n p = n := by
  simp [FS.set]

theorem FS.set_other (fs : FS) (p q : Path) (n : Option Node) (h : q ≠ p) :
    fs.set p n q = fs q := by
  simp [FS.set, h]

/-! ## The meta file: `saveMeta` and `loadSnapshotMeta` step by step -/

/-- The three system calls of `saveMeta` once the descriptor is serialized. -/
theorem saveMeta_eq (m : StorageFileSystemModule) (w : World) (s : Snapshot) (content : Bytes)
    (hm : m.json.marshal s = .ok content) :
    saveMeta m w s =
      match mkdirAllFS w.fs (makeSnapshotDirPath m s.className s.id) with
      | .error e =>
        (some (.internal (.wrap ("create meta file for snapshot " ++ s.id) (.sys e))),
          w.record (.mkdirAll (makeSnapshotDirPath m s.className s.id)) false w.fs)
      | .ok fs1 =>
        match writeFS fs1 (makeSnapshotDirPath m s.className s.id ++ ["snapshot.json.tmp"])
            content with
        | .error e =>
          (some (.internal
              (.wrap ("create temporary meta file for snapshot " ++ s.id) (.sys e))),
            (w.record (.mkdirAll (makeSnapshotDirPath m s.className s.id)) true fs1).record
              (.writeFile (makeSnapshotDirPath m s.className s.id ++ ["snapshot.json.tmp"])
                content) false fs1)
        | .ok fs2 =>
          match renameFS fs2 (makeSnapshotDirPath m s.className s.id ++ ["snapshot.json.tmp"])
              (makeSnapshotDirPath m s.className s.id ++ ["snapshot.json"]) with
          | .ok fs3 =>
            (none,
              ((w.record (.mkdirAll (makeSnapshotDirPath m s.className s.id)) true fs1).record
                (.writeFile (makeSnapshotDirPath m s.className s.id ++ ["snapshot.json.tmp"])
                  content) true fs2).record
                (.rename (makeSnapshotDirPath m s.className s.id ++ ["snapshot.json.tmp"])
                  (makeSnapshotDirPath m s.className s.id ++ ["snapshot.json"])) true fs3)
          | .error _ =>
            (none,
              ((w.record (.mkdirAll (makeSnapshotDirPath m s.className s.id)) true fs1).record
                (.writeFile (makeSnapshotDirPath m s.className s.id ++ ["snapshot.json.tmp"])
                  content) true fs2).record
                (.rename (makeSnapshotDirPath m s.className s.id ++ ["snapshot.json.tmp"])
                  (makeSnapshotDirPath m s.className s.id ++ ["snapshot.json"])) false fs2) := by
  unfold saveMeta
  rw [hm]
  simp only [pathDir_meta, tmp_meta]
  rw [makeMetaFilePath_eq]
  unfold osMkdirAll
  cases h1 : mkdirAllFS w.fs (makeSnapshotDirPath m s.className s.id) with
  | error e => rfl
  | ok fs1 =>
    simp only
    unfold osWriteFile
    simp only [World.record_fs]
    cases h2 : writeFS fs1 (makeSnapshotDirPath m s.className s.id ++ ["snapshot.json.tmp"])
        content with
    | error e => rfl
    | ok fs2 =>
      simp only
      unfold osRename
      simp only [World.record_fs]
      cases h3 : renameFS fs2 (makeSnapshotDirPath m s.className s.id ++ ["snapshot.json.tmp"])
          (makeSnapshotDirPath m s.className s.id ++ ["snapshot.json"]) with
      | error e => rfl
      | ok fs3 => rfl

theorem saveMeta_marshal_error (m : StorageFileSystemModule) (w : World) (s : Snapshot)
    (e : Err) (hm : m.json.marshal s = .error e) :
    saveMeta m w s
      = (some (.internal (.wrap ("create meta file for snapshot " ++ s.id) e)), w) := by
  unfold saveMeta
  rw [hm]

theorem ctxErr_fs (ctx : Context) (w : World) : (ctxErr ctx w).2.fs = w.fs := by
  unfold ctxErr
  split
  · split_ifs <;> rfl
  · rfl

theorem osStat_fs (w : World) (p : Path) : (osStat w p).2.fs = w.fs := by
  unfold osStat
  split <;> rfl

theorem osReadFile_fs (w : World) (p : Path) : (osReadFile w p).2.fs = w.fs := by
  unfold osReadFile
  split <;> rfl

/-- What `loadSnapshotMeta` returns under a context that is not done, read off the
filesystem. -/
theorem loadSnapshotMeta_live (m : StorageFileSystemModule) (ctx : Context) (w : World)
    (className id : String) (hlive : ctx.cancelAt = none) :
    (loadSnapshotMeta m ctx w className id).1 =
      match statFS w.fs (makeMetaFilePath m className id) with
      | .error e =>
        if isNotExist e then .error (.notFound (.sys e)) else .error (.internal (.sys e))
      | .ok _ =>
        match readFS w.fs (makeMetaFilePath m className id) with
        | .error e => .error (.internal (.wrap "read snapshot meta file" (.sys e)))
        | .ok metaData =>
          match m.json.unmarshal metaData with
          | .error e => .error (.internal (.wrap "unmarshal snapshot meta" e))
          | .ok s => .ok s := by
  unfold loadSnapshotMeta
  rw [ctxErr_live ctx w hlive]
  simp only
  unfold osStat
  simp only
  cases h1 : statFS w.fs (makeMetaFilePath m className id) with
  | error e =>
    simp only
    split_ifs <;> rfl
  | ok n =>
    simp only
    unfold osReadFile
    simp only [World.record_fs]
    cases h2 : readFS w.fs (makeMetaFilePath m className id) with
    | error e => rfl
    | ok metaData =>
      simp only
      cases h3 : m.json.unmarshal metaData with
      | error e => rfl
      | ok s => rfl

/-- The method `loadSnapshotMeta` never changes the filesystem. -/
theorem loadSnapshotMeta_fs (m : StorageFileSystemModule) (ctx : Context) (w : World)
    (className id : String) : (loadSnapshotMeta m ctx w className id).2.fs = w.fs := by
  unfold loadSnapshotMeta
  have h0 := ctxErr_fs ctx w
  rcases hc : ctxErr ctx w with ⟨oe, w1⟩
  rw [hc] at h0
  simp only at h0
  cases oe with
  | some e => exact h0
  | none =>
    simp only
    have h1 := osStat_fs w1 (makeMetaFilePath m className id)
    rcases hs : osStat w1 (makeMetaFilePath m className id) with ⟨r, w2⟩
    rw [hs] at h1
    simp only at h1
    cases r with
    | error e =>
      simp only
      split_ifs
      · exact h1.trans h0
      · exact h1.trans h0
    | ok n =>
      simp only
      have h2 := osReadFile_fs w2 (makeMetaFilePath m className id)
      rcases hr : osReadFile w2 (makeMetaFilePath m className id) with ⟨r2, w3⟩
      rw [hr] at h2
      simp only at h2
      cases r2 with
      | error e => exact h2.trans (h1.trans h0)
      | ok metaData =>
        simp only
        cases m.json.unmarshal metaData with
        | error e => exact h2.trans (h1.trans h0)
        | ok s => exact h2.trans (h1.trans h0)

/-- A stored descriptor: under a live context `loadSnapshotMeta` returns `s` exactly when
the meta file is a regular file whose content decodes to `s`. -/
theorem loadSnapshotMeta_ok_iff (m : StorageFileSystemModule) (ctx : Context) (w : World)
    (className id : String) (hlive : ctx.cancelAt = none) (s : Snapshot) :
    (loadSnapshotMeta m ctx w className id).1 = .ok s ↔
      ∃ b, w.fs (makeMetaFilePath m className id) = some (.file b)
        ∧ m.json.unmarshal b = .ok s := by
  rw [loadSnapshotMeta_live m ctx w className id hlive]
  unfold readFS statFS
  cases h : w.fs (makeMetaFilePath m className id) with
  | none =>
    simp only
    split_ifs <;> simp [isNotExist]
  | some n =>
    cases n with
    | dir => simp
    | file b =>
      simp only
      cases h3 : m.json.unmarshal b with
      | error e => simp [h3]
      | ok s1 => simp [h3]

/-! ## Request binding -/

/-- C5 (as stated, refuted): the empty id and an id of 129 letters do not match
`^[a-z0-9_-]{1,128}$`, yet `bindID` returns nil and binds them, and binding the whole
request with a valid body succeeds. -/
theorem bindID_accepts_any_length :
    matchesIDPattern "" = false
      ∧ matchesIDPattern (String.mk (List.replicate 129 'a')) = false
      ∧ (bindID NewBackupsRestoreParams [""] true).1 = none
      ∧ (bindID NewBackupsRestoreParams [String.mk (List.replicate 129 'a')] true).1 = none
      ∧ (bindID NewBackupsRestoreParams [String.mk (List.replicate 129 'a')] true).2.ID
          = String.mk (List.replicate 129 'a')
      ∧ (BindRequest NewBackupsRestoreParams [] [String.mk (List.replicate 129 'a')] true
          ["filesystem"] true).1 = none := by
  refine ⟨by decide, ?_, rfl, rfl, rfl, ?_⟩
  · simp [matchesIDPattern]
  · simp [BindRequest, bindID, bindStorageName]

/-- C5 (amended): `bindID` enforces no length bound. For every route value made only of
the characters `[a-z0-9_-]`, whatever its length (the empty id and ids of more than 128
bytes included), `bindID` returns nil and binds that value as the ID, leaving the
storage name alone, and a request whose body raised no error binds without error.
Nothing is said here about ids with other characters. -/
theorem bindID_no_length_bound (o : BackupsRestoreParams) (rawData : List String)
    (hasKey : Bool) (raw : String) (hraw : rawData.getLast? = some raw)
    (_hchars : raw.data.all idChar = true) :
    (bindID o rawData hasKey).1 = none
      ∧ (bindID o rawData hasKey).2.ID = raw
      ∧ (bindID o rawData hasKey).2.StorageName = o.StorageName
      ∧ ∀ (rStorageName : List String) (hk : Bool),
          (BindRequest o [] rawData hasKey rStorageName hk).1 = none := by
  refine ⟨rfl, ?_, rfl, ?_⟩
  · unfold bindID
    rw [hraw]
  · intro rStorageName hk
    simp [BindRequest, bindID, bindStorageName]

/-- C5 (amended, witness): an id of 129 letters is bound. -/
theorem bindID_no_length_bound_witness :
    (String.mk (List.replicate 129 'a')).data.all idChar = true
      ∧ matchesIDPattern (String.mk (List.replicate 129 'a')) = false
      ∧ (bindID NewBackupsRestoreParams [String.mk (List.replicate 129 'a')] true).1 = none
      ∧ (bindID NewBackupsRestoreParams ["snapshot-1"] true).2.ID = "snapshot-1" :=
  have hchars : (String.mk (List.replicate 129 'a')).data.all idChar = true := by
    rw [List.all_eq_true]
    intro c hc
    rw [List.eq_of_mem_replicate hc]
    decide
  ⟨hchars, by simp [matchesIDPattern],
    (bindID_no_length_bound NewBackupsRestoreParams [String.mk (List.replicate 129 'a')] true
      (String.mk (List.replicate 129 'a')) rfl hchars).1,
    (bindID_no_length_bound NewBackupsRestoreParams ["snapshot-1"] true "snapshot-1" rfl
      (by decide)).2.1⟩

/-! ## Reading the meta file -/

/-- C6: under a live context `GetMeta` returns a NotFound error exactly when `os.Stat` of
the meta file reports that it does not exist; every other failure of the stat is returned
as an Internal error, so is every failure to read the file, so is content that does not
decode; a regular meta file whose content decodes yields the decoded descriptor and no
error. -/
theorem GetMeta_classifies (m : StorageFileSystemModule) (ctx : Context) (w : World)
    (className id : String) (hlive : ctx.cancelAt = none) :
    ((∃ e, (GetMeta m ctx w className id).1 = .error e ∧ e.isNotFound = true)
        ↔ statFS w.fs (makeMetaFilePath m className id) = .error .ENOENT)
      ∧ (∀ e, statFS w.fs (makeMetaFilePath m className id) = .error e → e ≠ .ENOENT →
          (GetMeta m ctx w className id).1 = .error (.internal (.sys e)))
      ∧ (∀ n e, statFS w.fs (makeMetaFilePath m className id) = .ok n →
          readFS w.fs (makeMetaFilePath m className id) = .error e →
          (GetMeta m ctx w className id).1
            = .error (.internal (.wrap "read snapshot meta file" (.sys e))))
      ∧ (∀ b e, w.fs (makeMetaFilePath m className id) = some (.file b) →
          m.json.unmarshal b = .error e →
          (GetMeta m ctx w className id).1
            = .error (.internal (.wrap "unmarshal snapshot meta" e)))
      ∧ (∀ b s, w.fs (makeMetaFilePath m className id) = some (.file b) →
          m.json.unmarshal b = .ok s → (GetMeta m ctx w className id).1 = .ok s) := by
  unfold GetMeta
  rw [loadSnapshotMeta_live m ctx w className id hlive]
  refine ⟨?_, ?_, ?_, ?_, ?_⟩
  · cases h1 : statFS w.fs (makeMetaFilePath m className id) with
    | error e =>
      cases e <;> simp [isNotExist, Err.isNotFound]
    | ok n =>
      simp only
      cases h2 : readFS w.fs (makeMetaFilePath m className id) with
      | error e => simp [Err.isNotFound]
      | ok metaData =>
        cases h3 : m.json.unmarshal metaData with
        | error e => simp [h3, Err.isNotFound]
        | ok s => simp [h3]
  · intro e h1 hne
    rw [h1]
    cases e <;> simp_all [isNotExist]
  · intro n e h1 h2
    rw [h1, h2]
  · intro b e h1 h2
    simp only [statFS, readFS, h1, h2]
  · intro b s h1 h2
    simp only [statFS, readFS, h1, h2]

/-- C6 (witness): in the example world after the store, under the background context,
`GetMeta` returns the stored descriptor, and for an id never stored it returns NotFound. -/
theorem GetMeta_classifies_witness :
    Context.background.cancelAt = none
      ∧ (GetMeta demoModule Context.background demoStored "Books" "snapshot-1").1
          = .ok demoSnapshot
      ∧ ((∃ e, (GetMeta demoModule Context.background demoStored "Books" "other").1 = .error e
            ∧ e.isNotFound = true)
          ↔ statFS demoStored.fs (makeMetaFilePath demoModule "Books" "other") = .error .ENOENT) :=
  ⟨rfl,
    (GetMeta_classifies demoModule Context.background demoStored "Books" "snapshot-1"
      rfl).2.2.2.2 (encodeSnapshot demoSnapshot) demoSnapshot (by decide) (by rfl),
    (GetMeta_classifies demoModule Context.background demoStored "Books" "other" rfl).1⟩

/-! ## Writing the meta file -/

/-- C7 (the code at a failing input): storing a descriptor that lists `snapshot.json/x`
turns the meta path into a directory; the rename of the temporary file onto it fails,
yet `StoreSnapshot` (through `saveMeta`) returns nil, the meta path still is a
directory, and `GetMeta` fails on it. -/
theorem saveMeta_swallows_rename_failure :
    (StoreSnapshot demoModule Context.background (World.ofList nestedMetaTable)
        nestedMetaSnapshot).1 = none
      ∧ (callsOf (StoreSnapshot demoModule Context.background (World.ofList nestedMetaTable)
          nestedMetaSnapshot).2.log).getLast?
          = some (.rename ["snapshots", "Books", "snapshot-1", "snapshot.json.tmp"]
              ["snapshots", "Books", "snapshot-1", "snapshot.json"], false)
      ∧ (StoreSnapshot demoModule Context.background (World.ofList nestedMetaTable)
          nestedMetaSnapshot).2.fs ["snapshots", "Books", "snapshot-1", "snapshot.json"]
          = some .dir
      ∧ (saveMeta demoModule
          (storeFiles demoModule Context.background nestedMetaSnapshot
            ["snapshots", "Books", "snapshot-1"] nestedMetaSnapshot.files
            (World.ofList nestedMetaTable)).2 nestedMetaSnapshot).1 = none
      ∧ (GetMeta demoModule Context.background
          (StoreSnapshot demoModule Context.background (World.ofList nestedMetaTable)
            nestedMetaSnapshot).2 "Books" "snapshot-1").1
          = .error (.internal (.wrap "read snapshot meta file" (.sys .EISDIR))) := by
  refine ⟨by decide, by decide, by decide, by decide, by rfl⟩

theorem mkdirAllFS_keeps_child (fs fs1 : FS) (p : Path) (x : String)
    (h : mkdirAllFS fs p = .ok fs1) : fs1 (p ++ [x]) = fs (p ++ [x]) := by
  rw [(mkdirAllFS_ok fs fs1 p h).2]
  simp only [if_neg (concat_not_prefix_self p x)]

theorem snapshot_json_tmp_ne :
    ∀ p : Path, p ++ ["snapshot.json"] ≠ p ++ ["snapshot.json.tmp"] := by
  intro p h
  have := List.append_cancel_left h
  revert this
  decide

/-- C8: atomic publication. The system calls of `saveMeta` are, in this order, the
creation of the directory, the write of the sibling `snapshot.json.tmp` and the rename
onto `snapshot.json` (a prefix of these when a call fails, none when serializing fails).
After each of them the final meta path holds what it held before the call of `saveMeta`
or the complete serialized descriptor, and it differs from what it held before only
after a successful rename; the filesystem `saveMeta` leaves is the one its last call
left. -/
theorem saveMeta_atomic_publication (m : StorageFileSystemModule) (w : World)
    (snapshot : Snapshot) :
    ∃ steps : List LogEntry,
      (saveMeta m w snapshot).2.log = w.log ++ steps
      ∧ (saveMeta m w snapshot).2.fs = (steps.getLast?.map LogEntry.after).getD w.fs
      ∧ (∀ e, m.json.marshal snapshot = .error e → steps = [])
      ∧ (∀ content, m.json.marshal snapshot = .ok content →
          steps.map LogEntry.call <+:
            [.mkdirAll (pathDir (makeMetaFilePath m snapshot.className snapshot.id)),
             .writeFile (pathAddSuffix (makeMetaFilePath m snapshot.className snapshot.id)
               ".tmp") content,
             .rename (pathAddSuffix (makeMetaFilePath m snapshot.className snapshot.id) ".tmp")
               (makeMetaFilePath m snapshot.className snapshot.id)])
      ∧ ∀ entry ∈ steps,
          (entry.after (makeMetaFilePath m snapshot.className snapshot.id)
              = w.fs (makeMetaFilePath m snapshot.className snapshot.id)
            ∨ ∃ content, m.json.marshal snapshot = .ok content
                ∧ entry.after (makeMetaFilePath m snapshot.className snapshot.id)
                    = some (.file content))
          ∧ (entry.after (makeMetaFilePath m snapshot.className snapshot.id)
                ≠ w.fs (makeMetaFilePath m snapshot.className snapshot.id) →
              entry.ok = true
                ∧ entry.call
                  = .rename (pathAddSuffix (makeMetaFilePath m snapshot.className snapshot.id)
                      ".tmp") (makeMetaFilePath m snapshot.className snapshot.id)) := by
  cases hm : m.json.marshal snapshot with
  | error e =>
    refine ⟨[], ?_, ?_, ?_, ?_, ?_⟩
    · rw [saveMeta_marshal_error m w snapshot e hm]; simp
    · rw [saveMeta_marshal_error m w snapshot e hm]; simp
    · intro _ _; rfl
    · intro content h; exact absurd h (by simp)
    · intro entry h; exact absurd h (by simp)
  | ok content =>
    rw [saveMeta_eq m w snapshot content hm, pathDir_meta, tmp_meta, makeMetaFilePath_eq]
    cases h1 : mkdirAllFS w.fs (makeSnapshotDirPath m snapshot.className snapshot.id) with
    | error e =>
      refine ⟨[{ call := .mkdirAll (makeSnapshotDirPath m snapshot.className snapshot.id),
                 ok := false, after := w.fs }], rfl, rfl, ?_, ?_, ?_⟩
      · intro e h; exact absurd h (by simp)
      · intro c hc
        exact ⟨_, rfl⟩
      · intro entry he
        simp only [List.mem_singleton] at he
        subst he
        exact ⟨Or.inl rfl, fun h => absurd rfl h⟩
    | ok fs1 =>
      have k1 : fs1 (makeSnapshotDirPath m snapshot.className snapshot.id ++ ["snapshot.json"])
          = w.fs (makeSnapshotDirPath m snapshot.className snapshot.id ++ ["snapshot.json"]) :=
        mkdirAllFS_keeps_child _ _ _ _ h1
      simp only
      cases h2 : writeFS fs1
          (makeSnapshotDirPath m snapshot.className snapshot.id ++ ["snapshot.json.tmp"])
          content with
      | error e =>
        refine ⟨[{ call := .mkdirAll (makeSnapshotDirPath m snapshot.className snapshot.id),
                   ok := true, after := fs1 },
                 { call := .writeFile (makeSnapshotDirPath m snapshot.className snapshot.id
                     ++ ["snapshot.json.tmp"]) content, ok := false, after := fs1 }],
          by simp, rfl, ?_, ?_, ?_⟩
        · intro e h; exact absurd h (by simp)
        · intro c hc
          simp only [Except.ok.injEq] at hc
          subst hc
          exact ⟨[_], rfl⟩
        · intro entry he
          simp only [List.mem_cons, List.mem_singleton, List.not_mem_nil, or_false] at he
          rcases he with rfl | rfl
          · exact ⟨Or.inl k1, fun h => absurd k1 h⟩
          · exact ⟨Or.inl k1, fun h => absurd k1 h⟩
      | ok fs2 =>
        obtain ⟨hd2, hp2, hfs2⟩ := writeFS_ok _ _ _ _ h2
        have k2 : fs2 (makeSnapshotDirPath m snapshot.className snapshot.id
            ++ ["snapshot.json"])
            = w.fs (makeSnapshotDirPath m snapshot.className snapshot.id
              ++ ["snapshot.json"]) := by
          rw [hfs2, FS.set_other _ _ _ _ (snapshot_json_tmp_ne _), k1]
        have htmp : fs2 (makeSnapshotDirPath m snapshot.className snapshot.id
            ++ ["snapshot.json.tmp"]) = some (.file content) := by
          rw [hfs2, FS.set_same]
        have hdir : fs2 (pathDir (makeSnapshotDirPath m snapshot.className snapshot.id
            ++ ["snapshot.json"])) = some .dir := by
          have : pathDir (makeSnapshotDirPath m snapshot.className snapshot.id
              ++ ["snapshot.json"])
              = pathDir (makeSnapshotDirPath m snapshot.className snapshot.id
                ++ ["snapshot.json.tmp"]) := by
            simp [pathDir]
          rw [this, hfs2, FS.set_other, hd2]
          simp only [pathDir, List.dropLast_concat]
          intro h
          have hlen := congrArg List.length h
          simp at hlen
        simp only
        cases h3 : renameFS fs2
            (makeSnapshotDirPath m snapshot.className snapshot.id ++ ["snapshot.json.tmp"])
            (makeSnapshotDirPath m snapshot.className snapshot.id ++ ["snapshot.json"]) with
        | error e =>
          refine ⟨[{ call := .mkdirAll (makeSnapshotDirPath m snapshot.className snapshot.id),
                     ok := true, after := fs1 },
                   { call := .writeFile (makeSnapshotDirPath m snapshot.className snapshot.id
                       ++ ["snapshot.json.tmp"]) content, ok := true, after := fs2 },
                   { call := .rename (makeSnapshotDirPath m snapshot.className snapshot.id
                       ++ ["snapshot.json.tmp"])
                       (makeSnapshotDirPath m snapshot.className snapshot.id
                         ++ ["snapshot.json"]), ok := false, after := fs2 }],
            by simp, rfl, ?_, ?_, ?_⟩
          · intro e h; exact absurd h (by simp)
          · intro c hc
            simp only [Except.ok.injEq] at hc
            subst hc
            exact List.prefix_rfl
          · intro entry he
            simp only [List.mem_cons, List.mem_singleton, List.not_mem_nil, or_false] at he
            rcases he with rfl | rfl | rfl
            · exact ⟨Or.inl k1, fun h => absurd k1 h⟩
            · exact ⟨Or.inl k2, fun h => absurd k2 h⟩
            · exact ⟨Or.inl k2, fun h => absurd k2 h⟩
        | ok fs3 =>
          rw [renameFS_file fs2 _ _ content htmp (fun h => snapshot_json_tmp_ne _ h.symm)
            hdir] at h3
          split_ifs at h3 with hisdir
          simp only [Except.ok.injEq] at h3
          have k3 : fs3 (makeSnapshotDirPath m snapshot.className snapshot.id
              ++ ["snapshot.json"]) = some (.file content) := by
            rw [← h3, FS.set_other _ _ _ _ (snapshot_json_tmp_ne _), FS.set_same]
          refine ⟨[{ call := .mkdirAll (makeSnapshotDirPath m snapshot.className snapshot.id),
                     ok := true, after := fs1 },
                   { call := .writeFile (makeSnapshotDirPath m snapshot.className snapshot.id
                       ++ ["snapshot.json.tmp"]) content, ok := true, after := fs2 },
                   { call := .rename (makeSnapshotDirPath m snapshot.className snapshot.id
                       ++ ["snapshot.json.tmp"])
                       (makeSnapshotDirPath m snapshot.className snapshot.id
                         ++ ["snapshot.json"]), ok := true, after := fs3 }],
            by simp, rfl, ?_, ?_, ?_⟩
          · intro e h; exact absurd h (by simp)
          · intro c hc
            simp only [Except.ok.injEq] at hc
            subst hc
            exact List.prefix_rfl
          · intro entry he
            simp only [List.mem_cons, List.mem_singleton, List.not_mem_nil, or_false] at he
            rcases he with rfl | rfl | rfl
            · exact ⟨Or.inl k1, fun h => absurd k1 h⟩
            · exact ⟨Or.inl k2, fun h => absurd k2 h⟩
            · exact ⟨Or.inr ⟨content, rfl, k3⟩, fun _ => ⟨rfl, rfl⟩⟩

/-- When no regular file lies on the way to the snapshot directory and neither the meta
path nor its temporary sibling is a directory, `saveMeta` goes through. -/
theorem saveMeta_ok (m : StorageFileSystemModule) (w : World) (s : Snapshot) (content : Bytes)
    (hm : m.json.marshal s = .ok content)
    (hway : fileOnPath w.fs (makeSnapshotDirPath m s.className s.id) = false)
    (htmp : w.fs (makeSnapshotDirPath m s.className s.id ++ ["snapshot.json.tmp"]) ≠ some .dir)
    (hmeta : w.fs (makeSnapshotDirPath m s.className s.id ++ ["snapshot.json"]) ≠ some .dir) :
    (saveMeta m w s).1 = none
      ∧ (saveMeta m w s).2.fs
          = w.fs.withMeta (makeSnapshotDirPath m s.className s.id) content := by
  rw [saveMeta_eq m w s content hm]
  have h1 : mkdirAllFS w.fs (makeSnapshotDirPath m s.className s.id)
      = .ok (fun q => if q <+: makeSnapshotDirPath m s.className s.id then some .dir
          else w.fs q) := by
    unfold mkdirAllFS
    rw [hway]
    simp
  rw [h1]
  simp only
  have h2 := writeFS_of
    (fun q => if q <+: makeSnapshotDirPath m s.className s.id then some .dir else w.fs q)
    (makeSnapshotDirPath m s.className s.id ++ ["snapshot.json.tmp"]) content
    (by simp [pathDir]) (by
      simp only [if_neg (concat_not_prefix_self _ _)]
      exact htmp)
  rw [h2]
  simp only
  have h3 := renameFS_file
    (FS.set (fun q => if q <+: makeSnapshotDirPath m s.className s.id then some .dir
      else w.fs q)
      (makeSnapshotDirPath m s.className s.id ++ ["snapshot.json.tmp"])
      (some (.file content)))
    (makeSnapshotDirPath m s.className s.id ++ ["snapshot.json.tmp"])
    (makeSnapshotDirPath m s.className s.id ++ ["snapshot.json"]) content
    (by simp) (fun h => snapshot_json_tmp_ne _ h.symm) (by
      rw [FS.set_other]
      · simp [pathDir]
      · simp only [pathDir, List.dropLast_concat]
        intro h
        have hlen := congrArg List.length h
        simp at hlen)
  have hnd : ¬ (FS.set (fun q => if q <+: makeSnapshotDirPath m s.className s.id then some .dir
      else w.fs q)
      (makeSnapshotDirPath m s.className s.id ++ ["snapshot.json.tmp"])
      (some (.file content)))
      (makeSnapshotDirPath m s.className s.id ++ ["snapshot.json"]) = some .dir := by
    rw [FS.set_other _ _ _ _ (snapshot_json_tmp_ne _)]
    simp only [if_neg (concat_not_prefix_self _ _)]
    exact hmeta
  rw [if_neg hnd] at h3
  rw [h3]
  refine ⟨rfl, ?_⟩
  simp only [World.record_fs]
  funext q
  unfold FS.withMeta FS.set
  by_cases hq1 : q = makeSnapshotDirPath m s.className s.id ++ ["snapshot.json.tmp"]
  · simp [hq1]
  · by_cases hq2 : q = makeSnapshotDirPath m s.className s.id ++ ["snapshot.json"]
    · simp [hq2]
    · simp [hq1, hq2]

/-- In a tree, nothing on the way to the directory of an existing node is a regular
file. -/
theorem FS.WF.way_clear (fs : FS) (hwf : fs.WF) (p : Path) (x : String)
    (h : fs (p ++ [x]) ≠ none) : fileOnPath fs p = false := by
  rw [fileOnPath_eq_false]
  intro q hq b hb
  have hne : q ≠ p ++ [x] := by
    intro heq
    rw [heq] at hq
    exact concat_not_prefix_self p x hq
  have := hwf.2 (p ++ [x]) q h (hq.trans (List.prefix_append p [x])) hne
  rw [hb] at this
  exact absurd this (by simp)

/-- In a tree, the directories down to an existing node are there already. -/
theorem FS.WF.dirs_exist (fs : FS) (hwf : fs.WF) (p : Path) (x : String)
    (h : fs (p ++ [x]) ≠ none) : ∀ q, q <+: p → fs q = some .dir := by
  intro q hq
  have hne : q ≠ p ++ [x] := by
    intro heq
    rw [heq] at hq
    exact concat_not_prefix_self p x hq
  exact hwf.2 (p ++ [x]) q h (hq.trans (List.prefix_append p [x])) hne

/-- Saving over a stored meta file in a tree changes the meta file and removes the
temporary sibling, nothing else. -/
theorem FS.withMeta_of_stored (fs : FS) (hwf : fs.WF) (dir : Path) (content : Bytes)
    (h : fs (dir ++ ["snapshot.json"]) ≠ none) :
    fs.withMeta dir content
      = (fs.set (dir ++ ["snapshot.json"]) (some (.file content))).set
          (dir ++ ["snapshot.json.tmp"]) none := by
  funext q
  unfold FS.withMeta FS.set
  by_cases hq1 : q = dir ++ ["snapshot.json.tmp"]
  · simp [hq1]
  · by_cases hq2 : q = dir ++ ["snapshot.json"]
    · simp [hq2]
    · simp only [if_neg hq1, if_neg hq2]
      split_ifs with hq3
      · exact (FS.WF.dirs_exist fs hwf dir "snapshot.json" h q hq3).symm
      · rfl

theorem FS.withMeta_meta (fs : FS) (dir : Path) (content : Bytes) :
    fs.withMeta dir content (dir ++ ["snapshot.json"]) = some (.file content) := by
  unfold FS.withMeta
  rw [if_neg (snapshot_json_tmp_ne dir), if_pos rfl]

theorem FS.withMeta_tmp (fs : FS) (dir : Path) (content : Bytes) :
    fs.withMeta dir content (dir ++ ["snapshot.json.tmp"]) = none := by
  unfold FS.withMeta
  rw [if_pos rfl]

theorem FS.withMeta_way (fs : FS) (dir : Path) (content : Bytes) :
    fileOnPath (fs.withMeta dir content) dir = false := by
  rw [fileOnPath_eq_false]
  intro q hq b hb
  unfold FS.withMeta at hb
  have h1 : q ≠ dir ++ ["snapshot.json.tmp"] := by
    intro heq; rw [heq] at hq; exact concat_not_prefix_self _ _ hq
  have h2 : q ≠ dir ++ ["snapshot.json"] := by
    intro heq; rw [heq] at hq; exact concat_not_prefix_self _ _ hq
  rw [if_neg h1, if_neg h2, if_pos hq] at hb
  exact absurd hb (by simp)

/-- Saving the same content twice leaves what saving it once leaves. -/
theorem FS.withMeta_idem (fs : FS) (dir : Path) (content : Bytes) :
    (fs.withMeta dir content).withMeta dir content = fs.withMeta dir content := by
  funext q
  unfold FS.withMeta
  split_ifs <;> rfl

/-- A table that passes the check is a tree. -/
theorem FS.ofList_WF (table : List (Path × Node)) (h : tableWF table = true) :
    (FS.ofList table).WF := by
  unfold tableWF at h
  simp only [Bool.and_eq_true, beq_iff_eq, List.all_eq_true, Bool.or_eq_true] at h
  refine ⟨h.1, ?_⟩
  intro p q hp hq hne
  unfold FS.ofList at hp ⊢
  cases hl : List.lookup p table with
  | none => exact absurd hl hp
  | some n =>
    have hmem : (p, n) ∈ table := by
      clear hp h
      induction table with
      | nil => simp at hl
      | cons a rest ih =>
        rcases a with ⟨k, v⟩
        by_cases hk : p = k
        · subst hk
          simp only [List.lookup_cons, beq_self_eq_true, Option.some.injEq] at hl
          subst hl
          exact List.mem_cons_self _ _
        · have hkb : (p == k) = false := by simpa using hk
          simp only [List.lookup_cons, hkb] at hl
          exact List.mem_cons_of_mem _ (ih hl)
    rcases h.2 (p, n) hmem q ((List.mem_inits q p).2 hq) with h1 | h1
    · exact absurd h1 hne
    · exact h1

/-! ## Updating a stored descriptor -/

/-- A stored descriptor is loaded without touching the filesystem. -/
theorem loadSnapshotMeta_stored (m : StorageFileSystemModule) (ctx : Context) (w : World)
    (className id : String) (d : Snapshot)
    (h : (GetMeta m ctx w className id).1 = .ok d) :
    ∃ w1, loadSnapshotMeta m ctx w className id = (.ok d, w1) ∧ w1.fs = w.fs := by
  unfold GetMeta at h
  refine ⟨(loadSnapshotMeta m ctx w className id).2, ?_, loadSnapshotMeta_fs m ctx w className id⟩
  rw [← h]

theorem makeSnapshotDirPath_of_meta (m : StorageFileSystemModule) (c1 i1 c2 i2 : String)
    (h : makeMetaFilePath m c1 i1 = makeMetaFilePath m c2 i2) :
    makeSnapshotDirPath m c1 i1 = makeSnapshotDirPath m c2 i2 := by
  rw [makeMetaFilePath_eq, makeMetaFilePath_eq] at h
  exact List.append_cancel_right h

/-- The effect of `SetMetaError` on a stored descriptor, when nothing is in the way of
the save. -/
theorem SetMetaError_stored (m : StorageFileSystemModule) (ctx : Context) (w : World)
    (className id : String) (snapErr : Err) (d : Snapshot) (content : Bytes)
    (hlive : ctx.cancelAt = none)
    (hway : fileOnPath w.fs (makeSnapshotDirPath m className id) = false)
    (hstored : (GetMeta m ctx w className id).1 = .ok d)
    (hself : makeMetaFilePath m d.className d.id = makeMetaFilePath m className id)
    (hm : m.json.marshal { d with status := CreateFailed, error := snapErr.Error }
      = .ok content)
    (htmp : w.fs (pathAddSuffix (makeMetaFilePath m className id) ".tmp") ≠ some .dir) :
    (SetMetaError m ctx w className id snapErr).1 = none
      ∧ (SetMetaError m ctx w className id snapErr).2.fs
          = w.fs.withMeta (makeSnapshotDirPath m className id) content := by
  obtain ⟨w1, hl, hfs⟩ := loadSnapshotMeta_stored m ctx w className id d hstored
  obtain ⟨old, hold, _⟩ := (loadSnapshotMeta_ok_iff m ctx w className id hlive d).1
    (by rw [hl])
  have hdir := makeSnapshotDirPath_of_meta m d.className d.id className id hself
  rw [makeMetaFilePath_eq] at hold
  rw [tmp_meta] at htmp
  have hsave := saveMeta_ok m w1
    { d with status := CreateFailed, error := snapErr.Error } content hm
    (by rw [hfs]; exact hdir ▸ hway) (by rw [hfs]; exact hdir ▸ htmp)
    (by rw [hfs]; show w.fs (makeSnapshotDirPath m d.className d.id ++ _) ≠ _
        rw [hdir, hold]; simp)
  unfold SetMetaError
  rw [hl]
  simp only
  rcases hs : saveMeta m w1 { d with status := CreateFailed, error := snapErr.Error }
    with ⟨r, w2⟩
  rw [hs] at hsave
  simp only at hsave
  obtain ⟨hr, hw2⟩ := hsave
  subst hr
  simp only
  rw [hw2, hfs]
  refine ⟨trivial, ?_⟩
  show w.fs.withMeta (makeSnapshotDirPath m d.className d.id) content = _
  rw [hdir]

/-- The effect of `SetMetaStatus` on a stored descriptor, when nothing is in the way of
the save. -/
theorem SetMetaStatus_stored (m : StorageFileSystemModule) (ctx : Context) (w : World)
    (className id status : String) (d : Snapshot) (content : Bytes)
    (hlive : ctx.cancelAt = none)
    (hway : fileOnPath w.fs (makeSnapshotDirPath m className id) = false)
    (hstored : (GetMeta m ctx w className id).1 = .ok d)
    (hself : makeMetaFilePath m d.className d.id = makeMetaFilePath m className id)
    (hm : m.json.marshal { d with status := status } = .ok content)
    (htmp : w.fs (pathAddSuffix (makeMetaFilePath m className id) ".tmp") ≠ some .dir) :
    (SetMetaStatus m ctx w className id status).1 = none
      ∧ (SetMetaStatus m ctx w className id status).2.fs
          = w.fs.withMeta (makeSnapshotDirPath m className id) content := by
  obtain ⟨w1, hl, hfs⟩ := loadSnapshotMeta_stored m ctx w className id d hstored
  obtain ⟨old, hold, _⟩ := (loadSnapshotMeta_ok_iff m ctx w className id hlive d).1
    (by rw [hl])
  have hdir := makeSnapshotDirPath_of_meta m d.className d.id className id hself
  rw [makeMetaFilePath_eq] at hold
  rw [tmp_meta] at htmp
  have hsave := saveMeta_ok m w1 { d with status := status } content hm
    (by rw [hfs]; exact hdir ▸ hway) (by rw [hfs]; exact hdir ▸ htmp)
    (by rw [hfs]; show w.fs (makeSnapshotDirPath m d.className d.id ++ _) ≠ _
        rw [hdir, hold]; simp)
  unfold SetMetaStatus
  rw [hl]
  simp only
  rcases hs : saveMeta m w1 { d with status := status } with ⟨r, w2⟩
  rw [hs] at hsave
  simp only at hsave
  obtain ⟨hr, hw2⟩ := hsave
  subst hr
  simp only
  rw [hw2, hfs]
  refine ⟨trivial, ?_⟩
  show w.fs.withMeta (makeSnapshotDirPath m d.className d.id) content = _
  rw [hdir]

/-- After a save the stored descriptor is what the saved content decodes to. -/
theorem GetMeta_withMeta (m : StorageFileSystemModule) (ctx : Context) (w : World)
    (className id : String) (fs : FS) (content : Bytes) (s : Snapshot)
    (hlive : ctx.cancelAt = none)
    (hfs : w.fs = fs.withMeta (makeSnapshotDirPath m className id) content)
    (hrt : m.json.unmarshal content = .ok s) :
    (GetMeta m ctx w className id).1 = .ok s := by
  unfold GetMeta
  rw [loadSnapshotMeta_ok_iff m ctx w className id hlive s]
  refine ⟨content, ?_, hrt⟩
  rw [hfs, makeMetaFilePath_eq, FS.withMeta_meta]

/-- In a tree nothing is in the way of a save over a stored descriptor. -/
theorem way_clear_of_stored (m : StorageFileSystemModule) (ctx : Context) (w : World)
    (className id : String) (d : Snapshot) (hlive : ctx.cancelAt = none) (hwf : w.fs.WF)
    (hstored : (GetMeta m ctx w className id).1 = .ok d) :
    fileOnPath w.fs (makeSnapshotDirPath m className id) = false := by
  obtain ⟨old, hold, _⟩ := (loadSnapshotMeta_ok_iff m ctx w className id hlive d).1 hstored
  rw [makeMetaFilePath_eq] at hold
  exact FS.WF.way_clear w.fs hwf _ "snapshot.json" (by rw [hold]; simp)

/-- C9: `SetMetaError` is idempotent. For a descriptor `d` stored under its own class name
and id in a well-formed filesystem, a live context, an encoding that round-trips the
failed descriptor, and a temporary meta path that is not a directory: the call succeeds
and the stored descriptor becomes `d` with status failed and error string
`snapErr.Error()`, all other fields as before; a second call succeeds as well and leaves
the same filesystem, hence the same stored descriptor, as the first. -/
theorem SetMetaError_idempotent (m : StorageFileSystemModule) (ctx : Context) (w : World)
    (className id : String) (snapErr : Err) (d : Snapshot) (content : Bytes)
    (hlive : ctx.cancelAt = none) (hwf : w.fs.WF)
    (hstored : (GetMeta m ctx w className id).1 = .ok d)
    (hself : makeMetaFilePath m d.className d.id = makeMetaFilePath m className id)
    (hm : m.json.marshal { d with status := CreateFailed, error := snapErr.Error }
      = .ok content)
    (hrt : m.json.unmarshal content
      = .ok { d with status := CreateFailed, error := snapErr.Error })
    (htmp : w.fs (pathAddSuffix (makeMetaFilePath m className id) ".tmp") ≠ some .dir) :
    (SetMetaError m ctx w className id snapErr).1 = none
      ∧ (GetMeta m ctx (SetMetaError m ctx w className id snapErr).2 className id).1
          = .ok { className := d.className, id := d.id, startedAt := d.startedAt,
                  completedAt := d.completedAt, status := CreateFailed,
                  error := snapErr.Error, files := d.files }
      ∧ (SetMetaError m ctx (SetMetaError m ctx w className id snapErr).2
          className id snapErr).1 = none
      ∧ (SetMetaError m ctx (SetMetaError m ctx w className id snapErr).2
          className id snapErr).2.fs = (SetMetaError m ctx w className id snapErr).2.fs
      ∧ (GetMeta m ctx (SetMetaError m ctx (SetMetaError m ctx w className id snapErr).2
          className id snapErr).2 className id).1
          = (GetMeta m ctx (SetMetaError m ctx w className id snapErr).2 className id).1 := by
  obtain ⟨h1, h1fs⟩ := SetMetaError_stored m ctx w className id snapErr d content hlive
    (way_clear_of_stored m ctx w className id d hlive hwf hstored) hstored hself hm htmp
  have hget1 := GetMeta_withMeta m ctx (SetMetaError m ctx w className id snapErr).2
    className id w.fs content _ hlive h1fs hrt
  obtain ⟨h2, h2fs⟩ := SetMetaError_stored m ctx (SetMetaError m ctx w className id snapErr).2
    className id snapErr { d with status := CreateFailed, error := snapErr.Error } content
    hlive (by rw [h1fs]; exact FS.withMeta_way _ _ _) hget1 hself hm
    (by rw [h1fs, tmp_meta, FS.withMeta_tmp]; simp)
  rw [h1fs, FS.withMeta_idem] at h2fs
  have hget2 := GetMeta_withMeta m ctx
    (SetMetaError m ctx (SetMetaError m ctx w className id snapErr).2 className id snapErr).2
    className id w.fs content _ hlive h2fs hrt
  exact ⟨h1, hget1, h2, h2fs.trans h1fs.symm, hget2.trans hget1.symm⟩

/-- C9 (witness): in the example world where `demoSnapshot` is stored, `SetMetaError`
with the error `disk full` stores `failedSnapshot`, once or twice. -/
theorem SetMetaError_idempotent_witness :
    (World.ofList storedTable).fs.WF
      ∧ (GetMeta demoModule Context.background (World.ofList storedTable)
          "Books" "snapshot-1").1 = .ok demoSnapshot
      ∧ (GetMeta demoModule Context.background
          (SetMetaError demoModule Context.background (World.ofList storedTable)
            "Books" "snapshot-1" (.plain "disk full")).2 "Books" "snapshot-1").1
          = .ok failedSnapshot
      ∧ (GetMeta demoModule Context.background
          (SetMetaError demoModule Context.background
            (SetMetaError demoModule Context.background (World.ofList storedTable)
              "Books" "snapshot-1" (.plain "disk full")).2
            "Books" "snapshot-1" (.plain "disk full")).2 "Books" "snapshot-1").1
          = .ok failedSnapshot :=
  have h := SetMetaError_idempotent demoModule Context.background (World.ofList storedTable)
    "Books" "snapshot-1" (.plain "disk full") demoSnapshot (encodeSnapshot failedSnapshot)
    rfl (FS.ofList_WF storedTable (by decide)) (by rfl) (by rfl) (by rfl) (by rfl)
    (by decide)
  ⟨FS.ofList_WF storedTable (by decide), by rfl, h.2.1, h.2.2.2.2.trans h.2.1⟩

/-- C10 (as stated, refuted): with the failed descriptor `failedSnapshot` stored,
`SetMetaStatus` to the started state succeeds and the stored status is the started
state afterwards: the failed state is not sticky and the status moves backwards. -/
theorem SetMetaStatus_leaves_failed :
    (GetMeta demoModule Context.background (World.ofList failedTable)
        "Books" "snapshot-1").1 = .ok failedSnapshot
      ∧ failedSnapshot.status = CreateFailed
      ∧ (SetMetaStatus demoModule Context.background (World.ofList failedTable)
          "Books" "snapshot-1" CreateStarted).1 = none
      ∧ (GetMeta demoModule Context.background
          (SetMetaStatus demoModule Context.background (World.ofList failedTable)
            "Books" "snapshot-1" CreateStarted).2 "Books" "snapshot-1").1
          = .ok { failedSnapshot with status := CreateStarted } := by
  refine ⟨by rfl, by rfl, by decide, by rfl⟩

/-- C10 (amended): `SetMetaStatus` checks no transition. For a descriptor `d` stored under
its own class name and id in a well-formed filesystem, a live context, an encoding that
round-trips the updated descriptor, and a temporary meta path that is not a directory:
for every status string, whatever the stored status is, the call succeeds and the
stored descriptor becomes `d` with exactly the given status, all other fields as
before. -/
theorem SetMetaStatus_overwrites (m : StorageFileSystemModule) (ctx : Context) (w : World)
    (className id status : String) (d : Snapshot) (content : Bytes)
    (hlive : ctx.cancelAt = none) (hwf : w.fs.WF)
    (hstored : (GetMeta m ctx w className id).1 = .ok d)
    (hself : makeMetaFilePath m d.className d.id = makeMetaFilePath m className id)
    (hm : m.json.marshal { d with status := status } = .ok content)
    (hrt : m.json.unmarshal content = .ok { d with status := status })
    (htmp : w.fs (pathAddSuffix (makeMetaFilePath m className id) ".tmp") ≠ some .dir) :
    (SetMetaStatus m ctx w className id status).1 = none
      ∧ (GetMeta m ctx (SetMetaStatus m ctx w className id status).2 className id).1
          = .ok { className := d.className, id := d.id, startedAt := d.startedAt,
                  completedAt := d.completedAt, status := status, error := d.error,
                  files := d.files } := by
  obtain ⟨h1, h1fs⟩ := SetMetaStatus_stored m ctx w className id status d content hlive
    (way_clear_of_stored m ctx w className id d hlive hwf hstored) hstored hself hm htmp
  exact ⟨h1, GetMeta_withMeta m ctx (SetMetaStatus m ctx w className id status).2
    className id w.fs content _ hlive h1fs hrt⟩

/-- C10 (amended, witness): the failed descriptor of the examples is moved on to the
success state. -/
theorem SetMetaStatus_overwrites_witness :
    (World.ofList failedTable).fs.WF
      ∧ (GetMeta demoModule Context.background (World.ofList failedTable)
          "Books" "snapshot-1").1 = .ok failedSnapshot
      ∧ (SetMetaStatus demoModule Context.background (World.ofList failedTable)
          "Books" "snapshot-1" CreateSuccess).1 = none
      ∧ (GetMeta demoModule Context.background
          (SetMetaStatus demoModule Context.background (World.ofList failedTable)
            "Books" "snapshot-1" CreateSuccess).2 "Books" "snapshot-1").1
          = .ok { failedSnapshot with status := CreateSuccess } :=
  have h := SetMetaStatus_overwrites demoModule Context.background (World.ofList failedTable)
    "Books" "snapshot-1" CreateSuccess failedSnapshot
    (encodeSnapshot { failedSnapshot with status := CreateSuccess })
    rfl (FS.ofList_WF failedTable (by decide)) (by rfl) (by rfl) (by rfl) (by rfl)
    (by decide)
  ⟨FS.ofList_WF failedTable (by decide), by rfl, h.1, h.2⟩

/-! ## Initialising a snapshot -/

/-- C3 (as stated, refuted): with the started descriptor `demoSnapshot` stored for
`(Books, snapshot-1)`, `InitSnapshot` for the same pair returns a fresh descriptor and
no error, and the stored descriptor is replaced by the fresh one, its file list lost. -/
theorem InitSnapshot_overwrites_existing :
    (GetMeta demoModule Context.background (World.ofList storedTable)
        "Books" "snapshot-1").1 = .ok demoSnapshot
      ∧ demoSnapshot.status = CreateStarted
      ∧ (InitSnapshot demoModule Context.background (World.ofList storedTable)
          "Books" "snapshot-1" 9).1 = .ok (NewSnapshot "Books" "snapshot-1" 9)
      ∧ (GetMeta demoModule Context.background
          (InitSnapshot demoModule Context.background (World.ofList storedTable)
            "Books" "snapshot-1" 9).2 "Books" "snapshot-1").1
          = .ok (NewSnapshot "Books" "snapshot-1" 9)
      ∧ NewSnapshot "Books" "snapshot-1" 9 ≠ demoSnapshot := by
  refine ⟨by rfl, by rfl, by rfl, by rfl, by decide⟩

/-- C3 (amended): `InitSnapshot` makes no existence check and never returns
AlreadyExists. Whatever is stored for `(className, id)`, when the fresh descriptor
serializes, no regular file lies on the way to the snapshot directory and neither the
meta path nor its temporary sibling is a directory, it returns the fresh descriptor
with the started status and no error, and the meta file holds the serialization of the
fresh descriptor: a descriptor stored before is replaced. -/
theorem InitSnapshot_replaces (m : StorageFileSystemModule) (ctx : Context) (w : World)
    (className id : String) (now : Nat) (content : Bytes)
    (hm : m.json.marshal (NewSnapshot className id now) = .ok content)
    (hway : fileOnPath w.fs (makeSnapshotDirPath m className id) = false)
    (htmp : w.fs (pathAddSuffix (makeMetaFilePath m className id) ".tmp") ≠ some .dir)
    (hmeta : w.fs (makeMetaFilePath m className id) ≠ some .dir) :
    (InitSnapshot m ctx w className id now).1 = .ok (NewSnapshot className id now)
      ∧ (NewSnapshot className id now).status = CreateStarted
      ∧ (InitSnapshot m ctx w className id now).2.fs (makeMetaFilePath m className id)
          = some (.file content)
      ∧ ∀ ctx1 w1 c1 i1 t1 e, (InitSnapshot m ctx1 w1 c1 i1 t1).1 = .error e →
          e.isAlreadyExists = false := by
  rw [tmp_meta] at htmp
  rw [makeMetaFilePath_eq] at hmeta
  have hsave := saveMeta_ok m w (NewSnapshot className id now) content hm hway htmp hmeta
  refine ⟨?_, rfl, ?_, ?_⟩
  · unfold InitSnapshot
    show (match saveMeta m w (NewSnapshot className id now) with
      | (some err, w1) => (Except.error (Err.internal (Err.wrap "init snapshot meta" err)), w1)
      | (none, w1) => (Except.ok (NewSnapshot className id now), w1)).1 = _
    rcases hs : saveMeta m w (NewSnapshot className id now) with ⟨r, w2⟩
    rw [hs] at hsave
    obtain ⟨hr, _⟩ := hsave
    simp only at hr
    subst hr
    rfl
  · unfold InitSnapshot
    show (match saveMeta m w (NewSnapshot className id now) with
      | (some err, w1) => (Except.error (Err.internal (Err.wrap "init snapshot meta" err)), w1)
      | (none, w1) => (Except.ok (NewSnapshot className id now), w1)).2.fs _ = _
    rcases hs : saveMeta m w (NewSnapshot className id now) with ⟨r, w2⟩
    rw [hs] at hsave
    obtain ⟨hr, hfs⟩ := hsave
    simp only at hr hfs
    subst hr
    simp only
    rw [hfs, makeMetaFilePath_eq]
    exact FS.withMeta_meta _ _ _
  · intro ctx1 w1 c1 i1 t1 e he
    unfold InitSnapshot at he
    simp only at he
    split at he
    · simp only [Except.error.injEq] at he
      rw [← he]
      rfl
    · exact absurd he (by simp)

/-- C3 (amended, witness): the example of the refutation, through the theorem. -/
theorem InitSnapshot_replaces_witness :
    fileOnPath (World.ofList storedTable).fs (makeSnapshotDirPath demoModule "Books" "snapshot-1")
        = false
      ∧ (World.ofList storedTable).fs (makeMetaFilePath demoModule "Books" "snapshot-1")
          = some (.file (encodeSnapshot demoSnapshot))
      ∧ (InitSnapshot demoModule Context.background (World.ofList storedTable)
          "Books" "snapshot-1" 9).1 = .ok (NewSnapshot "Books" "snapshot-1" 9)
      ∧ (InitSnapshot demoModule Context.background (World.ofList storedTable)
          "Books" "snapshot-1" 9).2.fs (makeMetaFilePath demoModule "Books" "snapshot-1")
          = some (.file (encodeSnapshot (NewSnapshot "Books" "snapshot-1" 9))) :=
  have h := InitSnapshot_replaces demoModule Context.background (World.ofList storedTable)
    "Books" "snapshot-1" 9 (encodeSnapshot (NewSnapshot "Books" "snapshot-1" 9))
    rfl (by decide) (by decide) (by decide)
  ⟨by decide, by decide, h.1, h.2.2.1⟩

/-! ## Copying one file -/

theorem mkdirAllFS_eq (fs : FS) (p : Path) :
    mkdirAllFS fs p = if fileOnPath fs p then .error .ENOTDIR else .ok (fs.mkdirs p) := rfl

/-- Directories that exist are not touched by `os.MkdirAll`, nor is anything else that
exists when the call succeeds. -/
theorem FS.mkdirs_of_some (fs : FS) (p q : Path) (n : Node)
    (hway : fileOnPath fs p = false) (h : fs q = some n) : fs.mkdirs p q = some n := by
  unfold FS.mkdirs
  split_ifs with hq
  · cases n with
    | dir => rfl
    | file b => exact absurd h ((fileOnPath_eq_false fs p).1 hway q hq b)
  · exact h

/-- What a successful `copyFile` found and left: the source exists, the directories down
to the destination could be made, the destination was not a directory, and the
destination holds what the source held once the destination had been truncated. -/
theorem copyFile_ok (w w1 : World) (dstBase srcBase : Path) (rel : String)
    (h : copyFile w dstBase srcBase rel = (none, w1)) :
    ∃ b, w.fs (filepathJoin srcBase [rel]) ≠ none
      ∧ fileOnPath w.fs (pathDir (filepathJoin dstBase [rel])) = false
      ∧ (w.fs.mkdirs (pathDir (filepathJoin dstBase [rel]))) (filepathJoin dstBase [rel])
          ≠ some .dir
      ∧ ((w.fs.mkdirs (pathDir (filepathJoin dstBase [rel]))).set (filepathJoin dstBase [rel])
          (some (.file []))) (filepathJoin srcBase [rel]) = some (.file b)
      ∧ w1.fs = (w.fs.mkdirs (pathDir (filepathJoin dstBase [rel]))).set
          (filepathJoin dstBase [rel]) (some (.file b)) := by
  unfold copyFile at h
  simp only at h
  unfold osOpen at h
  cases h1 : statFS w.fs (filepathJoin srcBase [rel]) with
  | error e => rw [h1] at h; simp at h
  | ok n =>
    rw [h1] at h
    simp only at h
    unfold osMkdirAll at h
    simp only [World.record_fs, mkdirAllFS_eq] at h
    by_cases hway : fileOnPath w.fs (pathDir (filepathJoin dstBase [rel])) = true
    · rw [if_pos hway] at h; simp at h
    · rw [if_neg hway] at h
      simp only at h
      unfold osCreate at h
      simp only [World.record_fs] at h
      cases h3 : writeFS (w.fs.mkdirs (pathDir (filepathJoin dstBase [rel])))
          (filepathJoin dstBase [rel]) [] with
      | error e => rw [h3] at h; simp at h
      | ok fs3 =>
        rw [h3] at h
        simp only at h
        obtain ⟨_, hnd, hfs3⟩ := writeFS_ok _ _ _ _ h3
        unfold ioCopy at h
        simp only [World.record_fs] at h
        cases h4 : fs3 (filepathJoin srcBase [rel]) with
        | none => rw [h4] at h; simp at h
        | some n4 =>
          cases n4 with
          | dir => rw [h4] at h; simp at h
          | file b =>
            rw [h4] at h
            simp only [Prod.mk.injEq, true_and] at h
            refine ⟨b, ?_, by simpa using hway, hnd, ?_, ?_⟩
            · unfold statFS at h1
              intro hnone
              rw [hnone] at h1
              simp only at h1
              split_ifs at h1
            · rw [← hfs3]; exact h4
            · rw [← h, World.record_fs, hfs3]
              funext q
              unfold FS.set
              split_ifs <;> rfl

/-- When source and destination differ, a successful `copyFile` gave the destination the
content of the source and changed nothing else but missing directories. -/
theorem copyFile_ok_of_ne (w w1 : World) (dstBase srcBase : Path) (rel : String)
    (h : copyFile w dstBase srcBase rel = (none, w1))
    (hne : filepathJoin srcBase [rel] ≠ filepathJoin dstBase [rel]) :
    ∃ b, w.fs (filepathJoin srcBase [rel]) = some (.file b)
      ∧ fileOnPath w.fs (pathDir (filepathJoin dstBase [rel])) = false
      ∧ w.fs (filepathJoin dstBase [rel]) ≠ some .dir
      ∧ w1.fs = (w.fs.mkdirs (pathDir (filepathJoin dstBase [rel]))).set
          (filepathJoin dstBase [rel]) (some (.file b)) := by
  obtain ⟨b, hex, hway, hnd, hsrc, hfs⟩ := copyFile_ok w w1 dstBase srcBase rel h
  refine ⟨b, ?_, hway, ?_, hfs⟩
  · rw [FS.set_other _ _ _ _ hne] at hsrc
    cases hs : w.fs (filepathJoin srcBase [rel]) with
    | none => exact absurd hs hex
    | some n =>
      rw [FS.mkdirs_of_some _ _ _ n hway hs] at hsrc
      exact hsrc
  · intro hd
    exact hnd (FS.mkdirs_of_some _ _ _ _ hway hd)

/-- A successful `copyFile` keeps every node that exists, the destination apart. -/
theorem copyFile_keeps (w w1 : World) (dstBase srcBase : Path) (rel : String)
    (h : copyFile w dstBase srcBase rel = (none, w1)) (q : Path) (n : Node)
    (hq : w.fs q = some n) (hne : q ≠ filepathJoin dstBase [rel]) : w1.fs q = some n := by
  obtain ⟨b, _, hway, _, _, hfs⟩ := copyFile_ok w w1 dstBase srcBase rel h
  rw [hfs, FS.set_other _ _ _ _ hne]
  exact FS.mkdirs_of_some _ _ _ n hway hq

/-- A successful `copyFile` keeps every directory. -/
theorem copyFile_keeps_dirs (w w1 : World) (dstBase srcBase : Path) (rel : String)
    (h : copyFile w dstBase srcBase rel = (none, w1)) (q : Path)
    (hq : w.fs q = some .dir) : w1.fs q = some .dir := by
  obtain ⟨b, _, hway, hnd, _, hfs⟩ := copyFile_ok w w1 dstBase srcBase rel h
  by_cases hne : q = filepathJoin dstBase [rel]
  · subst hne
    exact absurd (FS.mkdirs_of_some _ _ _ _ hway hq) hnd
  · rw [hfs, FS.set_other _ _ _ _ hne]
    exact FS.mkdirs_of_some _ _ _ _ hway hq

/-- The filesystem any call of `copyFile` leaves, failed or not. -/
theorem copyFile_cases (w : World) (dstBase srcBase : Path) (rel : String) :
    (copyFile w dstBase srcBase rel).2.fs = w.fs
      ∨ (fileOnPath w.fs (pathDir (filepathJoin dstBase [rel])) = false
          ∧ ((copyFile w dstBase srcBase rel).2.fs
                = w.fs.mkdirs (pathDir (filepathJoin dstBase [rel]))
              ∨ ∃ b, (copyFile w dstBase srcBase rel).2.fs
                  = (w.fs.mkdirs (pathDir (filepathJoin dstBase [rel]))).set
                      (filepathJoin dstBase [rel]) (some (.file b)))) := by
  unfold copyFile
  simp only
  unfold osOpen
  cases h1 : statFS w.fs (filepathJoin srcBase [rel]) with
  | error e => exact Or.inl rfl
  | ok n =>
    simp only
    unfold osMkdirAll
    simp only [World.record_fs, mkdirAllFS_eq]
    by_cases hway : fileOnPath w.fs (pathDir (filepathJoin dstBase [rel])) = true
    · rw [if_pos hway]; exact Or.inl rfl
    · rw [if_neg hway]
      simp only
      refine Or.inr ⟨by simpa using hway, ?_⟩
      unfold osCreate
      simp only [World.record_fs]
      cases h3 : writeFS (w.fs.mkdirs (pathDir (filepathJoin dstBase [rel])))
          (filepathJoin dstBase [rel]) [] with
      | error e => exact Or.inl rfl
      | ok fs3 =>
        simp only
        obtain ⟨_, hnd, hfs3⟩ := writeFS_ok _ _ _ _ h3
        unfold ioCopy
        simp only [World.record_fs]
        cases h4 : fs3 (filepathJoin srcBase [rel]) with
        | none => exact Or.inr ⟨[], by simp only [World.record_fs]; exact hfs3⟩
        | some n4 =>
          cases n4 with
          | dir => exact Or.inr ⟨[], by simp only [World.record_fs]; exact hfs3⟩
          | file b =>
            refine Or.inr ⟨b, ?_⟩
            simp only [World.record_fs, hfs3]
            funext q
            unfold FS.set
            split_ifs <;> rfl

/-- The error `copyFile` returns and the filesystem it leaves depend on the filesystem
only; the count of context polls is not touched. -/
theorem copyFile_eq_FS (w : World) (dstBase srcBase : Path) (rel : String) :
    (copyFile w dstBase srcBase rel).1 = (copyFileFS w.fs dstBase srcBase rel).1
      ∧ (copyFile w dstBase srcBase rel).2.fs = (copyFileFS w.fs dstBase srcBase rel).2
      ∧ (copyFile w dstBase srcBase rel).2.polls = w.polls := by
  unfold copyFile copyFileFS
  simp only
  unfold osOpen
  cases h1 : statFS w.fs (filepathJoin srcBase [rel]) with
  | error e => exact ⟨rfl, rfl, rfl⟩
  | ok n =>
    simp only
    unfold osMkdirAll
    simp only [World.record_fs]
    cases h2 : mkdirAllFS w.fs (pathDir (filepathJoin dstBase [rel])) with
    | error e => exact ⟨rfl, rfl, rfl⟩
    | ok fs1 =>
      simp only
      unfold osCreate
      simp only [World.record_fs]
      cases h3 : writeFS fs1 (filepathJoin dstBase [rel]) [] with
      | error e => exact ⟨rfl, rfl, rfl⟩
      | ok fs2 =>
        simp only
        unfold ioCopy
        simp only [World.record_fs]
        cases h4 : fs2 (filepathJoin srcBase [rel]) with
        | none => exact ⟨rfl, rfl, rfl⟩
        | some n4 =>
          cases n4 with
          | dir => exact ⟨rfl, rfl, rfl⟩
          | file b => exact ⟨rfl, rfl, rfl⟩

/-! ## Storing the files of a descriptor -/

/-- One successful round of the loop of `StoreSnapshot`. -/
theorem storeFiles_cons_ok (m : StorageFileSystemModule) (ctx : Context) (snap : Snapshot)
    (dstPath : Path) (f : SnapshotFile) (rest : List SnapshotFile) (w w1 : World)
    (h : storeFiles m ctx snap dstPath (f :: rest) w = (none, w1)) :
    ∃ wa wb wc, wa.fs = w.fs ∧ copyFile wa dstPath m.dataPath f.path = (none, wb)
      ∧ wc.fs = wb.fs ∧ storeFiles m ctx snap dstPath rest wc = (none, w1) := by
  unfold storeFiles at h
  have h0 := ctxErr_fs ctx w
  rcases hc : ctxErr ctx w with ⟨oe, wa⟩
  rw [hc] at h h0
  cases oe with
  | some e => simp at h
  | none =>
    simp only at h h0
    rcases hcp : copyFile wa dstPath m.dataPath f.path with ⟨oc, wb⟩
    rw [hcp] at h
    cases oc with
    | some e => simp at h
    | none =>
      simp only at h
      have hs := osStat_fs wb (makeSnapshotFilePath m snap.className snap.id f.path)
      rcases hst : osStat wb (makeSnapshotFilePath m snap.className snap.id f.path)
        with ⟨r, wc⟩
      rw [hst] at h hs
      cases r with
      | error e => simp at h
      | ok n =>
        simp only at h hs
        exact ⟨wa, wb, wc, h0, hcp, hs, h⟩

/-- What a successful run of the loop of `StoreSnapshot` leaves, when no destination is a
source and files with one destination have one source: every destination holds what
its source held at the start, whatever existed elsewhere is kept, and so is every
directory. -/
theorem storeFiles_ok (m : StorageFileSystemModule) (ctx : Context) (snap : Snapshot)
    (dstPath : Path) :
    ∀ (files : List SnapshotFile) (w w1 : World),
      storeFiles m ctx snap dstPath files w = (none, w1) →
      (∀ f ∈ files, ∀ g ∈ files,
        filepathJoin m.dataPath [f.path] ≠ filepathJoin dstPath [g.path]) →
      (∀ f ∈ files, ∀ g ∈ files,
        filepathJoin dstPath [f.path] = filepathJoin dstPath [g.path] →
          filepathJoin m.dataPath [f.path] = filepathJoin m.dataPath [g.path]) →
      (∀ f ∈ files, ∃ b, w.fs (filepathJoin m.dataPath [f.path]) = some (.file b)
          ∧ w1.fs (filepathJoin dstPath [f.path]) = some (.file b))
        ∧ (∀ q n, w.fs q = some n → (∀ f ∈ files, filepathJoin dstPath [f.path] ≠ q) →
            w1.fs q = some n)
        ∧ (∀ q, w.fs q = some .dir → w1.fs q = some .dir) := by
  intro files
  induction files with
  | nil =>
    intro w w1 h _ _
    unfold storeFiles at h
    simp only [Prod.mk.injEq, true_and] at h
    subst h
    exact ⟨fun f hf => absurd hf (by simp), fun q n hq _ => hq, fun q hq => hq⟩
  | cons f rest ih =>
    intro w w1 h hsd hinj
    obtain ⟨wa, wb, wc, hwa, hcp, hwc, hrest⟩ := storeFiles_cons_ok m ctx snap dstPath f rest w w1 h
    obtain ⟨ihA, ihB, ihC⟩ := ih wc w1 hrest
      (fun x hx y hy => hsd x (List.mem_cons_of_mem _ hx) y (List.mem_cons_of_mem _ hy))
      (fun x hx y hy => hinj x (List.mem_cons_of_mem _ hx) y (List.mem_cons_of_mem _ hy))
    obtain ⟨b, hsrc, hway, hnd, hfs⟩ := copyFile_ok_of_ne wa wb dstPath m.dataPath f.path hcp
      (hsd f (List.mem_cons_self _ _) f (List.mem_cons_self _ _))
    rw [hwa] at hsrc hway hnd hfs
    -- a source of a later file that is a regular file after this round was one before
    have back : ∀ g ∈ f :: rest, ∀ c, wc.fs (filepathJoin m.dataPath [g.path]) = some (.file c) →
        w.fs (filepathJoin m.dataPath [g.path]) = some (.file c) := by
      intro g hg c hc
      rw [hwc, hfs, FS.set_other _ _ _ _ (hsd g hg f (List.mem_cons_self _ _))] at hc
      unfold FS.mkdirs at hc
      split_ifs at hc
      · exact absurd hc (by simp)
      · exact hc
    have hdst : wc.fs (filepathJoin dstPath [f.path]) = some (.file b) := by
      rw [hwc, hfs, FS.set_same]
    refine ⟨?_, ?_, ?_⟩
    · intro g hg
      rcases List.mem_cons.1 hg with rfl | hg1
      · refine ⟨b, hsrc, ?_⟩
        by_cases hdup : ∃ x ∈ rest, filepathJoin dstPath [x.path] = filepathJoin dstPath [g.path]
        · obtain ⟨x, hx, hxe⟩ := hdup
          obtain ⟨c, hc1, hc2⟩ := ihA x hx
          have hsame := hinj x (List.mem_cons_of_mem _ hx) g (List.mem_cons_self _ _) hxe
          have := back x (List.mem_cons_of_mem _ hx) c hc1
          rw [hsame, hsrc] at this
          simp only [Option.some.injEq, Node.file.injEq] at this
          rw [← hxe, hc2, this]
        · exact ihB _ _ hdst (fun x hx hxe => hdup ⟨x, hx, hxe⟩)
      · obtain ⟨c, hc1, hc2⟩ := ihA g hg1
        exact ⟨c, back g hg c hc1, hc2⟩
    · intro q n hq hnot
      have hq1 : wc.fs q = some n := by
        rw [hwc]
        exact copyFile_keeps wa wb dstPath m.dataPath f.path hcp q n (by rw [hwa]; exact hq)
          (fun heq => hnot f (List.mem_cons_self _ _) heq.symm)
      exact ihB q n hq1 (fun x hx => hnot x (List.mem_cons_of_mem _ hx))
    · intro q hq
      have hq1 : wc.fs q = some .dir := by
        rw [hwc]
        exact copyFile_keeps_dirs wa wb dstPath m.dataPath f.path hcp q (by rw [hwa]; exact hq)
      exact ihC q hq1

/-- What a successful `saveMeta` leaves: apart from the meta path and its temporary
sibling only missing directories were added; the meta path holds the serialized
descriptor, unless it was a directory and still is one (the rename was refused). -/
theorem saveMeta_none (m : StorageFileSystemModule) (w w1 : World) (s : Snapshot)
    (h : saveMeta m w s = (none, w1)) :
    ∃ content, m.json.marshal s = .ok content
      ∧ fileOnPath w.fs (makeSnapshotDirPath m s.className s.id) = false
      ∧ (∀ q, q ≠ makeSnapshotDirPath m s.className s.id ++ ["snapshot.json"] →
          q ≠ makeSnapshotDirPath m s.className s.id ++ ["snapshot.json.tmp"] →
          w1.fs q = w.fs.mkdirs (makeSnapshotDirPath m s.className s.id) q)
      ∧ (w1.fs (makeSnapshotDirPath m s.className s.id ++ ["snapshot.json"])
            = some (.file content)
          ∨ (w1.fs (makeSnapshotDirPath m s.className s.id ++ ["snapshot.json"]) = some .dir
              ∧ w.fs (makeSnapshotDirPath m s.className s.id ++ ["snapshot.json"])
                  = some .dir)) := by
  cases hm : m.json.marshal s with
  | error e =>
    rw [saveMeta_marshal_error m w s e hm] at h
    simp at h
  | ok content =>
    rw [saveMeta_eq m w s content hm, mkdirAllFS_eq] at h
    by_cases hway : fileOnPath w.fs (makeSnapshotDirPath m s.className s.id) = true
    · rw [if_pos hway] at h; simp at h
    · rw [if_neg hway] at h
      simp only at h
      cases h2 : writeFS (w.fs.mkdirs (makeSnapshotDirPath m s.className s.id))
          (makeSnapshotDirPath m s.className s.id ++ ["snapshot.json.tmp"]) content with
      | error e => rw [h2] at h; simp at h
      | ok fs2 =>
        rw [h2] at h
        simp only at h
        obtain ⟨hd2, hp2, hfs2⟩ := writeFS_ok _ _ _ _ h2
        have hren := renameFS_file fs2
          (makeSnapshotDirPath m s.className s.id ++ ["snapshot.json.tmp"])
          (makeSnapshotDirPath m s.className s.id ++ ["snapshot.json"]) content
          (by rw [hfs2, FS.set_same]) (fun h => snapshot_json_tmp_ne _ h.symm) (by
            rw [hfs2, FS.set_other]
            · simpa [pathDir] using hd2
            · simp only [pathDir, List.dropLast_concat]
              intro h
              have hlen := congrArg List.length h
              simp at hlen)
        refine ⟨content, rfl, by simpa using hway, ?_⟩
        by_cases hisdir : fs2 (makeSnapshotDirPath m s.className s.id ++ ["snapshot.json"])
            = some .dir
        · rw [if_pos hisdir] at hren
          rw [hren] at h
          simp only [Prod.mk.injEq, true_and] at h
          subst h
          simp only [World.record_fs]
          refine ⟨?_, Or.inr ⟨hisdir, ?_⟩⟩
          · intro q _ hq2
            rw [hfs2, FS.set_other _ _ _ _ hq2]
          · rw [hfs2, FS.set_other _ _ _ _ (snapshot_json_tmp_ne _)] at hisdir
            unfold FS.mkdirs at hisdir
            rw [if_neg (concat_not_prefix_self _ _)] at hisdir
            exact hisdir
        · rw [if_neg hisdir] at hren
          rw [hren] at h
          simp only [Prod.mk.injEq, true_and] at h
          subst h
          simp only [World.record_fs]
          refine ⟨?_, Or.inl ?_⟩
          · intro q hq1 hq2
            rw [FS.set_other _ _ _ _ hq2, FS.set_other _ _ _ _ hq1, hfs2,
              FS.set_other _ _ _ _ hq2]
          · rw [FS.set_other _ _ _ _ (snapshot_json_tmp_ne _), FS.set_same]

/-- The stages of a successful `StoreSnapshot`. -/
theorem StoreSnapshot_ok (m : StorageFileSystemModule) (ctx : Context) (w w1 : World)
    (snap : Snapshot) (h : StoreSnapshot m ctx w snap = (none, w1)) :
    ∃ wa wb, fileOnPath w.fs (makeSnapshotDirPath m snap.className snap.id) = false
      ∧ wa.fs = w.fs.mkdirs (makeSnapshotDirPath m snap.className snap.id)
      ∧ storeFiles m ctx snap (makeSnapshotDirPath m snap.className snap.id) snap.files wa
          = (none, wb)
      ∧ saveMeta m wb snap = (none, w1) := by
  unfold StoreSnapshot at h
  have h0 := ctxErr_fs ctx w
  rcases hc : ctxErr ctx w with ⟨oe, w0⟩
  rw [hc] at h h0
  cases oe with
  | some e => simp at h
  | none =>
    simp only at h h0
    unfold createBackupDir createBackupsDir osMkdirAll at h
    simp only [mkdirAllFS_eq] at h
    by_cases hway : fileOnPath w0.fs (makeSnapshotDirPath m snap.className snap.id) = true
    · rw [if_pos hway] at h; simp at h
    · rw [if_neg hway] at h
      simp only at h
      rcases hsf : storeFiles m ctx snap (makeSnapshotDirPath m snap.className snap.id)
          snap.files (w0.record (.mkdirAll (makeSnapshotDirPath m snap.className snap.id))
            true (w0.fs.mkdirs (makeSnapshotDirPath m snap.className snap.id)))
        with ⟨r, wb⟩
      rw [hsf] at h
      cases r with
      | some e => simp at h
      | none =>
        simp only at h
        rcases hsm : saveMeta m wb snap with ⟨r2, w4⟩
        rw [hsm] at h
        cases r2 with
        | some e => simp at h
        | none =>
          simp only [Prod.mk.injEq, true_and] at h
          subst h
          rw [h0] at hway
          exact ⟨_, wb, by simpa using hway, by rw [World.record_fs, h0], hsf, hsm⟩

/-! ## `StoreSnapshot` -/

theorem cleanAbs_makeSnapshotDirPath (m : StorageFileSystemModule) (className id : String) :
    cleanAbs (makeSnapshotDirPath m className id) = makeSnapshotDirPath m className id := by
  unfold makeSnapshotDirPath filepathJoin
  have h := cleanAbs_cleanAbs_append
    (m.snapshotsPath ++ (List.map splitSlash [className, id]).flatten) []
  simpa using h

/-- The destination of a listable path in the snapshot directory. -/
theorem join_snapshotDir (m : StorageFileSystemModule) (className id rel : String)
    (r : List String) (h : localComponents rel = some r) :
    filepathJoin (makeSnapshotDirPath m className id) [rel]
      = makeSnapshotDirPath m className id ++ r := by
  rw [filepathJoin_local _ rel r h, cleanAbs_makeSnapshotDirPath]

theorem listable_components (rel : String) (h : listable rel) :
    ∃ r, localComponents rel = some r ∧ r ≠ ["snapshot.json"] ∧ r ≠ ["snapshot.json.tmp"] := by
  obtain ⟨h1, h2, h3⟩ := h
  cases hl : localComponents rel with
  | none => exact absurd hl h1
  | some r =>
    refine ⟨r, rfl, ?_, ?_⟩
    · intro hr; rw [hl, hr] at h2; exact h2 rfl
    · intro hr; rw [hl, hr] at h3; exact h3 rfl

/-- For listable paths none of whose sources lies in the snapshot directory, no
destination is a source, equal destinations have equal sources, and no destination is
the meta path or its temporary sibling. -/
theorem listable_paths (m : StorageFileSystemModule) (className id : String)
    (files : List SnapshotFile) (hlist : ∀ f ∈ files, listable f.path)
    (hout : ∀ f ∈ files,
      ¬ makeSnapshotDirPath m className id <+: filepathJoin m.dataPath [f.path]) :
    (∀ f ∈ files, ∀ g ∈ files, filepathJoin m.dataPath [f.path]
        ≠ filepathJoin (makeSnapshotDirPath m className id) [g.path])
      ∧ (∀ f ∈ files, ∀ g ∈ files,
          filepathJoin (makeSnapshotDirPath m className id) [f.path]
            = filepathJoin (makeSnapshotDirPath m className id) [g.path] →
          filepathJoin m.dataPath [f.path] = filepathJoin m.dataPath [g.path])
      ∧ (∀ f ∈ files, filepathJoin (makeSnapshotDirPath m className id) [f.path]
            ≠ makeSnapshotDirPath m className id ++ ["snapshot.json"]
          ∧ filepathJoin (makeSnapshotDirPath m className id) [f.path]
            ≠ makeSnapshotDirPath m className id ++ ["snapshot.json.tmp"]) := by
  refine ⟨?_, ?_, ?_⟩
  · intro f hf g hg heq
    obtain ⟨r, hr, _, _⟩ := listable_components g.path (hlist g hg)
    rw [join_snapshotDir m className id g.path r hr] at heq
    exact hout f hf (heq ▸ List.prefix_append _ _)
  · intro f hf g hg heq
    obtain ⟨r, hr, _, _⟩ := listable_components f.path (hlist f hf)
    obtain ⟨r1, hr1, _, _⟩ := listable_components g.path (hlist g hg)
    rw [join_snapshotDir m className id f.path r hr,
      join_snapshotDir m className id g.path r1 hr1] at heq
    have := List.append_cancel_left heq
    subst this
    rw [filepathJoin_local _ f.path r hr, filepathJoin_local _ g.path r hr1]
  · intro f hf
    obtain ⟨r, hr, h1, h2⟩ := listable_components f.path (hlist f hf)
    rw [join_snapshotDir m className id f.path r hr]
    exact ⟨fun h => h1 (List.append_cancel_left h), fun h => h2 (List.append_cancel_left h)⟩

/-- C2 (as stated, refuted): a descriptor that lists the data file `snapshot.json` is
stored without error, yet the path `snapshotsPath/className/id/snapshot.json` does not
hold the bytes of the data file: the meta file has been written over the copy. -/
theorem StoreSnapshot_meta_overwrites_copy :
    (StoreSnapshot demoModule Context.background (World.ofList clashTable) clashSnapshot).1
        = none
      ∧ (World.ofList clashTable).fs (filepathJoin demoModule.dataPath ["snapshot.json"])
          = some (.file [1, 2, 3])
      ∧ (StoreSnapshot demoModule Context.background (World.ofList clashTable)
          clashSnapshot).2.fs (makeSnapshotFilePath demoModule "Books" "snapshot-1"
            "snapshot.json") = some (.file (encodeSnapshot clashSnapshot))
      ∧ encodeSnapshot clashSnapshot ≠ [1, 2, 3] := by
  refine ⟨by decide, by decide, by decide, by decide⟩

/-- C2 (amended): for a descriptor whose listed paths stay inside after normalization, do
not name the meta file `snapshot.json` or its sibling `snapshot.json.tmp`, and whose
sources do not lie in the snapshot directory: when `StoreSnapshot` returns no error, for
every listed file the path `snapshotsPath/className/id/p` holds exactly the bytes that
`dataPath/p` held when the call started (a regular file, possibly empty); unless the
meta path is a directory afterwards (the rename was refused), the meta file holds the
serialized descriptor and `GetMeta` returns the descriptor; with an empty file list
nothing changes but the meta file, its temporary sibling and the directories down to
the snapshot directory. -/
theorem StoreSnapshot_copies (m : StorageFileSystemModule) (ctx : Context) (w : World)
    (snap : Snapshot) (content : Bytes)
    (hlive : ctx.cancelAt = none)
    (hlist : ∀ f ∈ snap.files, listable f.path)
    (hout : ∀ f ∈ snap.files,
      ¬ makeSnapshotDirPath m snap.className snap.id <+: filepathJoin m.dataPath [f.path])
    (hm : m.json.marshal snap = .ok content)
    (hrt : m.json.unmarshal content = .ok snap)
    (hstore : (StoreSnapshot m ctx w snap).1 = none) :
    (∀ f ∈ snap.files, ∃ b,
        w.fs (filepathJoin m.dataPath [f.path]) = some (.file b)
          ∧ (StoreSnapshot m ctx w snap).2.fs
              (makeSnapshotFilePath m snap.className snap.id f.path) = some (.file b))
      ∧ ((StoreSnapshot m ctx w snap).2.fs (makeMetaFilePath m snap.className snap.id)
            ≠ some .dir →
          (StoreSnapshot m ctx w snap).2.fs (makeMetaFilePath m snap.className snap.id)
              = some (.file content)
            ∧ (GetMeta m ctx (StoreSnapshot m ctx w snap).2 snap.className snap.id).1
              = .ok snap)
      ∧ (snap.files = [] → ∀ q, q ≠ makeMetaFilePath m snap.className snap.id →
          q ≠ pathAddSuffix (makeMetaFilePath m snap.className snap.id) ".tmp" →
          (StoreSnapshot m ctx w snap).2.fs q
            = w.fs.mkdirs (makeSnapshotDirPath m snap.className snap.id) q) := by
  rcases hres : StoreSnapshot m ctx w snap with ⟨r, w1⟩
  rw [hres] at hstore
  simp only at hstore
  subst hstore
  simp only
  obtain ⟨wa, wb, hway, hwa, hsf, hsm⟩ := StoreSnapshot_ok m ctx w w1 snap hres
  obtain ⟨hsd, hinj, hnames⟩ := listable_paths m snap.className snap.id snap.files hlist hout
  obtain ⟨hA, hB, hC⟩ := storeFiles_ok m ctx snap _ snap.files wa wb hsf hsd hinj
  obtain ⟨content1, hm1, hway1, hframe, hmeta⟩ := saveMeta_none m wb w1 snap hsm
  rw [hm] at hm1
  simp only [Except.ok.injEq] at hm1
  subst hm1
  refine ⟨?_, ?_, ?_⟩
  · intro f hf
    obtain ⟨b, hb1, hb2⟩ := hA f hf
    refine ⟨b, ?_, ?_⟩
    · rw [hwa] at hb1
      unfold FS.mkdirs at hb1
      split_ifs at hb1
      · exact absurd hb1 (by simp)
      · exact hb1
    · rw [makeSnapshotFilePath_eq_join, hframe _ (hnames f hf).1 (hnames f hf).2]
      exact FS.mkdirs_of_some _ _ _ _ hway1 hb2
  · intro hnd
    rw [makeMetaFilePath_eq] at hnd ⊢
    rcases hmeta with hfile | ⟨hdir, _⟩
    · refine ⟨hfile, ?_⟩
      unfold GetMeta
      rw [loadSnapshotMeta_ok_iff m ctx w1 snap.className snap.id hlive snap]
      exact ⟨content, by rw [makeMetaFilePath_eq]; exact hfile, hrt⟩
    · exact absurd hdir hnd
  · intro hempty q hq1 hq2
    rw [makeMetaFilePath_eq] at hq1
    rw [tmp_meta] at hq2
    rw [hframe q hq1 hq2]
    rw [hempty] at hsf
    unfold storeFiles at hsf
    simp only [Prod.mk.injEq, true_and] at hsf
    subst hsf
    rw [hwa]
    unfold FS.mkdirs
    split_ifs <;> rfl

/-- C2 (amended, witness): the two files of the example, one of them empty, are copied
and the descriptor is stored. -/
theorem StoreSnapshot_copies_witness :
    (∀ f ∈ demoSnapshot.files, listable f.path)
      ∧ (StoreSnapshot demoModule Context.background (World.ofList demoTable)
          demoSnapshot).1 = none
      ∧ (∀ f ∈ demoSnapshot.files, ∃ b,
          (World.ofList demoTable).fs (filepathJoin demoModule.dataPath [f.path])
              = some (.file b)
            ∧ (StoreSnapshot demoModule Context.background (World.ofList demoTable)
                demoSnapshot).2.fs
                (makeSnapshotFilePath demoModule demoSnapshot.className demoSnapshot.id f.path)
                = some (.file b))
      ∧ (StoreSnapshot demoModule Context.background (World.ofList demoTable)
          demoSnapshot).2.fs ["snapshots", "Books", "snapshot-1", "dir", "b.txt"]
          = some (.file []) :=
  have h := StoreSnapshot_copies demoModule Context.background (World.ofList demoTable)
    demoSnapshot (encodeSnapshot demoSnapshot) rfl (by decide) (by decide) rfl (by rfl)
    (by decide)
  ⟨by decide, by decide, h.1, by decide⟩

/-! ## Restoring the files of a descriptor -/

theorem FS.mkdirs_eq_self (fs : FS) (p : Path) (h : ∀ q, q <+: p → fs q = some .dir) :
    fs.mkdirs p = fs := by
  funext q
  unfold FS.mkdirs
  split_ifs with hq
  · exact (h q hq).symm
  · rfl

theorem fileOnPath_of_dirs (fs : FS) (p : Path) (h : ∀ q, q <+: p → fs q = some .dir) :
    fileOnPath fs p = false := by
  rw [fileOnPath_eq_false]
  intro q hq b hb
  rw [h q hq] at hb
  exact absurd hb (by simp)

/-- A copy whose source is a regular file, whose destination directory exists and whose
destination is not a directory goes through and writes the destination only. -/
theorem copyFile_of (w : World) (dstBase srcBase : Path) (rel : String) (b : Bytes)
    (hsrc : w.fs (filepathJoin srcBase [rel]) = some (.file b))
    (hdirs : ∀ q, q <+: pathDir (filepathJoin dstBase [rel]) → w.fs q = some .dir)
    (hnd : w.fs (filepathJoin dstBase [rel]) ≠ some .dir)
    (hne : filepathJoin srcBase [rel] ≠ filepathJoin dstBase [rel]) :
    (copyFile w dstBase srcBase rel).1 = none
      ∧ (copyFile w dstBase srcBase rel).2.fs
          = w.fs.set (filepathJoin dstBase [rel]) (some (.file b)) := by
  unfold copyFile
  simp only
  unfold osOpen
  have h1 : statFS w.fs (filepathJoin srcBase [rel]) = .ok (.file b) := by
    unfold statFS
    rw [hsrc]
  rw [h1]
  simp only
  unfold osMkdirAll
  simp only [World.record_fs, mkdirAllFS_eq, fileOnPath_of_dirs _ _ hdirs,
    FS.mkdirs_eq_self _ _ hdirs]
  simp only [Bool.false_eq_true, if_false]
  unfold osCreate
  simp only [World.record_fs]
  rw [writeFS_of w.fs (filepathJoin dstBase [rel]) [] (hdirs _ List.prefix_rfl) hnd]
  simp only
  unfold ioCopy
  simp only [World.record_fs]
  rw [FS.set_other _ _ _ _ hne, hsrc]
  simp only [World.record_fs, true_and]
  funext q
  unfold FS.set
  split_ifs <;> rfl

/-- The loop of `RestoreSnapshot` under a live context: when every listed snapshot file is
a regular file holding what `target` holds at the data path, the directories of the
data paths exist, no data path is a directory or a snapshot file, the loop succeeds,
every data path ends up as in `target`, and nothing else changes. -/
theorem restoreFiles_ok (m : StorageFileSystemModule) (ctx : Context) (className id : String)
    (hlive : ctx.cancelAt = none) (target : FS) :
    ∀ (files : List SnapshotFile) (w : World),
      (∀ f ∈ files, ∃ b,
        w.fs (filepathJoin (makeSnapshotDirPath m className id) [f.path]) = some (.file b)
          ∧ target (filepathJoin m.dataPath [f.path]) = some (.file b)) →
      (∀ f ∈ files, ∀ q, q <+: pathDir (filepathJoin m.dataPath [f.path]) →
        w.fs q = some .dir) →
      (∀ f ∈ files, w.fs (filepathJoin m.dataPath [f.path]) ≠ some .dir) →
      (∀ f ∈ files, ∀ g ∈ files, filepathJoin m.dataPath [f.path]
        ≠ filepathJoin (makeSnapshotDirPath m className id) [g.path]) →
      (restoreFiles m ctx className id files w).1 = none
        ∧ (∀ f ∈ files, (restoreFiles m ctx className id files w).2.fs
            (filepathJoin m.dataPath [f.path]) = target (filepathJoin m.dataPath [f.path]))
        ∧ (∀ q, (∀ f ∈ files, filepathJoin m.dataPath [f.path] ≠ q) →
            (restoreFiles m ctx className id files w).2.fs q = w.fs q) := by
  intro files
  induction files with
  | nil =>
    intro w _ _ _ _
    exact ⟨rfl, fun f hf => absurd hf (by simp), fun q _ => rfl⟩
  | cons f rest ih =>
    intro w h1 h2 h3 h4
    have hf := List.mem_cons_self f rest
    obtain ⟨b, hsnap, htarget⟩ := h1 f hf
    have hne := (h4 f hf f hf).symm
    -- first copy
    obtain ⟨hc1, hfs1⟩ := copyFile_of { w with polls := w.polls + 1 } m.dataPath
      (makeSnapshotDirPath m className id) f.path b hsnap (h2 f hf) (h3 f hf) hne
    rcases hcp1 : copyFile { w with polls := w.polls + 1 } m.dataPath
      (makeSnapshotDirPath m className id) f.path with ⟨r1, wa⟩
    rw [hcp1] at hc1 hfs1
    simp only at hc1 hfs1
    subst hc1
    -- second copy
    obtain ⟨hc2, hfs2⟩ := copyFile_of wa m.dataPath
      (makeSnapshotDirPath m className id) f.path b
      (by rw [hfs1, FS.set_other _ _ _ _ hne]; exact hsnap)
      (by
        intro q hq
        rw [hfs1, FS.set_other]
        · exact h2 f hf q hq
        · intro heq
          exact h3 f hf (heq ▸ h2 f hf q hq))
      (by rw [hfs1, FS.set_same]; simp) hne
    rcases hcp2 : copyFile wa m.dataPath (makeSnapshotDirPath m className id) f.path
      with ⟨r2, wb⟩
    rw [hcp2] at hc2 hfs2
    simp only at hc2 hfs2
    subst hc2
    have hwb : wb.fs = w.fs.set (filepathJoin m.dataPath [f.path]) (some (.file b)) := by
      rw [hfs2, hfs1]
      funext q
      unfold FS.set
      split_ifs <;> rfl
    -- stat of the snapshot file
    have hstat : statFS wb.fs (makeSnapshotFilePath m className id f.path)
        = .ok (.file b) := by
      unfold statFS
      rw [makeSnapshotFilePath_eq_join, hwb, FS.set_other _ _ _ _ hne, hsnap]
    have hunfold : restoreFiles m ctx className id (f :: rest) w
        = restoreFiles m ctx className id rest
            (wb.record (.stat (makeSnapshotFilePath m className id f.path)) true wb.fs) := by
      conv_lhs => unfold restoreFiles
      simp only [ctxErr_live ctx w hlive, hcp1, hcp2]
      unfold osStat
      rw [hstat]
    rw [hunfold]
    obtain ⟨ihA, ihB, ihC⟩ := ih
      (wb.record (.stat (makeSnapshotFilePath m className id f.path)) true wb.fs)
      (by
        intro g hg
        obtain ⟨c, hc1, hc2⟩ := h1 g (List.mem_cons_of_mem _ hg)
        refine ⟨c, ?_, hc2⟩
        rw [World.record_fs, hwb,
          FS.set_other _ _ _ _ (h4 f hf g (List.mem_cons_of_mem _ hg)).symm]
        exact hc1)
      (by
        intro g hg q hq
        rw [World.record_fs, hwb, FS.set_other]
        · exact h2 g (List.mem_cons_of_mem _ hg) q hq
        · intro heq
          exact h3 f hf (heq ▸ h2 g (List.mem_cons_of_mem _ hg) q hq))
      (by
        intro g hg
        rw [World.record_fs, hwb]
        by_cases heq : filepathJoin m.dataPath [g.path] = filepathJoin m.dataPath [f.path]
        · rw [heq, FS.set_same]; simp
        · rw [FS.set_other _ _ _ _ heq]
          exact h3 g (List.mem_cons_of_mem _ hg))
      (fun x hx y hy => h4 x (List.mem_cons_of_mem _ hx) y (List.mem_cons_of_mem _ hy))
    refine ⟨ihA, ?_, ?_⟩
    · intro g hg
      rcases List.mem_cons.1 hg with rfl | hg1
      · by_cases hdup : ∃ x ∈ rest,
            filepathJoin m.dataPath [x.path] = filepathJoin m.dataPath [g.path]
        · obtain ⟨x, hx, hxe⟩ := hdup
          rw [← hxe]
          exact ihB x hx
        · rw [ihC _ (fun x hx hxe => hdup ⟨x, hx, hxe⟩), World.record_fs, hwb, FS.set_same,
            htarget]
      · exact ihB g hg1
    · intro q hq
      rw [ihC q (fun x hx => hq x (List.mem_cons_of_mem _ hx)), World.record_fs, hwb,
        FS.set_other _ _ _ _ (fun heq => hq f hf heq.symm)]

/-- What removing the listed files leaves, when none of the listed data paths is a
directory: the listed data paths are gone and nothing else changes. -/
theorem removeListed_spec (m : StorageFileSystemModule) :
    ∀ (files : List SnapshotFile) (fs : FS),
      (∀ f ∈ files, fs (filepathJoin m.dataPath [f.path]) ≠ some .dir) →
      (∀ f ∈ files, removeListed m files fs (filepathJoin m.dataPath [f.path]) = none)
        ∧ (∀ q, (∀ f ∈ files, filepathJoin m.dataPath [f.path] ≠ q) →
            removeListed m files fs q = fs q) := by
  intro files
  induction files with
  | nil =>
    intro fs _
    exact ⟨fun f hf => absurd hf (by simp), fun q _ => rfl⟩
  | cons f rest ih =>
    intro fs h
    have hf := List.mem_cons_self f rest
    -- the filesystem after the first removal, whether it went through or not
    have hstep : ∃ fs1, removeListed m (f :: rest) fs = removeListed m rest fs1
        ∧ fs1 (filepathJoin m.dataPath [f.path]) = none
        ∧ ∀ q, q ≠ filepathJoin m.dataPath [f.path] → fs1 q = fs q := by
      cases hx : fs (filepathJoin m.dataPath [f.path]) with
      | none =>
        refine ⟨fs, ?_, hx, fun q _ => rfl⟩
        conv_lhs => unfold removeListed
        unfold removeFS
        rw [hx]
        simp only
        split_ifs <;> rfl
      | some n =>
        cases n with
        | dir => exact absurd hx (h f hf)
        | file b =>
          refine ⟨fs.set (filepathJoin m.dataPath [f.path]) none, ?_, FS.set_same _ _ _,
            fun q hq => FS.set_other _ _ _ _ hq⟩
          conv_lhs => unfold removeListed
          unfold removeFS
          rw [hx]
    obtain ⟨fs1, heq, hgone, hrest⟩ := hstep
    rw [heq]
    obtain ⟨ihA, ihB⟩ := ih fs1 (by
      intro g hg
      by_cases hsame : filepathJoin m.dataPath [g.path] = filepathJoin m.dataPath [f.path]
      · rw [hsame, hgone]; simp
      · rw [hrest _ hsame]
        exact h g (List.mem_cons_of_mem _ hg))
    refine ⟨?_, ?_⟩
    · intro g hg
      rcases List.mem_cons.1 hg with rfl | hg1
      · by_cases hdup : ∃ x ∈ rest,
            filepathJoin m.dataPath [x.path] = filepathJoin m.dataPath [g.path]
        · obtain ⟨x, hx, hxe⟩ := hdup
          rw [← hxe]
          exact ihA x hx
        · rw [ihB _ (fun x hx hxe => hdup ⟨x, hx, hxe⟩)]
          exact hgone
      · exact ihA g hg1
    · intro q hq
      rw [ihB q (fun x hx => hq x (List.mem_cons_of_mem _ hx))]
      exact hrest q (fun heq => hq f hf heq.symm)

/-! ## Round trip -/

/-- C1 (as stated, refuted): the descriptor listing the data file `snapshot.json` (a
relative path inside the data directory) is stored without error; after the file is
removed, `RestoreSnapshot` succeeds and returns the same file list, but the restored
file holds the serialized descriptor, not the bytes it had when the store ran. -/
theorem restore_returns_meta_bytes :
    (StoreSnapshot demoModule Context.background (World.ofList clashTable) clashSnapshot).1
        = none
      ∧ (World.ofList clashTable).fs ["data", "snapshot.json"] = some (.file [1, 2, 3])
      ∧ removeListed demoModule clashSnapshot.files
          (StoreSnapshot demoModule Context.background (World.ofList clashTable)
            clashSnapshot).2.fs ["data", "snapshot.json"] = none
      ∧ (RestoreSnapshot demoModule Context.background
          { (StoreSnapshot demoModule Context.background (World.ofList clashTable)
              clashSnapshot).2 with
            fs := removeListed demoModule clashSnapshot.files
              (StoreSnapshot demoModule Context.background (World.ofList clashTable)
                clashSnapshot).2.fs }
          "Books" "snapshot-1").1 = .ok clashSnapshot
      ∧ (RestoreSnapshot demoModule Context.background
          { (StoreSnapshot demoModule Context.background (World.ofList clashTable)
              clashSnapshot).2 with
            fs := removeListed demoModule clashSnapshot.files
              (StoreSnapshot demoModule Context.background (World.ofList clashTable)
                clashSnapshot).2.fs }
          "Books" "snapshot-1").2.fs ["data", "snapshot.json"]
          = some (.file (encodeSnapshot clashSnapshot))
      ∧ encodeSnapshot clashSnapshot ≠ [1, 2, 3] := by
  refine ⟨by decide, by decide, by decide, by rfl, by decide, by decide⟩

/-- C1 (amended): round trip. In a well-formed filesystem, under a live context, for a
descriptor whose listed paths stay inside after normalization, do not name the meta file
`snapshot.json` or its sibling `snapshot.json.tmp`, and whose sources do not lie in the
snapshot directory, with an encoding that round-trips the descriptor: if `StoreSnapshot`
succeeds, the meta path is not a directory afterwards (the rename was not refused), and
the listed files are then removed from the data directory, then `RestoreSnapshot` for
the same class name and id succeeds and returns the stored descriptor (the same file
list in the same order), and every listed path under `dataPath`, gone after the
removal, again holds exactly the bytes it had when `StoreSnapshot` ran. -/
theorem store_restore_round_trip (m : StorageFileSystemModule) (ctx : Context) (w : World)
    (snap : Snapshot) (content : Bytes)
    (hlive : ctx.cancelAt = none) (hwf : w.fs.WF)
    (hlist : ∀ f ∈ snap.files, listable f.path)
    (hout : ∀ f ∈ snap.files,
      ¬ makeSnapshotDirPath m snap.className snap.id <+: filepathJoin m.dataPath [f.path])
    (hm : m.json.marshal snap = .ok content)
    (hrt : m.json.unmarshal content = .ok snap)
    (hstore : (StoreSnapshot m ctx w snap).1 = none)
    (hrename : (StoreSnapshot m ctx w snap).2.fs (makeMetaFilePath m snap.className snap.id)
      ≠ some .dir) :
    (RestoreSnapshot m ctx
        { (StoreSnapshot m ctx w snap).2 with
          fs := removeListed m snap.files (StoreSnapshot m ctx w snap).2.fs }
        snap.className snap.id).1 = .ok snap
      ∧ ∀ f ∈ snap.files,
          (∃ b, w.fs (filepathJoin m.dataPath [f.path]) = some (.file b))
            ∧ removeListed m snap.files (StoreSnapshot m ctx w snap).2.fs
                (filepathJoin m.dataPath [f.path]) = none
            ∧ (RestoreSnapshot m ctx
                { (StoreSnapshot m ctx w snap).2 with
                  fs := removeListed m snap.files (StoreSnapshot m ctx w snap).2.fs }
                snap.className snap.id).2.fs (filepathJoin m.dataPath [f.path])
                = w.fs (filepathJoin m.dataPath [f.path]) := by
  rcases hres : StoreSnapshot m ctx w snap with ⟨r, w1⟩
  rw [hres] at hstore hrename
  simp only at hstore hrename
  subst hstore
  simp only
  obtain ⟨wa, wb, hway, hwa, hsf, hsm⟩ := StoreSnapshot_ok m ctx w w1 snap hres
  obtain ⟨hsd, hinj, hnames⟩ := listable_paths m snap.className snap.id snap.files hlist hout
  obtain ⟨hA, hB, hC⟩ := storeFiles_ok m ctx snap _ snap.files wa wb hsf hsd hinj
  obtain ⟨content1, hm1, hway1, hframe, hmeta⟩ := saveMeta_none m wb w1 snap hsm
  rw [hm] at hm1
  simp only [Except.ok.injEq] at hm1
  subst hm1
  rw [makeMetaFilePath_eq] at hrename
  have hmetafile : w1.fs (makeSnapshotDirPath m snap.className snap.id ++ ["snapshot.json"])
      = some (.file content) := by
    rcases hmeta with hfile | ⟨hdir, _⟩
    · exact hfile
    · exact absurd hdir hrename
  -- a path outside the snapshot directory is neither the meta path nor its sibling
  have outside : ∀ q, ¬ makeSnapshotDirPath m snap.className snap.id <+: q →
      q ≠ makeSnapshotDirPath m snap.className snap.id ++ ["snapshot.json"]
        ∧ q ≠ makeSnapshotDirPath m snap.className snap.id ++ ["snapshot.json.tmp"] := by
    intro q hq
    exact ⟨fun h => hq (h ▸ List.prefix_append _ _), fun h => hq (h ▸ List.prefix_append _ _)⟩
  -- what exists outside the snapshot directory and is no destination survives the store
  have kept : ∀ q n, w.fs q = some n →
      ¬ makeSnapshotDirPath m snap.className snap.id <+: q → w1.fs q = some n := by
    intro q n hq hnot
    have h1 : wa.fs q = some n := by
      rw [hwa]; exact FS.mkdirs_of_some _ _ _ _ hway hq
    have h2 : wb.fs q = some n := by
      refine hB q n h1 ?_
      intro f hf heq
      obtain ⟨r, hr, _, _⟩ := listable_components f.path (hlist f hf)
      rw [join_snapshotDir m snap.className snap.id f.path r hr] at heq
      exact hnot (heq ▸ List.prefix_append _ _)
    rw [hframe q (outside q hnot).1 (outside q hnot).2]
    exact FS.mkdirs_of_some _ _ _ _ hway1 h2
  -- the sources and the snapshot files after the store
  have hsrc : ∀ f ∈ snap.files, ∃ b,
      w.fs (filepathJoin m.dataPath [f.path]) = some (.file b)
        ∧ w1.fs (filepathJoin m.dataPath [f.path]) = some (.file b)
        ∧ w1.fs (filepathJoin (makeSnapshotDirPath m snap.className snap.id) [f.path])
            = some (.file b) := by
    intro f hf
    obtain ⟨b, hb1, hb2⟩ := hA f hf
    have hb0 : w.fs (filepathJoin m.dataPath [f.path]) = some (.file b) := by
      rw [hwa] at hb1
      unfold FS.mkdirs at hb1
      split_ifs at hb1
      · exact absurd hb1 (by simp)
      · exact hb1
    refine ⟨b, hb0, kept _ _ hb0 (hout f hf), ?_⟩
    rw [hframe _ (hnames f hf).1 (hnames f hf).2]
    exact FS.mkdirs_of_some _ _ _ _ hway1 hb2
  -- the removal
  obtain ⟨hgone, hstay⟩ := removeListed_spec m snap.files w1.fs (by
    intro f hf
    obtain ⟨b, _, hb, _⟩ := hsrc f hf
    rw [hb]; simp)
  -- loading the descriptor
  have hload : (loadSnapshotMeta m ctx
      { w1 with fs := removeListed m snap.files w1.fs } snap.className snap.id).1
      = .ok snap := by
    rw [loadSnapshotMeta_ok_iff m ctx _ snap.className snap.id hlive snap]
    refine ⟨content, ?_, hrt⟩
    show removeListed m snap.files w1.fs _ = _
    rw [makeMetaFilePath_eq, hstay _ (fun f hf heq => hout f hf (heq ▸ List.prefix_append _ _))]
    exact hmetafile
  rcases hl : loadSnapshotMeta m ctx
      { w1 with fs := removeListed m snap.files w1.fs } snap.className snap.id with ⟨rl, w3⟩
  have hw3 : w3.fs = removeListed m snap.files w1.fs := by
    have := loadSnapshotMeta_fs m ctx
      { w1 with fs := removeListed m snap.files w1.fs } snap.className snap.id
    rw [hl] at this
    exact this
  rw [hl] at hload
  simp only at hload
  subst hload
  -- the loop
  obtain ⟨hR1, hR2, _⟩ := restoreFiles_ok m ctx snap.className snap.id hlive w.fs snap.files w3
    (by
      intro f hf
      obtain ⟨b, hb0, _, hb2⟩ := hsrc f hf
      refine ⟨b, ?_, hb0⟩
      rw [hw3, hstay _ (fun g hg => hsd g hg f hf)]
      exact hb2)
    (by
      intro f hf q hq
      obtain ⟨b, hb0, _, _⟩ := hsrc f hf
      have hqf : q <+: filepathJoin m.dataPath [f.path] :=
        hq.trans (List.dropLast_prefix _)
      have hqne : q ≠ filepathJoin m.dataPath [f.path] := by
        intro heq
        rw [heq] at hq
        have hlen := hq.length_le
        unfold pathDir at hlen
        rw [List.length_dropLast] at hlen
        have hnil : filepathJoin m.dataPath [f.path] = [] := by
          apply List.eq_nil_of_length_eq_zero
          omega
        rw [hnil, hwf.1] at hb0
        exact absurd hb0 (by simp)
      have hdir : w.fs q = some .dir :=
        hwf.2 _ q (by rw [hb0]; simp) hqf hqne
      have hnot : ¬ makeSnapshotDirPath m snap.className snap.id <+: q :=
        fun hp => hout f hf (hp.trans hqf)
      rw [hw3, hstay q (by
        intro g hg heq
        obtain ⟨c, _, hc, _⟩ := hsrc g hg
        have := kept q _ hdir hnot
        rw [← heq, hc] at this
        exact absurd this (by simp))]
      exact kept q _ hdir hnot)
    (by
      intro f hf
      rw [hw3, hgone f hf]
      simp)
    hsd
  unfold RestoreSnapshot
  rw [hl]
  simp only
  rcases hrf : restoreFiles m ctx snap.className snap.id snap.files w3 with ⟨rr, w4⟩
  rw [hrf] at hR1 hR2
  simp only at hR1 hR2
  subst hR1
  simp only
  refine ⟨trivial, ?_⟩
  intro f hf
  obtain ⟨b, hb0, _, _⟩ := hsrc f hf
  exact ⟨⟨b, hb0⟩, hgone f hf, hR2 f hf⟩

/-- C1 (amended, witness): the two files of the example survive the round trip. -/
theorem store_restore_round_trip_witness :
    (World.ofList demoTable).fs.WF
      ∧ (∀ f ∈ demoSnapshot.files, listable f.path)
      ∧ (StoreSnapshot demoModule Context.background (World.ofList demoTable)
          demoSnapshot).1 = none
      ∧ (RestoreSnapshot demoModule Context.background
          { (StoreSnapshot demoModule Context.background (World.ofList demoTable)
              demoSnapshot).2 with
            fs := removeListed demoModule demoSnapshot.files
              (StoreSnapshot demoModule Context.background (World.ofList demoTable)
                demoSnapshot).2.fs }
          demoSnapshot.className demoSnapshot.id).1 = .ok demoSnapshot
      ∧ (RestoreSnapshot demoModule Context.background
          { (StoreSnapshot demoModule Context.background (World.ofList demoTable)
              demoSnapshot).2 with
            fs := removeListed demoModule demoSnapshot.files
              (StoreSnapshot demoModule Context.background (World.ofList demoTable)
                demoSnapshot).2.fs }
          demoSnapshot.className demoSnapshot.id).2.fs ["data", "a.txt"]
          = some (.file [102, 111, 111]) :=
  have h := store_restore_round_trip demoModule Context.background (World.ofList demoTable)
    demoSnapshot (encodeSnapshot demoSnapshot) rfl (FS.ofList_WF demoTable (by decide))
    (by decide) (by decide) rfl (by rfl) (by decide) (by decide)
  ⟨FS.ofList_WF demoTable (by decide), by decide, by decide, h.1, by decide⟩

/-! ## Where the copies go -/

theorem Confined.refl (base : Path) (fs : FS) : Confined base fs fs :=
  fun _ _ => Or.inl rfl

theorem Confined.of_eq (base : Path) (fs fs1 : FS) (h : fs1 = fs) : Confined base fs fs1 :=
  h ▸ Confined.refl base fs

theorem Confined.trans (base : Path) (fs fs1 fs2 : FS) (h1 : Confined base fs fs1)
    (h2 : Confined base fs1 fs2) : Confined base fs fs2 := by
  intro q hq
  rcases h1 q hq with e1 | ⟨n1, d1, p1⟩
  · rcases h2 q hq with e2 | ⟨n2, d2, p2⟩
    · exact Or.inl (e2.trans e1)
    · exact Or.inr ⟨e1 ▸ n2, d2, p2⟩
  · rcases h2 q hq with e2 | ⟨n2, _, _⟩
    · exact Or.inr ⟨n1, e2.trans d1, p1⟩
    · rw [d1] at n2; exact absurd n2 (by simp)

/-- A path on the way to something below `base` is on the way to `base` or below it. -/
theorem on_the_way (base p q : Path) (hp : base <+: p) (hq : q <+: p)
    (hnot : ¬ base <+: q) : q <+: base := by
  rcases List.prefix_or_prefix_of_prefix hq hp with h | h
  · exact h
  · exact absurd h hnot

theorem Confined.mkdirs (base : Path) (fs : FS) (p : Path) (hway : fileOnPath fs p = false)
    (hon : ∀ q, q <+: p → ¬ base <+: q → q <+: base) :
    Confined base fs (fs.mkdirs p) := by
  intro q hnot
  unfold FS.mkdirs
  split_ifs with hq
  · cases hfs : fs q with
    | none => exact Or.inr ⟨rfl, rfl, hon q hq hnot⟩
    | some n =>
      cases n with
      | dir => exact Or.inl rfl
      | file b => exact absurd hfs ((fileOnPath_eq_false fs p).1 hway q hq b)
  · exact Or.inl rfl

theorem Confined.set (base : Path) (fs : FS) (p : Path) (n : Option Node) (h : base <+: p) :
    Confined base fs (fs.set p n) := by
  intro q hq
  refine Or.inl (FS.set_other _ _ _ _ ?_)
  intro heq
  exact hq (heq ▸ h)

/-- Whatever its outcome, `copyFile` changes, outside every directory that contains the
destination, nothing but missing directories. -/
theorem copyFile_confined (base : Path) (w : World) (dstBase srcBase : Path) (rel : String)
    (h : base <+: filepathJoin dstBase [rel]) :
    Confined base w.fs (copyFile w dstBase srcBase rel).2.fs := by
  have hon : ∀ q, q <+: pathDir (filepathJoin dstBase [rel]) → ¬ base <+: q → q <+: base :=
    fun q hq hnot => on_the_way base _ q h (hq.trans (List.dropLast_prefix _)) hnot
  rcases copyFile_cases w dstBase srcBase rel with h1 | ⟨hway, h2 | ⟨b, h3⟩⟩
  · exact Confined.of_eq _ _ _ h1
  · rw [h2]; exact Confined.mkdirs _ _ _ hway hon
  · rw [h3]
    exact Confined.trans _ _ _ _ (Confined.mkdirs _ _ _ hway hon) (Confined.set _ _ _ _ h)

theorem local_join_prefix (base : Path) (rel : String) (h : localComponents rel ≠ none) :
    cleanAbs base <+: filepathJoin base [rel] := by
  cases hl : localComponents rel with
  | none => exact absurd hl h
  | some r =>
    rw [filepathJoin_local base rel r hl]
    exact List.prefix_append _ _

theorem storeFiles_confined (m : StorageFileSystemModule) (ctx : Context) (snap : Snapshot)
    (className id : String) :
    ∀ (files : List SnapshotFile) (w : World),
      (∀ f ∈ files, localComponents f.path ≠ none) →
      Confined (makeSnapshotDirPath m className id) w.fs
        (storeFiles m ctx snap (makeSnapshotDirPath m className id) files w).2.fs := by
  intro files
  induction files with
  | nil => intro w _; exact Confined.refl _ _
  | cons f rest ih =>
    intro w hloc
    unfold storeFiles
    have h0 := ctxErr_fs ctx w
    rcases hc : ctxErr ctx w with ⟨oe, wa⟩
    rw [hc] at h0
    simp only at h0
    cases oe with
    | some e => exact Confined.of_eq _ _ _ h0
    | none =>
      simp only
      have hcf := copyFile_confined (makeSnapshotDirPath m className id) wa
        (makeSnapshotDirPath m className id) m.dataPath f.path (by
          have := local_join_prefix (makeSnapshotDirPath m className id) f.path
            (hloc f (List.mem_cons_self _ _))
          rwa [cleanAbs_makeSnapshotDirPath] at this)
      rw [h0] at hcf
      rcases hcp : copyFile wa (makeSnapshotDirPath m className id) m.dataPath f.path
        with ⟨oc, wb⟩
      rw [hcp] at hcf
      simp only at hcf
      cases oc with
      | some e => exact hcf
      | none =>
        simp only
        have hs := osStat_fs wb (makeSnapshotFilePath m snap.className snap.id f.path)
        rcases hst : osStat wb (makeSnapshotFilePath m snap.className snap.id f.path)
          with ⟨r, wc⟩
        rw [hst] at hs
        simp only at hs
        cases r with
        | error e => exact hs ▸ hcf
        | ok n =>
          simp only
          have := ih wc (fun g hg => hloc g (List.mem_cons_of_mem _ hg))
          rw [hs] at this
          exact Confined.trans _ _ _ _ hcf this

theorem restoreFiles_confined (m : StorageFileSystemModule) (ctx : Context)
    (className id : String) :
    ∀ (files : List SnapshotFile) (w : World),
      (∀ f ∈ files, localComponents f.path ≠ none) →
      Confined (cleanAbs m.dataPath) w.fs (restoreFiles m ctx className id files w).2.fs := by
  intro files
  induction files with
  | nil => intro w _; exact Confined.refl _ _
  | cons f rest ih =>
    intro w hloc
    unfold restoreFiles
    simp only
    have h0 := ctxErr_fs ctx w
    rcases hc : ctxErr ctx w with ⟨oe, wa⟩
    rw [hc] at h0
    simp only at h0
    have hpre := local_join_prefix m.dataPath f.path (hloc f (List.mem_cons_self _ _))
    cases oe with
    | some e => exact Confined.of_eq _ _ _ h0
    | none =>
      simp only
      have hcf := copyFile_confined (cleanAbs m.dataPath) wa m.dataPath
        (makeSnapshotDirPath m className id) f.path hpre
      rw [h0] at hcf
      rcases hcp : copyFile wa m.dataPath (makeSnapshotDirPath m className id) f.path
        with ⟨oc, wb⟩
      rw [hcp] at hcf
      simp only at hcf
      cases oc with
      | some e => exact hcf
      | none =>
        simp only
        have hcf2 := copyFile_confined (cleanAbs m.dataPath) wb m.dataPath
          (makeSnapshotDirPath m className id) f.path hpre
        rcases hcp2 : copyFile wb m.dataPath (makeSnapshotDirPath m className id) f.path
          with ⟨oc2, wc⟩
        rw [hcp2] at hcf2
        simp only at hcf2
        have hcf3 := Confined.trans _ _ _ _ hcf hcf2
        cases oc2 with
        | some e => exact hcf3
        | none =>
          simp only
          have hs := osStat_fs wc (makeSnapshotFilePath m className id f.path)
          rcases hst : osStat wc (makeSnapshotFilePath m className id f.path) with ⟨r, wd⟩
          rw [hst] at hs
          simp only at hs
          cases r with
          | error e => exact hs ▸ hcf3
          | ok n =>
            simp only
            have := ih wd (fun g hg => hloc g (List.mem_cons_of_mem _ hg))
            rw [hs] at this
            exact Confined.trans _ _ _ _ hcf3 this

/-- Whatever its outcome, `saveMeta` changes, outside the snapshot directory, nothing but
missing directories. -/
theorem saveMeta_confined (m : StorageFileSystemModule) (w : World) (s : Snapshot) :
    Confined (makeSnapshotDirPath m s.className s.id) w.fs (saveMeta m w s).2.fs := by
  cases hm : m.json.marshal s with
  | error e =>
    rw [saveMeta_marshal_error m w s e hm]
    exact Confined.refl _ _
  | ok content =>
    rw [saveMeta_eq m w s content hm, mkdirAllFS_eq]
    by_cases hway : fileOnPath w.fs (makeSnapshotDirPath m s.className s.id) = true
    · rw [if_pos hway]; exact Confined.refl _ _
    · rw [if_neg hway]
      have hway1 : fileOnPath w.fs (makeSnapshotDirPath m s.className s.id) = false := by
        simpa using hway
      have c1 := Confined.mkdirs (makeSnapshotDirPath m s.className s.id) w.fs
        (makeSnapshotDirPath m s.className s.id) hway1 (fun q hq _ => hq)
      simp only
      cases h2 : writeFS (w.fs.mkdirs (makeSnapshotDirPath m s.className s.id))
          (makeSnapshotDirPath m s.className s.id ++ ["snapshot.json.tmp"]) content with
      | error e => exact c1
      | ok fs2 =>
        simp only
        obtain ⟨hd2, hp2, hfs2⟩ := writeFS_ok _ _ _ _ h2
        have c2 : Confined (makeSnapshotDirPath m s.className s.id) w.fs fs2 := by
          rw [hfs2]
          exact Confined.trans _ _ _ _ c1 (Confined.set _ _ _ _ (List.prefix_append _ _))
        have hren := renameFS_file fs2
          (makeSnapshotDirPath m s.className s.id ++ ["snapshot.json.tmp"])
          (makeSnapshotDirPath m s.className s.id ++ ["snapshot.json"]) content
          (by rw [hfs2, FS.set_same]) (fun h => snapshot_json_tmp_ne _ h.symm) (by
            rw [hfs2, FS.set_other]
            · simpa [pathDir] using hd2
            · simp only [pathDir, List.dropLast_concat]
              intro h
              have hlen := congrArg List.length h
              simp at hlen)
        rw [hren]
        split_ifs
        · exact c2
        · exact Confined.trans _ _ _ _ c2
            (Confined.trans _ _ _ _ (Confined.set _ _ _ _ (List.prefix_append _ _))
              (Confined.set _ _ _ _ (List.prefix_append _ _)))

theorem splitSlash_leading_slash (rel : String) :
    splitSlash ("/" ++ rel) = "" :: splitSlash rel := by
  unfold splitSlash
  have hdata : ("/" ++ rel).data = '/' :: rel.data := by
    rw [String.data_append]
    rfl
  rw [hdata]
  conv_lhs => unfold splitSlashAux
  rw [if_pos rfl]
  rfl

/-- A path with a leading slash is joined to a base like the path without it. -/
theorem filepathJoin_leading_slash (base : Path) (rel : String) :
    filepathJoin base ["/" ++ rel] = filepathJoin base [rel] := by
  unfold filepathJoin cleanAbs
  simp only [List.map_cons, List.map_nil, List.flatten_cons, List.flatten_nil,
    List.append_nil, List.foldl_append, splitSlash_leading_slash, List.foldl_cons]
  have hstep : ∀ st : List String, cleanStep st "" = st := by
    intro st
    unfold cleanStep
    rw [if_pos (Or.inl rfl)]
  rw [hstep]

/-- The method `copyFile` looks at a path only through its joins with the two bases:
whatever the path is, when the joined source is a regular file other than the joined
destination, no regular file lies on the way to the joined destination, and the joined
destination is neither a directory nor the root, the copy goes through. -/
theorem copyFile_goes_through (w : World) (dstBase srcBase : Path) (rel : String) (b : Bytes)
    (hsrc : w.fs (filepathJoin srcBase [rel]) = some (.file b))
    (hway : fileOnPath w.fs (pathDir (filepathJoin dstBase [rel])) = false)
    (hnd : w.fs (filepathJoin dstBase [rel]) ≠ some .dir)
    (hroot : filepathJoin dstBase [rel] ≠ [])
    (hne : filepathJoin srcBase [rel] ≠ filepathJoin dstBase [rel]) :
    (copyFile w dstBase srcBase rel).1 = none
      ∧ (copyFile w dstBase srcBase rel).2.fs
          = (w.fs.mkdirs (pathDir (filepathJoin dstBase [rel]))).set
              (filepathJoin dstBase [rel]) (some (.file b)) := by
  obtain ⟨a1, a2, _⟩ := copyFile_eq_FS w dstBase srcBase rel
  rw [a1, a2]
  unfold copyFileFS
  have h1 : statFS w.fs (filepathJoin srcBase [rel]) = .ok (.file b) := by
    unfold statFS
    rw [hsrc]
  rw [h1]
  simp only [mkdirAllFS_eq, hway]
  simp only [Bool.false_eq_true, if_false]
  have hnotpre : ¬ filepathJoin dstBase [rel] <+: pathDir (filepathJoin dstBase [rel]) := by
    intro hp
    have hlen := hp.length_le
    unfold pathDir at hlen
    rw [List.length_dropLast] at hlen
    have := List.length_pos.2 hroot
    omega
  rw [writeFS_of (w.fs.mkdirs (pathDir (filepathJoin dstBase [rel])))
    (filepathJoin dstBase [rel]) []
    (by unfold FS.mkdirs; rw [if_pos List.prefix_rfl])
    (by unfold FS.mkdirs; rw [if_neg hnotpre]; exact hnd)]
  simp only
  rw [FS.set_other _ _ _ _ hne, FS.mkdirs_of_some _ _ _ _ hway hsrc]
  simp only
  refine ⟨trivial, ?_⟩
  funext q
  unfold FS.set
  split_ifs <;> rfl

/-- C4 (as stated, refuted): a descriptor listing `../escape.txt` is not rejected.
`StoreSnapshot` returns no error and creates `/snapshots/Books/escape.txt`, outside the
snapshot directory `/snapshots/Books/snapshot-1`; once `/escape.txt` is removed,
`RestoreSnapshot` returns no error and writes `/escape.txt`, outside the data directory
`/data`. A descriptor listing the absolute path `/a.txt` is not rejected either. -/
theorem paths_are_not_validated :
    (StoreSnapshot demoModule Context.background (World.ofList escapeTable)
        escapeSnapshot).1 = none
      ∧ (World.ofList escapeTable).fs ["snapshots", "Books", "escape.txt"] = none
      ∧ (StoreSnapshot demoModule Context.background (World.ofList escapeTable)
          escapeSnapshot).2.fs ["snapshots", "Books", "escape.txt"] = some (.file [7])
      ∧ ¬ makeSnapshotDirPath demoModule "Books" "snapshot-1"
          <+: ["snapshots", "Books", "escape.txt"]
      ∧ removeListed demoModule escapeSnapshot.files
          (StoreSnapshot demoModule Context.background (World.ofList escapeTable)
            escapeSnapshot).2.fs ["escape.txt"] = none
      ∧ (RestoreSnapshot demoModule Context.background
          { (StoreSnapshot demoModule Context.background (World.ofList escapeTable)
              escapeSnapshot).2 with
            fs := removeListed demoModule escapeSnapshot.files
              (StoreSnapshot demoModule Context.background (World.ofList escapeTable)
                escapeSnapshot).2.fs }
          "Books" "snapshot-1").1 = .ok escapeSnapshot
      ∧ (RestoreSnapshot demoModule Context.background
          { (StoreSnapshot demoModule Context.background (World.ofList escapeTable)
              escapeSnapshot).2 with
            fs := removeListed demoModule escapeSnapshot.files
              (StoreSnapshot demoModule Context.background (World.ofList escapeTable)
                escapeSnapshot).2.fs }
          "Books" "snapshot-1").2.fs ["escape.txt"] = some (.file [7])
      ∧ ¬ cleanAbs demoModule.dataPath <+: ["escape.txt"]
      ∧ (StoreSnapshot demoModule Context.background (World.ofList demoTable)
          absoluteSnapshot).1 = none
      ∧ (StoreSnapshot demoModule Context.background (World.ofList demoTable)
          absoluteSnapshot).2.fs ["snapshots", "Books", "snapshot-1", "a.txt"]
          = some (.file [102, 111, 111]) := by
  refine ⟨by decide, by decide, by decide, by decide, by decide, by rfl, by decide,
    by decide, by decide, by decide⟩

/-- C4 (amended): when no listed path climbs above the directory it is joined to,
`StoreSnapshot`, whatever its outcome, changes nothing outside the snapshot directory
except that missing directories on the way to it are created; when no path listed in
the stored descriptor climbs above the directory it is joined to, `RestoreSnapshot`,
whatever its outcome, changes nothing outside the data directory except that missing
directories on the way to it are created. `copyFile` rejects no path for its shape: for
every path (absolute, containing `..`, or neither), when the joined source is a regular
file other than the joined destination, no regular file lies on the way to the joined
destination, and the joined destination is neither a directory nor the root, `copyFile`
returns no error and the joined destination holds the bytes of the source; and a path
with a leading slash is joined to every base exactly like the same path without the
slash. -/
theorem copies_stay_inside (m : StorageFileSystemModule) (ctx : Context) (w : World)
    (snap : Snapshot) (className id : String)
    (hstore : ∀ f ∈ snap.files, localComponents f.path ≠ none)
    (hrestore : ∀ d, (GetMeta m ctx w className id).1 = .ok d →
      ∀ f ∈ d.files, localComponents f.path ≠ none) :
    Confined (makeSnapshotDirPath m snap.className snap.id) w.fs
        (StoreSnapshot m ctx w snap).2.fs
      ∧ Confined (cleanAbs m.dataPath) w.fs (RestoreSnapshot m ctx w className id).2.fs
      ∧ (∀ (v : World) (dstBase srcBase : Path) (rel : String) (b : Bytes),
          v.fs (filepathJoin srcBase [rel]) = some (.file b) →
          fileOnPath v.fs (pathDir (filepathJoin dstBase [rel])) = false →
          v.fs (filepathJoin dstBase [rel]) ≠ some .dir →
          filepathJoin dstBase [rel] ≠ [] →
          filepathJoin srcBase [rel] ≠ filepathJoin dstBase [rel] →
          (copyFile v dstBase srcBase rel).1 = none
            ∧ (copyFile v dstBase srcBase rel).2.fs (filepathJoin dstBase [rel])
                = some (.file b))
      ∧ (∀ (base : Path) (rel : String),
          filepathJoin base ["/" ++ rel] = filepathJoin base [rel]) := by
  refine ⟨?_, ?_, ?_, filepathJoin_leading_slash⟩
  rotate_left 2
  · intro v dstBase srcBase rel b hsrc hway hnd hroot hne
    obtain ⟨r1, r2⟩ := copyFile_goes_through v dstBase srcBase rel b hsrc hway hnd hroot hne
    exact ⟨r1, by rw [r2, FS.set_same]⟩
  · unfold StoreSnapshot
    have h0 := ctxErr_fs ctx w
    rcases hc : ctxErr ctx w with ⟨oe, w0⟩
    rw [hc] at h0
    simp only at h0
    cases oe with
    | some e => exact Confined.of_eq _ _ _ h0
    | none =>
      simp only
      unfold createBackupDir createBackupsDir osMkdirAll
      simp only [mkdirAllFS_eq]
      by_cases hway : fileOnPath w0.fs (makeSnapshotDirPath m snap.className snap.id) = true
      · rw [if_pos hway]; exact Confined.of_eq _ _ _ h0
      · rw [if_neg hway]
        simp only
        have c1 : Confined (makeSnapshotDirPath m snap.className snap.id) w.fs
            (w0.fs.mkdirs (makeSnapshotDirPath m snap.className snap.id)) := by
          rw [h0]
          exact Confined.mkdirs _ _ _ (by rw [← h0]; simpa using hway) (fun q hq _ => hq)
        have c2 := storeFiles_confined m ctx snap snap.className snap.id snap.files
          (w0.record (.mkdirAll (makeSnapshotDirPath m snap.className snap.id)) true
            (w0.fs.mkdirs (makeSnapshotDirPath m snap.className snap.id))) hstore
        rw [World.record_fs] at c2
        have c3 := Confined.trans _ _ _ _ c1 c2
        rcases hsf : storeFiles m ctx snap (makeSnapshotDirPath m snap.className snap.id)
            snap.files (w0.record (.mkdirAll (makeSnapshotDirPath m snap.className snap.id))
              true (w0.fs.mkdirs (makeSnapshotDirPath m snap.className snap.id)))
          with ⟨r, wb⟩
        rw [hsf] at c3
        simp only at c3
        cases r with
        | some e => exact c3
        | none =>
          simp only
          have c4 := Confined.trans _ _ _ _ c3 (saveMeta_confined m wb snap)
          rcases hsm : saveMeta m wb snap with ⟨r2, w4⟩
          rw [hsm] at c4
          cases r2 <;> exact c4
  · unfold RestoreSnapshot
    have h0 := loadSnapshotMeta_fs m ctx w className id
    have hd : ∀ d, (loadSnapshotMeta m ctx w className id).1 = .ok d →
        ∀ f ∈ d.files, localComponents f.path ≠ none := hrestore
    rcases hl : loadSnapshotMeta m ctx w className id with ⟨r, w1⟩
    rw [hl] at h0 hd
    simp only at h0 hd
    cases r with
    | error e => exact Confined.of_eq _ _ _ h0
    | ok d =>
      simp only
      have c1 := restoreFiles_confined m ctx className id d.files w1 (hd d rfl)
      rw [h0] at c1
      rcases hrf : restoreFiles m ctx className id d.files w1 with ⟨r2, w2⟩
      rw [hrf] at c1
      cases r2 <;> exact c1

/-- C4 (amended, witness): in the example world after the store, storing again and
restoring stay inside: restoring leaves the snapshot file `a.txt`, outside the data
directory, as it was; and the climbing path `../escape.txt` of the refutation is copied
to where its join leads. -/
theorem copies_stay_inside_witness :
    (∀ f ∈ demoSnapshot.files, localComponents f.path ≠ none)
      ∧ (GetMeta demoModule Context.background demoStored "Books" "snapshot-1").1
          = .ok demoSnapshot
      ∧ Confined (makeSnapshotDirPath demoModule demoSnapshot.className demoSnapshot.id)
          demoStored.fs
          (StoreSnapshot demoModule Context.background demoStored demoSnapshot).2.fs
      ∧ Confined (cleanAbs demoModule.dataPath) demoStored.fs
          (RestoreSnapshot demoModule Context.background demoStored "Books" "snapshot-1").2.fs
      ∧ (RestoreSnapshot demoModule Context.background demoStored
            "Books" "snapshot-1").2.fs ["snapshots", "Books", "snapshot-1", "a.txt"]
          = demoStored.fs ["snapshots", "Books", "snapshot-1", "a.txt"]
      ∧ (copyFile (World.ofList escapeTable) ["snapshots", "Books", "snapshot-1"] ["data"]
          "../escape.txt").1 = none
      ∧ (copyFile (World.ofList escapeTable) ["snapshots", "Books", "snapshot-1"] ["data"]
          "../escape.txt").2.fs ["snapshots", "Books", "escape.txt"] = some (.file [7]) :=
  have hget : (GetMeta demoModule Context.background demoStored "Books" "snapshot-1").1
      = .ok demoSnapshot := by rfl
  have h := copies_stay_inside demoModule Context.background demoStored demoSnapshot
    "Books" "snapshot-1" (by decide) (by
      intro d hd
      rw [hget] at hd
      simp only [Except.ok.injEq] at hd
      subst hd
      decide)
  have hcopy := h.2.2.1 (World.ofList escapeTable) ["snapshots", "Books", "snapshot-1"]
    ["data"] "../escape.txt" [7] (by decide) (by decide) (by decide) (by decide) (by decide)
  ⟨by decide, hget, h.1, h.2.1, by decide, hcopy.1, hcopy.2⟩

/-! ## The encoding of the examples round-trips every descriptor -/

theorem decodeString_encodeString (s : String) (rest : Bytes) :
    decodeString (encodeString s ++ rest) = some (s, rest) := by
  unfold encodeString decodeString
  simp only [List.cons_append]
  have hlen : ¬ (List.map Char.toNat s.data ++ rest).length < s.data.length := by
    simp
  rw [if_neg hlen]
  have htake : List.take s.data.length (List.map Char.toNat s.data ++ rest)
      = List.map Char.toNat s.data := by
    rw [List.take_append_of_le_length (by simp)]
    rw [List.take_of_length_le (by simp)]
  have hdrop : List.drop s.data.length (List.map Char.toNat s.data ++ rest) = rest := by
    rw [List.drop_append_of_le_length (by simp)]
    rw [List.drop_of_length_le (by simp)]
    rfl
  rw [htake, hdrop]
  simp [List.map_map, Function.comp_def, Char.ofNat_toNat]

theorem decodeFiles_encode (files : List SnapshotFile) (rest : Bytes) :
    decodeFiles files.length ((files.map (fun f => encodeString f.path)).flatten ++ rest)
      = some (files, rest) := by
  induction files with
  | nil => rfl
  | cons f fs ih =>
    simp only [List.length_cons, List.map_cons, List.flatten_cons, List.append_assoc]
    unfold decodeFiles
    rw [decodeString_encodeString]
    simp only
    rw [ih]

theorem decodeSnapshot_encodeSnapshot (s : Snapshot) :
    decodeSnapshot (encodeSnapshot s) = some s := by
  unfold encodeSnapshot decodeSnapshot
  simp only [List.append_assoc, decodeString_encodeString, List.cons_append, List.nil_append]
  have := decodeFiles_encode s.files []
  simp only [List.append_nil] at this
  rw [this]

theorem demoJSON_round_trip (s : Snapshot) :
    ∃ content, demoJSON.marshal s = .ok content ∧ demoJSON.unmarshal content = .ok s :=
  ⟨encodeSnapshot s, rfl, by
    show (match decodeSnapshot (encodeSnapshot s) with
      | some s => Except.ok s
      | none => Except.error (Err.json "invalid character")) = _
    rw [decodeSnapshot_encodeSnapshot]⟩

/-! ## Restoring a snapshot that is not there -/

theorem osStat_log (w : World) (p : Path) :
    callsOf (osStat w p).2.log
      = callsOf w.log ++ [(.stat p, (match statFS w.fs p with | .ok _ => true | .error _ => false))] := by
  unfold osStat callsOf
  cases statFS w.fs p <;> simp

theorem ctxErr_log (ctx : Context) (w : World) : (ctxErr ctx w).2.log = w.log := by
  unfold ctxErr
  split
  · split_ifs <;> rfl
  · rfl

/-- C12: under a live context, when `os.Stat` reports that the meta file of
`(className, id)` does not exist, `RestoreSnapshot` returns no descriptor but an error:
the NotFound error of `loadSnapshotMeta` annotated with `restore snapshot`, whose cause
is of kind NotFound. The filesystem is left exactly as it was, and the only system call
made is the failed stat of the meta file. -/
theorem RestoreSnapshot_missing (m : StorageFileSystemModule) (ctx : Context) (w : World)
    (className id : String) (hlive : ctx.cancelAt = none)
    (hmissing : statFS w.fs (makeMetaFilePath m className id) = .error .ENOENT) :
    (RestoreSnapshot m ctx w className id).1
        = .error (.wrap "restore snapshot" (.notFound (.sys .ENOENT)))
      ∧ (∃ e, (RestoreSnapshot m ctx w className id).1 = .error e
          ∧ e.Cause.isNotFound = true)
      ∧ (RestoreSnapshot m ctx w className id).2.fs = w.fs
      ∧ callsOf (RestoreSnapshot m ctx w className id).2.log
          = callsOf w.log ++ [(.stat (makeMetaFilePath m className id), false)] := by
  have hload : loadSnapshotMeta m ctx w className id
      = (.error (.notFound (.sys .ENOENT)),
          ({ w with polls := w.polls + 1 } : World).record
            (.stat (makeMetaFilePath m className id)) false w.fs) := by
    unfold loadSnapshotMeta
    rw [ctxErr_live ctx w hlive]
    simp only
    unfold osStat
    simp only [hmissing]
    rfl
  have hres : RestoreSnapshot m ctx w className id
      = (.error (.wrap "restore snapshot" (.notFound (.sys .ENOENT))),
          ({ w with polls := w.polls + 1 } : World).record
            (.stat (makeMetaFilePath m className id)) false w.fs) := by
    unfold RestoreSnapshot
    rw [hload]
  rw [hres]
  refine ⟨rfl, ⟨_, rfl, rfl⟩, rfl, ?_⟩
  simp [callsOf]

/-- C12 (witness): in the example world after the store, restoring the snapshot `other`,
which was never stored, fails with the annotated NotFound error and changes nothing. -/
theorem RestoreSnapshot_missing_witness :
    statFS demoStored.fs (makeMetaFilePath demoModule "Books" "other") = .error .ENOENT
      ∧ (RestoreSnapshot demoModule Context.background demoStored "Books" "other").1
          = .error (.wrap "restore snapshot" (.notFound (.sys .ENOENT)))
      ∧ (RestoreSnapshot demoModule Context.background demoStored "Books" "other").2.fs
          = demoStored.fs :=
  have h := RestoreSnapshot_missing demoModule Context.background demoStored "Books" "other"
    rfl (by rfl)
  ⟨by rfl, h.1, h.2.2.1⟩

/-! ## How often a restore copies -/

/-- C13 (the code at a failing input): restoring the stored example descriptor, whose
files are `a.txt` and `dir/b.txt`, succeeds, and the log of the call shows `io.Copy`
run twice for each listed file, where the store ran it once per file. -/
theorem RestoreSnapshot_copies_twice :
    (RestoreSnapshot demoModule Context.background demoStored "Books" "snapshot-1").1
        = .ok demoSnapshot
      ∧ copiesOf (newEntries demoStored
          (RestoreSnapshot demoModule Context.background demoStored "Books" "snapshot-1").2)
          = [(["data", "a.txt"], ["snapshots", "Books", "snapshot-1", "a.txt"]),
             (["data", "a.txt"], ["snapshots", "Books", "snapshot-1", "a.txt"]),
             (["data", "dir", "b.txt"], ["snapshots", "Books", "snapshot-1", "dir", "b.txt"]),
             (["data", "dir", "b.txt"], ["snapshots", "Books", "snapshot-1", "dir", "b.txt"])]
      ∧ copiesOf (newEntries (World.ofList demoTable) demoStored)
          = [(["snapshots", "Books", "snapshot-1", "a.txt"], ["data", "a.txt"]),
             (["snapshots", "Books", "snapshot-1", "dir", "b.txt"], ["data", "dir", "b.txt"])]
      ∧ copiesOf (newEntries demoStored
          (RestoreSnapshotOnce demoModule Context.background demoStored
            "Books" "snapshot-1").2)
          = [(["data", "a.txt"], ["snapshots", "Books", "snapshot-1", "a.txt"]),
             (["data", "dir", "b.txt"], ["snapshots", "Books", "snapshot-1", "dir", "b.txt"])] := by
  refine ⟨by rfl, by decide, by decide, by decide⟩

/-! ## Copying twice -/

/-- Two worlds with the same filesystem give `copyFile` the same error and the same
filesystem. -/
theorem copyFile_congr (w v : World) (dstBase srcBase : Path) (rel : String)
    (h : w.fs = v.fs) :
    (copyFile w dstBase srcBase rel).1 = (copyFile v dstBase srcBase rel).1
      ∧ (copyFile w dstBase srcBase rel).2.fs = (copyFile v dstBase srcBase rel).2.fs := by
  obtain ⟨a1, a2, _⟩ := copyFile_eq_FS w dstBase srcBase rel
  obtain ⟨b1, b2, _⟩ := copyFile_eq_FS v dstBase srcBase rel
  rw [a1, a2, b1, b2, h]
  exact ⟨rfl, rfl⟩

/-- A copy of a regular file onto itself, its directory being there: the file is
truncated and nothing is copied. -/
theorem copyFile_of_same (w : World) (dstBase srcBase : Path) (rel : String) (b : Bytes)
    (hsrc : w.fs (filepathJoin srcBase [rel]) = some (.file b))
    (hdirs : ∀ q, q <+: pathDir (filepathJoin dstBase [rel]) → w.fs q = some .dir)
    (hsame : filepathJoin srcBase [rel] = filepathJoin dstBase [rel]) :
    (copyFile w dstBase srcBase rel).1 = none
      ∧ (copyFile w dstBase srcBase rel).2.fs
          = w.fs.set (filepathJoin dstBase [rel]) (some (.file [])) := by
  obtain ⟨a1, a2, _⟩ := copyFile_eq_FS w dstBase srcBase rel
  rw [a1, a2]
  unfold copyFileFS
  have h1 : statFS w.fs (filepathJoin srcBase [rel]) = .ok (.file b) := by
    unfold statFS
    rw [hsrc]
  rw [h1]
  simp only [mkdirAllFS_eq, fileOnPath_of_dirs _ _ hdirs, FS.mkdirs_eq_self _ _ hdirs]
  simp only [Bool.false_eq_true, if_false]
  rw [writeFS_of w.fs (filepathJoin dstBase [rel]) [] (hdirs _ List.prefix_rfl)
    (by rw [← hsame, hsrc]; simp)]
  simp only
  rw [hsame, FS.set_same]
  simp only
  refine ⟨trivial, ?_⟩
  funext q
  unfold FS.set
  split_ifs <;> rfl

/-- Running a successful `copyFile` again succeeds and leaves the filesystem as the
first run left it. -/
theorem copyFile_again (w w1 : World) (dstBase srcBase : Path) (rel : String)
    (h : copyFile w dstBase srcBase rel = (none, w1)) :
    (copyFile w1 dstBase srcBase rel).1 = none
      ∧ (copyFile w1 dstBase srcBase rel).2.fs = w1.fs := by
  obtain ⟨b, hex, hway, hnd, hread, hfs⟩ := copyFile_ok w w1 dstBase srcBase rel h
  -- the destination is not the root
  have hlen : (pathDir (filepathJoin dstBase [rel])).length
      < (filepathJoin dstBase [rel]).length := by
    unfold pathDir
    rw [List.length_dropLast]
    have hne : filepathJoin dstBase [rel] ≠ [] := by
      intro hnil
      apply hnd
      unfold FS.mkdirs
      rw [hnil]
      simp [pathDir]
    have := List.length_pos.2 hne
    omega
  -- the directories down to the destination are there after the first run
  have hdirs : ∀ q, q <+: pathDir (filepathJoin dstBase [rel]) → w1.fs q = some .dir := by
    intro q hq
    have hq1 : q ≠ filepathJoin dstBase [rel] := by
      intro heq
      have := hq.length_le
      rw [heq] at this
      omega
    rw [hfs, FS.set_other _ _ _ _ hq1]
    unfold FS.mkdirs
    rw [if_pos hq]
  have hdst : w1.fs (filepathJoin dstBase [rel]) = some (.file b) := by
    rw [hfs, FS.set_same]
  by_cases hsame : filepathJoin srcBase [rel] = filepathJoin dstBase [rel]
  · -- source and destination are one file: it was truncated, and is truncated again
    have hb : b = [] := by
      rw [hsame, FS.set_same] at hread
      simp only [Option.some.injEq, Node.file.injEq] at hread
      exact hread.symm
    obtain ⟨r1, r2⟩ := copyFile_of_same w1 dstBase srcBase rel b (by rw [hsame]; exact hdst)
      hdirs hsame
    refine ⟨r1, ?_⟩
    rw [r2]
    funext q
    unfold FS.set
    split_ifs with hq
    · rw [hq, hdst, hb]
    · rfl
  · have hsrc : w1.fs (filepathJoin srcBase [rel]) = some (.file b) := by
      rw [hfs, FS.set_other _ _ _ _ hsame]
      rw [FS.set_other _ _ _ _ hsame] at hread
      exact hread
    obtain ⟨r1, r2⟩ := copyFile_of w1 dstBase srcBase rel b hsrc hdirs
      (by rw [hdst]; simp) hsame
    refine ⟨r1, ?_⟩
    rw [r2]
    funext q
    unfold FS.set
    split_ifs with hq
    · rw [hq, hdst]
    · rfl

theorem ctxErr_fst (ctx : Context) (w : World) :
    (ctxErr ctx w).1
      = match ctx.cancelAt with
        | some k => if k ≤ w.polls then some .ctxDone else none
        | none => none := by
  unfold ctxErr
  split
  · split_ifs <;> rfl
  · rfl

theorem ctxErr_polls (ctx : Context) (w : World) : (ctxErr ctx w).2.polls = w.polls + 1 := by
  unfold ctxErr
  split
  · split_ifs <;> rfl
  · rfl

theorem osStat_fst (w : World) (p : Path) : (osStat w p).1 = statFS w.fs p := by
  unfold osStat
  split <;> rename_i h <;> rw [h]

theorem osStat_polls (w : World) (p : Path) : (osStat w p).2.polls = w.polls := by
  unfold osStat
  split <;> rfl

/-- The loop of `RestoreSnapshot` and the loop that copies once, started in worlds with
the same filesystem and the same count of polls, return the same error and end in
worlds with the same filesystem and the same count of polls. -/
theorem restoreFiles_once_equiv (m : StorageFileSystemModule) (ctx : Context)
    (className id : String) :
    ∀ (files : List SnapshotFile) (w v : World), w.fs = v.fs → w.polls = v.polls →
      (restoreFiles m ctx className id files w).1
          = (restoreFilesOnce m ctx className id files v).1
        ∧ (restoreFiles m ctx className id files w).2.fs
          = (restoreFilesOnce m ctx className id files v).2.fs
        ∧ (restoreFiles m ctx className id files w).2.polls
          = (restoreFilesOnce m ctx className id files v).2.polls := by
  intro files
  induction files with
  | nil =>
    intro w v hfs hp
    exact ⟨rfl, hfs, hp⟩
  | cons f rest ih =>
    intro w v hfs hp
    unfold restoreFiles restoreFilesOnce
    simp only
    -- the poll
    have e1 : (ctxErr ctx w).1 = (ctxErr ctx v).1 := by
      rw [ctxErr_fst, ctxErr_fst, hp]
    have e2 : (ctxErr ctx w).2.fs = (ctxErr ctx v).2.fs := by
      rw [ctxErr_fs, ctxErr_fs, hfs]
    have e3 : (ctxErr ctx w).2.polls = (ctxErr ctx v).2.polls := by
      rw [ctxErr_polls, ctxErr_polls, hp]
    rcases hcw : ctxErr ctx w with ⟨ew, wa⟩
    rcases hcv : ctxErr ctx v with ⟨ev, va⟩
    rw [hcw, hcv] at e1 e2 e3
    simp only at e1 e2 e3
    subst e1
    cases ew with
    | some e => exact ⟨rfl, e2, e3⟩
    | none =>
      simp only
      -- the first copy
      obtain ⟨c1, c2⟩ := copyFile_congr wa va m.dataPath (makeSnapshotDirPath m className id)
        f.path e2
      have c3 : (copyFile wa m.dataPath (makeSnapshotDirPath m className id) f.path).2.polls
          = (copyFile va m.dataPath (makeSnapshotDirPath m className id) f.path).2.polls := by
        rw [(copyFile_eq_FS wa _ _ _).2.2, (copyFile_eq_FS va _ _ _).2.2, e3]
      rcases hw1 : copyFile wa m.dataPath (makeSnapshotDirPath m className id) f.path
        with ⟨cw, wb⟩
      rcases hv1 : copyFile va m.dataPath (makeSnapshotDirPath m className id) f.path
        with ⟨cv, vb⟩
      rw [hw1, hv1] at c1 c2 c3
      simp only at c1 c2 c3
      subst c1
      cases cw with
      | some e => exact ⟨rfl, c2, c3⟩
      | none =>
        simp only
        -- the repeated copy
        obtain ⟨d1, d2⟩ := copyFile_again wa wb m.dataPath
          (makeSnapshotDirPath m className id) f.path hw1
        have d3 := (copyFile_eq_FS wb m.dataPath (makeSnapshotDirPath m className id)
          f.path).2.2
        rcases hw2 : copyFile wb m.dataPath (makeSnapshotDirPath m className id) f.path
          with ⟨cw2, wc⟩
        rw [hw2] at d1 d2 d3
        simp only at d1 d2 d3
        subst d1
        simp only
        -- the stat
        have s1 : (osStat wc (makeSnapshotFilePath m className id f.path)).1
            = (osStat vb (makeSnapshotFilePath m className id f.path)).1 := by
          rw [osStat_fst, osStat_fst, d2, c2]
        have s2 : (osStat wc (makeSnapshotFilePath m className id f.path)).2.fs
            = (osStat vb (makeSnapshotFilePath m className id f.path)).2.fs := by
          rw [osStat_fs, osStat_fs, d2, c2]
        have s3 : (osStat wc (makeSnapshotFilePath m className id f.path)).2.polls
            = (osStat vb (makeSnapshotFilePath m className id f.path)).2.polls := by
          rw [osStat_polls, osStat_polls, d3, c3]
        rcases hws : osStat wc (makeSnapshotFilePath m className id f.path) with ⟨rw1, wd⟩
        rcases hvs : osStat vb (makeSnapshotFilePath m className id f.path) with ⟨rv1, vd⟩
        rw [hws, hvs] at s1 s2 s3
        simp only at s1 s2 s3
        subst s1
        cases rw1 with
        | error e => exact ⟨rfl, s2, s3⟩
        | ok n => exact ih wd vd s2 s3

/-- The method `RestoreSnapshot` and the variant that copies once return the same result
and leave the same filesystem. -/
theorem RestoreSnapshot_once_equiv (m : StorageFileSystemModule) (ctx : Context) (w : World)
    (className id : String) :
    (RestoreSnapshot m ctx w className id).1 = (RestoreSnapshotOnce m ctx w className id).1
      ∧ (RestoreSnapshot m ctx w className id).2.fs
          = (RestoreSnapshotOnce m ctx w className id).2.fs := by
  unfold RestoreSnapshot RestoreSnapshotOnce
  rcases hl : loadSnapshotMeta m ctx w className id with ⟨r, w1⟩
  cases r with
  | error e => exact ⟨rfl, rfl⟩
  | ok d =>
    simp only
    obtain ⟨h1, h2, _⟩ := restoreFiles_once_equiv m ctx className id d.files w1 w1 rfl rfl
    rcases ha : restoreFiles m ctx className id d.files w1 with ⟨ra, wa⟩
    rcases hb : restoreFilesOnce m ctx className id d.files w1 with ⟨rb, wb⟩
    rw [ha, hb] at h1 h2
    simp only at h1 h2
    subst h1
    cases ra with
    | some e => exact ⟨rfl, h2⟩
    | none => exact ⟨rfl, h2⟩

/-- C14: `copyFile` is idempotent on the filesystem. Whenever `copyFile` succeeds, running
it again with the same destination base, source base and relative path succeeds and
leaves the filesystem as the first run left it; hence, for every module, context, world
and `(className, id)`, `RestoreSnapshot` with its repeated copy returns the same result
and leaves the same filesystem as the variant that copies each file once. -/
theorem copyFile_idempotent (w w1 : World) (dstBase srcBase : Path) (rel : String)
    (h : copyFile w dstBase srcBase rel = (none, w1)) :
    (copyFile w1 dstBase srcBase rel).1 = none
      ∧ (copyFile w1 dstBase srcBase rel).2.fs = w1.fs
      ∧ ∀ (m : StorageFileSystemModule) (ctx : Context) (w0 : World) (className id : String),
          (RestoreSnapshot m ctx w0 className id).1
              = (RestoreSnapshotOnce m ctx w0 className id).1
            ∧ (RestoreSnapshot m ctx w0 className id).2.fs
              = (RestoreSnapshotOnce m ctx w0 className id).2.fs :=
  ⟨(copyFile_again w w1 dstBase srcBase rel h).1, (copyFile_again w w1 dstBase srcBase rel h).2,
    fun m ctx w0 className id => RestoreSnapshot_once_equiv m ctx w0 className id⟩

/-- C14 (witness): copying `a.txt` of the example into the snapshot directory a second
time changes nothing, and restoring the stored example gives the same descriptor with
or without the repeated copy. -/
theorem copyFile_idempotent_witness :
    (copyFile (World.ofList demoTable) ["snapshots", "Books", "snapshot-1"] ["data"]
        "a.txt").1 = none
      ∧ (copyFile
          (copyFile (World.ofList demoTable) ["snapshots", "Books", "snapshot-1"] ["data"]
            "a.txt").2 ["snapshots", "Books", "snapshot-1"] ["data"] "a.txt").1 = none
      ∧ (copyFile
          (copyFile (World.ofList demoTable) ["snapshots", "Books", "snapshot-1"] ["data"]
            "a.txt").2 ["snapshots", "Books", "snapshot-1"] ["data"] "a.txt").2.fs
          = (copyFile (World.ofList demoTable) ["snapshots", "Books", "snapshot-1"] ["data"]
              "a.txt").2.fs
      ∧ (RestoreSnapshotOnce demoModule Context.background demoStored
          "Books" "snapshot-1").1 = .ok demoSnapshot :=
  have h := copyFile_idempotent (World.ofList demoTable)
    (copyFile (World.ofList demoTable) ["snapshots", "Books", "snapshot-1"] ["data"] "a.txt").2
    ["snapshots", "Books", "snapshot-1"] ["data"] "a.txt" (by rfl)
  ⟨by decide, h.1, h.2.1,
    (h.2.2 demoModule Context.background demoStored "Books" "snapshot-1").1.symm.trans
      (by rfl)⟩

/-! ## Cancellation during a store -/

theorem ctxErr_pass (ctx : Context) (w : World) (c : Nat) (h : ctx.cancelAt = some c)
    (hlt : w.polls < c) : ctxErr ctx w = (none, { w with polls := w.polls + 1 }) := by
  unfold ctxErr
  rw [h]
  simp only
  rw [if_neg (by omega)]

theorem ctxErr_done (ctx : Context) (w : World) (c : Nat) (h : ctx.cancelAt = some c)
    (hle : c ≤ w.polls) : ctxErr ctx w = (some .ctxDone, { w with polls := w.polls + 1 }) := by
  unfold ctxErr
  rw [h]
  simp only
  rw [if_pos hle]

theorem callsOf_append (l1 l2 : List LogEntry) :
    callsOf (l1 ++ l2) = callsOf l1 ++ callsOf l2 := by
  unfold callsOf
  simp

/-- The calls a successful `copyFile` logs; the count of polls is not touched. -/
theorem copyFile_ok_log (w w1 : World) (dstBase srcBase : Path) (rel : String)
    (h : copyFile w dstBase srcBase rel = (none, w1)) :
    callsOf w1.log = callsOf w.log ++
        [(.open (filepathJoin srcBase [rel]), true),
         (.mkdirAll (pathDir (filepathJoin dstBase [rel])), true),
         (.create (filepathJoin dstBase [rel]), true),
         (.copy (filepathJoin dstBase [rel]) (filepathJoin srcBase [rel]), true)]
      ∧ w1.polls = w.polls := by
  have hp := (copyFile_eq_FS w dstBase srcBase rel).2.2
  rw [h] at hp
  refine ⟨?_, hp⟩
  unfold copyFile at h
  simp only at h
  unfold osOpen at h
  cases h1 : statFS w.fs (filepathJoin srcBase [rel]) with
  | error e => rw [h1] at h; simp at h
  | ok n =>
    rw [h1] at h
    simp only at h
    unfold osMkdirAll at h
    simp only [World.record_fs] at h
    cases h2 : mkdirAllFS w.fs (pathDir (filepathJoin dstBase [rel])) with
    | error e => rw [h2] at h; simp at h
    | ok fs1 =>
      rw [h2] at h
      simp only at h
      unfold osCreate at h
      simp only [World.record_fs] at h
      cases h3 : writeFS fs1 (filepathJoin dstBase [rel]) [] with
      | error e => rw [h3] at h; simp at h
      | ok fs2 =>
        rw [h3] at h
        simp only at h
        unfold ioCopy at h
        simp only [World.record_fs] at h
        cases h4 : fs2 (filepathJoin srcBase [rel]) with
        | none => rw [h4] at h; simp at h
        | some n4 =>
          cases n4 with
          | dir => rw [h4] at h; simp at h
          | file b =>
            rw [h4] at h
            simp only [Prod.mk.injEq, true_and] at h
            rw [← h]
            simp [callsOf]

/-- A successful run of the loop of `StoreSnapshot` polls the context once per file and
logs the calls of each file in the order of the list. -/
theorem storeFiles_ok_trace (m : StorageFileSystemModule) (ctx : Context) (snap : Snapshot) :
    ∀ (files : List SnapshotFile) (w w1 : World),
      storeFiles m ctx snap (makeSnapshotDirPath m snap.className snap.id) files w
        = (none, w1) →
      w1.polls = w.polls + files.length
        ∧ callsOf w1.log = callsOf w.log ++ (files.map (storeCalls m snap)).flatten := by
  intro files
  induction files with
  | nil =>
    intro w w1 h
    unfold storeFiles at h
    simp only [Prod.mk.injEq, true_and] at h
    subst h
    simp
  | cons f rest ih =>
    intro w w1 h
    unfold storeFiles at h
    have p0 := ctxErr_polls ctx w
    have l0 := ctxErr_log ctx w
    rcases hc : ctxErr ctx w with ⟨oe, wa⟩
    rw [hc] at h p0 l0
    cases oe with
    | some e => simp at h
    | none =>
      simp only at h p0 l0
      rcases hcp : copyFile wa (makeSnapshotDirPath m snap.className snap.id) m.dataPath f.path
        with ⟨oc, wb⟩
      rw [hcp] at h
      cases oc with
      | some e => simp at h
      | none =>
        simp only at h
        obtain ⟨lb, pb⟩ := copyFile_ok_log wa wb _ _ _ hcp
        have ls := osStat_log wb (makeSnapshotFilePath m snap.className snap.id f.path)
        have ps := osStat_polls wb (makeSnapshotFilePath m snap.className snap.id f.path)
        have fs1 := osStat_fst wb (makeSnapshotFilePath m snap.className snap.id f.path)
        rcases hst : osStat wb (makeSnapshotFilePath m snap.className snap.id f.path)
          with ⟨r, wc⟩
        rw [hst] at h ls ps fs1
        cases r with
        | error e => simp at h
        | ok n =>
          simp only at h ls ps fs1
          rw [← fs1] at ls
          simp only at ls
          obtain ⟨ih1, ih2⟩ := ih wc w1 h
          refine ⟨by rw [ih1, ps, pb, p0]; simp only [List.length_cons]; omega, ?_⟩
          rw [ih2, ls, lb, l0]
          simp [storeCalls]

/-- The loop of `StoreSnapshot` over a list in two parts: the second part runs from where
the first part succeeded. -/
theorem storeFiles_append (m : StorageFileSystemModule) (ctx : Context) (snap : Snapshot)
    (dstPath : Path) (rest : List SnapshotFile) :
    ∀ (pre : List SnapshotFile) (w w1 : World),
      storeFiles m ctx snap dstPath pre w = (none, w1) →
      storeFiles m ctx snap dstPath (pre ++ rest) w = storeFiles m ctx snap dstPath rest w1 := by
  intro pre
  induction pre with
  | nil =>
    intro w w1 h
    unfold storeFiles at h
    simp only [Prod.mk.injEq, true_and] at h
    subst h
    rfl
  | cons f pre ih =>
    intro w w1 h
    simp only [List.cons_append]
    unfold storeFiles at h
    conv_lhs => unfold storeFiles
    rcases hc : ctxErr ctx w with ⟨oe, wa⟩
    rw [hc] at h
    cases oe with
    | some e => simp at h
    | none =>
      simp only at h ⊢
      rcases hcp : copyFile wa dstPath m.dataPath f.path with ⟨oc, wb⟩
      rw [hcp] at h
      cases oc with
      | some e => simp at h
      | none =>
        simp only at h ⊢
        rcases hst : osStat wb (makeSnapshotFilePath m snap.className snap.id f.path)
          with ⟨r, wc⟩
        rw [hst] at h
        cases r with
        | error e => simp at h
        | ok n =>
          simp only at h ⊢
          exact ih wc w1 h

theorem callsOf_newEntries (w w1 : World) (calls : List (Syscall × Bool))
    (h : callsOf w1.log = callsOf w.log ++ calls) : callsOf (newEntries w w1) = calls := by
  unfold newEntries
  have hdrop : callsOf (w1.log.drop w.log.length) = (callsOf w1.log).drop w.log.length := by
    unfold callsOf
    rw [List.map_drop]
  rw [hdrop, h]
  have hlen : w.log.length = (callsOf w.log).length := by
    unfold callsOf
    simp
  rw [hlen, List.drop_left]

/-- For paths that stay inside none of whose sources lies in the snapshot directory, no
destination is a source and equal destinations have equal sources. -/
theorem local_paths (m : StorageFileSystemModule) (className id : String)
    (files : List SnapshotFile) (hloc : ∀ f ∈ files, localComponents f.path ≠ none)
    (hout : ∀ f ∈ files,
      ¬ makeSnapshotDirPath m className id <+: filepathJoin m.dataPath [f.path]) :
    (∀ f ∈ files, ∀ g ∈ files, filepathJoin m.dataPath [f.path]
        ≠ filepathJoin (makeSnapshotDirPath m className id) [g.path])
      ∧ (∀ f ∈ files, ∀ g ∈ files,
          filepathJoin (makeSnapshotDirPath m className id) [f.path]
            = filepathJoin (makeSnapshotDirPath m className id) [g.path] →
          filepathJoin m.dataPath [f.path] = filepathJoin m.dataPath [g.path]) := by
  have comps : ∀ f ∈ files, ∃ r, localComponents f.path = some r := by
    intro f hf
    cases hl : localComponents f.path with
    | none => exact absurd hl (hloc f hf)
    | some r => exact ⟨r, rfl⟩
  refine ⟨?_, ?_⟩
  · intro f hf g hg heq
    obtain ⟨r, hr⟩ := comps g hg
    rw [join_snapshotDir m className id g.path r hr] at heq
    exact hout f hf (heq ▸ List.prefix_append _ _)
  · intro f hf g hg heq
    obtain ⟨r, hr⟩ := comps f hf
    obtain ⟨r1, hr1⟩ := comps g hg
    rw [join_snapshotDir m className id f.path r hr,
      join_snapshotDir m className id g.path r1 hr1] at heq
    have := List.append_cancel_left heq
    subst this
    rw [filepathJoin_local _ f.path r hr, filepathJoin_local _ g.path r hr1]

/-- Why the paths must stay inside for the bytes: the second path of `twinSnapshot`
climbs out and is joined to the destination of the first, so after the two copies the
destination of `a.txt` holds the bytes of `/snapshot-1/a.txt`, not those of
`/data/a.txt`. -/
theorem climbing_path_shares_destination :
    localComponents "../snapshot-1/a.txt" = none
      ∧ (StoreSnapshot demoModule (Context.doneFrom 3) (World.ofList twinTable)
          twinSnapshot).1 = some (.contextExpired (.wrap "store snapshot aborted" .ctxDone))
      ∧ (World.ofList twinTable).fs (filepathJoin demoModule.dataPath ["a.txt"])
          = some (.file [1])
      ∧ (StoreSnapshot demoModule (Context.doneFrom 3) (World.ofList twinTable)
          twinSnapshot).2.fs (makeSnapshotFilePath demoModule "Books" "snapshot-1" "a.txt")
          = some (.file [2]) := by
  refine ⟨by decide, by decide, by decide, by decide⟩

/-- Why the sources must not lie in the snapshot directory for the bytes: the second source
of `nestedSnapshot` is the destination of the first file, so the second destination
holds the bytes of `/data/a.txt`, not those its own source held when the call
started. -/
theorem source_in_snapshot_directory_is_overwritten :
    (∀ f ∈ nestedSnapshot.files, localComponents f.path ≠ none)
      ∧ makeSnapshotDirPath nestedModule "Books" "snapshot-1"
          <+: filepathJoin nestedModule.dataPath ["snapshots/Books/snapshot-1/a.txt"]
      ∧ (StoreSnapshot nestedModule (Context.doneFrom 3) (World.ofList nestedTable)
          nestedSnapshot).1 = some (.contextExpired (.wrap "store snapshot aborted" .ctxDone))
      ∧ (World.ofList nestedTable).fs
          (filepathJoin nestedModule.dataPath ["snapshots/Books/snapshot-1/a.txt"])
          = some (.file [2])
      ∧ (StoreSnapshot nestedModule (Context.doneFrom 3) (World.ofList nestedTable)
          nestedSnapshot).2.fs (makeSnapshotFilePath nestedModule "Books" "snapshot-1"
            "snapshots/Books/snapshot-1/a.txt") = some (.file [1]) := by
  refine ⟨by decide, by decide, by decide, by decide, by decide⟩

/-- C11 (as stated, refuted): with the two files of the example and a context that is
done once the poll before each of the two files has passed (`k = n = 2`),
`StoreSnapshot` returns no error at all and writes the meta file: the context is not
polled again after the last file. -/
theorem StoreSnapshot_ignores_late_cancel :
    demoSnapshot.files.length = 2
      ∧ (StoreSnapshot demoModule (Context.doneFrom 3) (World.ofList demoTable)
          demoSnapshot).1 = none
      ∧ (ctxErr (Context.doneFrom 3)
          (StoreSnapshot demoModule (Context.doneFrom 3) (World.ofList demoTable)
            demoSnapshot).2).1 = some .ctxDone
      ∧ (World.ofList demoTable).fs (makeMetaFilePath demoModule "Books" "snapshot-1") = none
      ∧ (StoreSnapshot demoModule (Context.doneFrom 3) (World.ofList demoTable)
          demoSnapshot).2.fs (makeMetaFilePath demoModule "Books" "snapshot-1")
          = some (.file (encodeSnapshot demoSnapshot))
      ∧ (callsOf (newEntries (World.ofList demoTable)
          (StoreSnapshot demoModule (Context.doneFrom 3) (World.ofList demoTable)
            demoSnapshot).2)).getLast?
          = some (.rename ["snapshots", "Books", "snapshot-1", "snapshot.json.tmp"]
              ["snapshots", "Books", "snapshot-1", "snapshot.json"], true) := by
  refine ⟨by decide, by decide, by decide, by decide, by decide, by decide⟩

/-- C11 (amended): for a descriptor with `n` files and every `k < n`, when the snapshot
directory can be created, the loop copies the first `k` files without error, and the
context is done from the poll before file `k + 1` on (the first poll of the call and
the polls before the files `1..k` pass), `StoreSnapshot` returns a ContextExpired error.
The calls it made are, in this order and all successful, the creation of the snapshot
directory and then for each of the first `k` files, in the order of the list, open,
mkdir, create, copy and stat: no call for a later file, no write of the temporary meta
file and no rename onto the meta file. If moreover none of the first `k` paths climbs
above the directory it is joined to and their sources do not lie in the snapshot
directory, each of these files is at its destination with the bytes its source held
when the call started. -/
theorem StoreSnapshot_cancelled (m : StorageFileSystemModule) (ctx : Context) (w : World)
    (snap : Snapshot) (k : Nat)
    (hk : k < snap.files.length)
    (hctx : ctx.cancelAt = some (w.polls + 1 + k))
    (hdir : fileOnPath w.fs (makeSnapshotDirPath m snap.className snap.id) = false)
    (hcopied : (storeFiles m ctx snap (makeSnapshotDirPath m snap.className snap.id)
      (snap.files.take k) (storeStart m ctx w snap)).1 = none) :
    (StoreSnapshot m ctx w snap).1
        = some (.contextExpired (.wrap "store snapshot aborted" .ctxDone))
      ∧ callsOf (newEntries w (StoreSnapshot m ctx w snap).2)
          = (.mkdirAll (makeSnapshotDirPath m snap.className snap.id), true)
              :: ((snap.files.take k).map (storeCalls m snap)).flatten
      ∧ ((∀ f ∈ snap.files.take k, localComponents f.path ≠ none) →
          (∀ f ∈ snap.files.take k, ¬ makeSnapshotDirPath m snap.className snap.id
            <+: filepathJoin m.dataPath [f.path]) →
          ∀ f ∈ snap.files.take k, ∃ b,
            w.fs (filepathJoin m.dataPath [f.path]) = some (.file b)
              ∧ (StoreSnapshot m ctx w snap).2.fs
                  (makeSnapshotFilePath m snap.className snap.id f.path)
                  = some (.file b)) := by
  -- the first poll passes and the snapshot directory is made
  have hpoll := ctxErr_pass ctx w _ hctx (by omega)
  have hstart : storeStart m ctx w snap
      = ({ w with polls := w.polls + 1 } : World).record
          (.mkdirAll (makeSnapshotDirPath m snap.className snap.id)) true
          (w.fs.mkdirs (makeSnapshotDirPath m snap.className snap.id)) := by
    unfold storeStart createBackupDir createBackupsDir osMkdirAll
    rw [hpoll]
    simp only [mkdirAllFS_eq, hdir]
    rfl
  have hcbd : createBackupDir m ({ w with polls := w.polls + 1 } : World) snap
      = (makeSnapshotDirPath m snap.className snap.id, none, storeStart m ctx w snap) := by
    rw [hstart]
    unfold createBackupDir createBackupsDir osMkdirAll
    simp only [mkdirAllFS_eq, hdir]
    rfl
  -- the loop over the first k files
  rcases hpre : storeFiles m ctx snap (makeSnapshotDirPath m snap.className snap.id)
      (snap.files.take k) (storeStart m ctx w snap) with ⟨r, w2⟩
  rw [hpre] at hcopied
  simp only at hcopied
  subst hcopied
  obtain ⟨hpolls, hlog⟩ := storeFiles_ok_trace m ctx snap _ _ _ hpre
  have hsplit := storeFiles_append m ctx snap (makeSnapshotDirPath m snap.className snap.id)
    (snap.files.drop k) _ _ _ hpre
  rw [List.take_append_drop] at hsplit
  -- the poll before file k + 1
  obtain ⟨f, rest, hdrop⟩ : ∃ f rest, snap.files.drop k = f :: rest := by
    cases hd : snap.files.drop k with
    | nil =>
      have := congrArg List.length hd
      simp only [List.length_drop, List.length_nil] at this
      omega
    | cons f rest => exact ⟨f, rest, rfl⟩
  have hw2polls : w2.polls = w.polls + 1 + k := by
    rw [hpolls, hstart, World.record_polls, List.length_take]
    simp only
    rw [Nat.min_eq_left (by omega)]
  have hstop : storeFiles m ctx snap (makeSnapshotDirPath m snap.className snap.id)
      (snap.files.drop k) w2
      = (some (.contextExpired (.wrap "store snapshot aborted" .ctxDone)),
          { w2 with polls := w2.polls + 1 }) := by
    rw [hdrop]
    unfold storeFiles
    rw [ctxErr_done ctx w2 _ hctx (by omega)]
  have hres : StoreSnapshot m ctx w snap
      = (some (.contextExpired (.wrap "store snapshot aborted" .ctxDone)),
          { w2 with polls := w2.polls + 1 }) := by
    unfold StoreSnapshot
    rw [hpoll]
    simp only
    rw [hcbd]
    simp only
    rw [hsplit, hstop]
  rw [hres]
  refine ⟨rfl, ?_, ?_⟩
  · apply callsOf_newEntries
    show callsOf w2.log = _
    rw [hlog, hstart]
    simp [callsOf]
  · intro hlist hout f hf
    obtain ⟨hsd, hinj⟩ := local_paths m snap.className snap.id (snap.files.take k)
      hlist hout
    obtain ⟨hA, _, _⟩ := storeFiles_ok m ctx snap _ _ _ _ hpre hsd hinj
    obtain ⟨b, hb1, hb2⟩ := hA f hf
    refine ⟨b, ?_, ?_⟩
    · rw [hstart, World.record_fs] at hb1
      unfold FS.mkdirs at hb1
      split_ifs at hb1
      · exact absurd hb1 (by simp)
      · exact hb1
    · rw [makeSnapshotFilePath_eq_join]
      exact hb2

/-- C11 (amended, witness): with the example and a context that is done once the first
file has been copied, the call returns ContextExpired, `a.txt` is at its destination
with its bytes, `dir/b.txt` is not, and the meta file is not there. -/
theorem StoreSnapshot_cancelled_witness :
    1 < demoSnapshot.files.length
      ∧ (storeFiles demoModule (Context.doneFrom 2) demoSnapshot
          (makeSnapshotDirPath demoModule demoSnapshot.className demoSnapshot.id)
          (demoSnapshot.files.take 1)
          (storeStart demoModule (Context.doneFrom 2) (World.ofList demoTable)
            demoSnapshot)).1 = none
      ∧ (StoreSnapshot demoModule (Context.doneFrom 2) (World.ofList demoTable)
          demoSnapshot).1 = some (.contextExpired (.wrap "store snapshot aborted" .ctxDone))
      ∧ (StoreSnapshot demoModule (Context.doneFrom 2) (World.ofList demoTable)
          demoSnapshot).2.fs ["snapshots", "Books", "snapshot-1", "a.txt"]
          = some (.file [102, 111, 111])
      ∧ (StoreSnapshot demoModule (Context.doneFrom 2) (World.ofList demoTable)
          demoSnapshot).2.fs ["snapshots", "Books", "snapshot-1", "dir", "b.txt"] = none
      ∧ (StoreSnapshot demoModule (Context.doneFrom 2) (World.ofList demoTable)
          demoSnapshot).2.fs ["snapshots", "Books", "snapshot-1", "snapshot.json"] = none :=
  have h := StoreSnapshot_cancelled demoModule (Context.doneFrom 2) (World.ofList demoTable)
    demoSnapshot 1 (by decide) rfl (by decide) (by decide)
  ⟨by decide, by decide, h.1, by decide, by decide, by decide⟩

end Weaviate
